import Mathlib

/-!
# Databox container manager: lifecycle engine

A shallow embedding of `containerManager.go` and `coreNetworkClient.go`
(me-box/core-container-manager).  Go strings are Lean strings, Go slices are
lists, a Go `error` is an `Option String` (`none` is `nil`), and a Go map is
an association list kept in insertion order.  Everything the manager does to
the container runtime, the arbiter, the core-network daemon and the
management store is a step on an explicit `World`; every mutating call is
also appended to `World.log`, so that "issues", "asks" and "performs" are
statements about that log.  The event loop of the crash detector is run on
finite lists of events, and `reloadApps`, which is concurrent, is a transition
system over the steps of its goroutines.
-/

set_option linter.unusedVariables false

namespace Databox

/-! ## Go standard library -/

namespace strings

/-- Go `strings.Contains(s, substr)`: `substr` occurs as a contiguous run in `s`. -/
def Contains (s substr : String) : Bool :=
  decide (substr.data <:+: s.data)

/-- Go `strings.ToUpper`, on the ASCII letters (component names are DNS labels). -/
def ToUpper (s : String) : String :=
  String.mk (s.data.map Char.toUpper)

end strings

/-- The two accessors of a parsed `*url.URL` that the manager reads. -/
structure URL where
  /-- Result of `Hostname()`: the host without the port. -/
  Hostname : String
  /-- Field `Path`. -/
  Path : String
deriving DecidableEq, Repr

/-! ## lib-go-databox types -/

/-- Go `libDatabox.DataboxType` is a Go string type; `"app"`, `"driver"` and
`"store"` are its named constants. -/
abbrev DataboxType := String

/-- Go `libDatabox.DataboxTypeApp`. -/
def DataboxTypeApp : DataboxType := "app"
/-- Go `libDatabox.DataboxTypeDriver`. -/
def DataboxTypeDriver : DataboxType := "driver"
/-- Go `libDatabox.DataboxTypeStore`. -/
def DataboxTypeStore : DataboxType := "store"

/-- One entry of `HypercatItem.ItemMetadata`. -/
inductive RelVal where
  | pair (Rel Val : String)
  | pairBool (Rel : String) (Val : Bool)
deriving DecidableEq, Repr

/-- Go `libDatabox.HypercatItem`. -/
structure HypercatItem where
  ItemMetadata : List RelVal := []
  Href : String := ""
deriving DecidableEq, Repr

/-- Go `libDatabox.DataSource` (the fields the manager reads). -/
structure DataSource where
  Name : String := ""
  Clientid : String := ""
  Hypercat : HypercatItem := {}
deriving DecidableEq, Repr

/-- Go `libDatabox.ExportWhitelist`. -/
structure ExportWhitelist where
  Url : String := ""
  Description : String := ""
deriving DecidableEq, Repr

/-- Go `libDatabox.ExternalWhitelist`. -/
structure ExternalWhitelist where
  Urls : List String := []
  Description : String := ""
deriving DecidableEq, Repr

/-- Go `libDatabox.ResourceRequirements`. -/
structure ResourceRequirements where
  Store : String := ""
deriving DecidableEq, Repr

/-- Go `libDatabox.SLA`. -/
structure SLA where
  Name : String := ""
  DockerImage : String := ""
  DockerRegistry : String := ""
  DockerImageTag : String := ""
  DataboxType : DataboxType := ""
  Datasources : List DataSource := []
  ExportWhitelists : List ExportWhitelist := []
  ExternalWhitelist : List ExternalWhitelist := []
  ResourceRequirements : ResourceRequirements := {}
deriving DecidableEq, Repr

/-- Go `libDatabox.ContainerManagerOptions` (the fields the manager reads). -/
structure ContainerManagerOptions where
  Version : String := ""
  DefaultRegistry : String := ""
  DefaultRegistryHost : String := ""
  Arch : String := ""
  DefaultStoreImage : String := ""
  DefaultAppStore : String := ""
deriving DecidableEq, Repr

/-- Go `libDatabox.Route`. -/
structure Route where
  Target : String
  Path : String
  Method : String
deriving DecidableEq, Repr

/-- Go `libDatabox.ContainerPermissions`. -/
structure ContainerPermissions where
  Name : String
  Route : Route
  Caveat : String
deriving DecidableEq, Repr

/-! ## The manager's configuration -/

/-- The immutable fields of `ContainerManager`.  The `InstalledComponents`
map is shared by every copy of the struct, so it lives in the `World`. -/
structure ContainerManager where
  DATABOX_DNS_IP : String := ""
  DATABOX_ROOT_CA_ID : String := ""
  ZMQ_PUBLIC_KEY_ID : String := ""
  ZMQ_PRIVATE_KEY_ID : String := ""
  ARCH : String := ""
  Options : ContainerManagerOptions := {}
  AppStoreName : String := ""
  CoreIUName : String := ""
  CoreStoreName : String := ""
deriving DecidableEq, Repr

/-- Go `NewContainerManager`: the fields fixed at construction, and the
architecture suffix `"-" + opt.Arch` (empty when no architecture is set).
`dnsIP` is the value of the environment variable `DATABOX_DNS_IP`. -/
def NewContainerManager (dnsIP rootCASecretId zmqPublicId zmqPrivateId : String)
    (opt : ContainerManagerOptions) : ContainerManager :=
  let cm : ContainerManager :=
    { DATABOX_DNS_IP := dnsIP
      DATABOX_ROOT_CA_ID := rootCASecretId
      ZMQ_PUBLIC_KEY_ID := zmqPublicId
      ZMQ_PRIVATE_KEY_ID := zmqPrivateId
      Options := opt
      AppStoreName := "app-store"
      CoreIUName := "core-ui"
      CoreStoreName := "core-store" }
  if opt.Arch ≠ "" then
    { cm with ARCH := "-" ++ opt.Arch }
  else
    { cm with ARCH := "" }

/-- Go `calculateImageNameFromSLA`. -/
def calculateImageNameFromSLA (cm : ContainerManager) (sla : SLA) : String :=
  if strings.Contains sla.DockerImage "/" && strings.Contains sla.DockerImage ":" then
    sla.DockerImage
  else
    let imageName := if sla.DockerImage ≠ "" then sla.DockerImage else sla.Name
    let imageName := imageName ++ cm.ARCH
    let registry := if sla.DockerRegistry ≠ "" then sla.DockerRegistry else cm.Options.DefaultRegistry
    let version := if sla.DockerImageTag ≠ "" then sla.DockerImageTag else cm.Options.Version
    registry ++ "/" ++ imageName ++ ":" ++ version

/-! ## Container runtime types (Docker API) -/

/-- Go `swarm.SecretReferenceFileTarget`. -/
structure SecretReferenceFileTarget where
  Name : String := ""
  UID : String := ""
  GID : String := ""
  Mode : Nat := 0
deriving DecidableEq, Repr

/-- Go `swarm.SecretReference`. -/
structure SecretReference where
  SecretID : String := ""
  SecretName : String := ""
  File : SecretReferenceFileTarget := {}
deriving DecidableEq, Repr

/-- Go `mount.Mount`; the Go field `Type` is `Typ` here. -/
structure Mount where
  Source : String := ""
  Target : String := ""
  Typ : String := ""
deriving DecidableEq, Repr

/-- Go `swarm.ContainerSpec` (the fields the manager or its helpers set). -/
structure ContainerSpec where
  Image : String := ""
  Hostname : String := ""
  Labels : List (String × String) := []
  Env : List String := []
  Secrets : List SecretReference := []
  Mounts : List Mount := []
  DNS : List String := []
deriving DecidableEq, Repr

/-- Go `swarm.TaskSpec`. -/
structure TaskSpec where
  ContainerSpec : ContainerSpec := {}
  Networks : List String := []
deriving DecidableEq, Repr

/-- Go `swarm.ServiceSpec`; `Name` and `Labels` are the embedded `Annotations`. -/
structure ServiceSpec where
  Name : String := ""
  Labels : List (String × String) := []
  TaskTemplate : TaskSpec := {}
deriving DecidableEq, Repr

/-- Go `swarm.Service`. -/
structure Service where
  ID : String := ""
  Spec : ServiceSpec := {}
deriving DecidableEq, Repr

/-- Go `swarm.Secret`. -/
structure Secret where
  ID : String := ""
  Name : String := ""
  Data : String := ""
deriving DecidableEq, Repr

/-- Go `types.ImageSummary`. -/
structure ImageSummary where
  RepoTags : List String := []
deriving DecidableEq, Repr

/-- Go `types.EndpointResource`: a container as seen from a network. -/
structure EndpointResource where
  Name : String := ""
  IPv4Address : String := ""
deriving DecidableEq, Repr

/-- Go `types.NetworkResource`; `Containers` is a Go map, listed in the order the
runtime iterates it. -/
structure NetworkResource where
  ID : String := ""
  Name : String := ""
  Internal : Bool := false
  Driver : String := ""
  Attachable : Bool := false
  Labels : List (String × String) := []
  Containers : List EndpointResource := []
deriving DecidableEq, Repr

/-- Go `types.NetworkCreate`. -/
structure NetworkCreate where
  Internal : Bool := false
  Driver : String := ""
  Attachable : Bool := false
  Labels : List (String × String) := []
deriving DecidableEq, Repr

/-- Go `network.EndpointIPAMConfig`. -/
structure EndpointIPAMConfig where
  IPv4Address : String := ""
deriving DecidableEq, Repr

/-- Go `network.EndpointSettings`; `IPAMConfig` is a pointer, `none` when nil. -/
structure EndpointSettings where
  IPAddress : String := ""
  IPAMConfig : Option EndpointIPAMConfig := none
deriving DecidableEq, Repr

/-- Go `types.Container`; `Networks` is `NetworkSettings.Networks`. -/
structure Container where
  ID : String := ""
  Names : List String := []
  Labels : List (String × String) := []
  Networks : List (String × EndpointSettings) := []
deriving DecidableEq, Repr

/-- Go `NetworkConfig` of coreNetworkClient.go. -/
structure NetworkConfig where
  NetworkName : String := ""
  DNS : String := ""
deriving DecidableEq, Repr

/-- The body of a request to the core-network daemon, before `json.Marshal`. -/
inductive PostData where
  | connect (Name : String) (Peers : List String)
  | disconnect (Name IP : String)
  | restart (Name OldIP NewIP : String)
  | privileged (SrcIP : String)
deriving DecidableEq, Repr

/-- The filter of a `ContainerList` call. -/
inductive ContainerFilter where
  | name (value : String)
  | label (key value : String)
deriving DecidableEq, Repr

/-- A call the manager makes on one of its collaborators: the container
runtime, the arbiter, the core-network daemon, the management store. -/
inductive Call where
  | NetworkList (name : String)
  | NetworkInspect (id : String)
  | NetworkCreate (name : String) (options : NetworkCreate)
  | NetworkConnect (networkID containerID : String)
  | ContainerList (filter : ContainerFilter)
  | ImageList
  | ImagePull (image : String)
  | SecretList (name : String)
  | SecretRemove (id : String)
  | SecretCreate (name data : String)
  | ServiceList (name : String)
  | ServiceCreate (service : ServiceSpec)
  | RegesterDataboxComponent (name token : String) (type : DataboxType)
  | GrantContainerPermissions (permission : ContainerPermissions)
  | Post (URL : String) (data : PostData)
  | SaveSLA (sla : SLA)
  | ServiceRemove (id : String)
  | ContainerRemove (id : String) (force : Bool)
  | DeleteSLA (name : String)
deriving DecidableEq, Repr

/-! ## What lies outside the repository's source files -/

/-- Functions of the Go standard library, of lib-go-databox and of the
repository's helper files, and the name filters of the container runtime.
They are parameters of the embedding: no property below depends on what they
compute. -/
structure Deps where
  /-- Go `url.Parse`; `none` is the `nil` URL returned with an error. -/
  urlParse : String → Option URL
  /-- Go `libDatabox.IsActuator`. -/
  IsActuator : DataSource → Bool
  /-- Go `libDatabox.IsFunc`. -/
  IsFunc : DataSource → Bool
  /-- Go `json.Marshal` of a hypercat item. -/
  jsonMarshal : HypercatItem → String
  /-- Go `b64.StdEncoding.EncodeToString`. -/
  EncodeToString : String → String
  /-- Go `constructDefaultServiceSpec (localContainerName, imageName, databoxType,
  databoxVersion, netConf)`. -/
  constructDefaultServiceSpec : String → String → DataboxType → String → NetworkConfig → ServiceSpec
  /-- Go `GenCert (CAFilePath, commonName, ips, hostNames)`. -/
  GenCert : String → String → List String → List String → String
  /-- Does the runtime's `name` filter with this value select this network name? -/
  networkNameFilter : String → String → Bool
  /-- Does the runtime's `name` filter with this value select this container? -/
  containerNameFilter : String → Container → Bool
  /-- Does the runtime's `name` filter with this value select this service name? -/
  serviceNameFilter : String → String → Bool
  /-- Does the runtime's `name` filter with this value select this secret name? -/
  secretNameFilter : String → String → Bool

/-! ## The world the manager acts on -/

/-- State of the collaborators and of the manager's shared map. -/
structure World where
  /-- Every mutating call made so far, oldest first (failed calls included). -/
  log : List Call := []
  /-- Seconds elapsed. -/
  now : Nat := 0
  /-- The error a call fails with; `none` when it succeeds. -/
  errorOf : Call → Option String := fun _ => none
  /-- Status code the core-network daemon answers a request with. -/
  StatusCode : String → PostData → Int := fun _ _ => 200
  /-- Images present in the runtime. -/
  images : List ImageSummary := []
  /-- Image references a pull can fetch. -/
  registry : List String := []
  services : List Service := []
  secrets : List Secret := []
  networks : List NetworkResource := []
  /-- The containers the runtime runs at a given second. -/
  containersAt : Nat → List Container := fun _ => []
  /-- Identifiers of the containers that have been removed. -/
  removed : List String := []
  /-- Identifier the runtime gives to the n-th object it creates. -/
  idOf : Nat → String := fun _ => ""
  nextID : Nat := 0
  /-- The endpoint the runtime records when a container joins a network. -/
  endpointOf : String → String → EndpointResource := fun _ _ => {}
  /-- The n-th value `GenerateArbiterToken` draws. -/
  entropy : Nat → String := fun _ => ""
  entropyUsed : Nat := 0
  /-- SLAs held by the management store. -/
  slas : List SLA := []
  /-- The map `ContainerManager.InstalledComponents`. -/
  InstalledComponents : List (String × String) := []

/-- Outcome of running a piece of Go code: it returns a value, or it panics. -/
inductive Res (α : Type) where
  | ok (a : α) (w : World)
  | panic (w : World)

/-- The world an outcome leaves behind. -/
def Res.world {α : Type} : Res α → World
  | .ok _ w => w
  | .panic w => w

/-- The returned value, if the code returned. -/
def Res.value {α : Type} : Res α → Option α
  | .ok a _ => some a
  | .panic _ => none

/-- A Go function body: a step on the world that may panic. -/
def Exec (α : Type) : Type := World → Res α

/-- Sequencing; a panic ends the run. -/
def Exec.bind {α β : Type} (m : Exec α) (f : α → Exec β) : Exec β :=
  fun w =>
    match m w with
    | .ok a w1 => f a w1
    | .panic w1 => .panic w1

instance : Monad Exec where
  pure a := fun w => .ok a w
  bind := Exec.bind

/-- A run-time panic (nil dereference, index out of range). -/
def Exec.panic {α : Type} : Exec α := fun w => .panic w

/-- Go `time.Sleep` of a number of seconds. -/
def Sleep (seconds : Nat) : Exec Unit :=
  fun w => .ok () { w with now := w.now + seconds }

/-- A Go `for _, x := range xs` loop whose body returns nothing. -/
def forRange {α : Type} (body : α → Exec Unit) : List α → Exec Unit
  | [] => pure ()
  | x :: xs => do body x; forRange body xs

/-- The calls a run adds to the log. -/
def issued {α : Type} (m : Exec α) (w : World) : List Call :=
  (m w).world.log.drop w.log.length

/-! ## lib-go-databox helpers -/

/-- Go `libDatabox.ChkErr`: a non-nil error is written to the log output and
the caller goes on.  The logging calls (`Debug`, `Info`, `Warn`, `Err`) write
to the same output and are left out of the embedding. -/
def ChkErr (err : Option String) : Exec Unit :=
  pure ()

/-! ## Go maps -/

/-- Assignment `m[key] = value` on a Go map: an existing key keeps its place. -/
def mapSet (m : List (String × String)) (key value : String) : List (String × String) :=
  if m.any (fun kv => kv.1 == key) then
    m.map (fun kv => if kv.1 == key then (key, value) else kv)
  else
    m ++ [(key, value)]

/-- Lookup `_, ok := m[key]` on a Go map. -/
def mapHas (m : List (String × String)) (key : String) : Bool :=
  m.any (fun kv => kv.1 == key)

/-! ## coreNetworkClient.go -/

/-- Go `CoreNetworkClient.post`: send one request to the core-network daemon.
`http.NewRequest` cannot fail on the fixed URLs of this client.  A transport
failure is returned; on a status outside 200..299 the function returns the
variable `err`, which is `nil` at that point. -/
def post (LogFnName : String) (data : PostData) (URL : String) : Exec (Option String) :=
  fun w =>
    let w1 := { w with log := w.log ++ [Call.Post URL data] }
    match w.errorOf (Call.Post URL data) with
    | some e => .ok (some e) w1
    | none =>
      let err : Option String := none
      if w.StatusCode URL data < 200 || w.StatusCode URL data ≥ 300 then
        .ok err w1
      else
        .ok none w1

/-- Go `CoreNetworkClient.ConnectEndpoints`. -/
def ConnectEndpoints (serviceName : String) (peers : List String) : Exec (Option String) :=
  post "ConnectEndpoints" (PostData.connect serviceName peers) "https://databox-network:8080/connect"

/-! ### Runtime calls used by `PreConfig` -/

/-- Go `cli.NetworkList` with a `name` filter; a failed call yields no network. -/
def cli.NetworkList (deps : Deps) (name : String) : Exec (List NetworkResource) :=
  fun w =>
    match w.errorOf (Call.NetworkList name) with
    | some _ => .ok [] w
    | none => .ok (w.networks.filter (fun n => deps.networkNameFilter name n.Name)) w

/-- Go `cli.NetworkInspect`; a failed call yields the zero `NetworkResource`. -/
def cli.NetworkInspect (id : String) : Exec NetworkResource :=
  fun w =>
    match w.errorOf (Call.NetworkInspect id) with
    | some _ => .ok {} w
    | none =>
      match w.networks.find? (fun n => n.ID == id) with
      | some n => .ok n w
      | none => .ok {} w

/-- Go `cli.NetworkCreate`; returns the id of the response (empty on failure). -/
def cli.NetworkCreate (name : String) (options : NetworkCreate) : Exec String :=
  fun w =>
    let w1 := { w with log := w.log ++ [Call.NetworkCreate name options] }
    match w.errorOf (Call.NetworkCreate name options) with
    | some _ => .ok "" w1
    | none =>
      let id := w.idOf w.nextID
      .ok id { w1 with
        nextID := w.nextID + 1
        networks := w.networks ++ [{ ID := id, Name := name, Internal := options.Internal,
                                     Driver := options.Driver, Attachable := options.Attachable,
                                     Labels := options.Labels, Containers := [] }] }

/-- Go `cli.NetworkConnect`: the runtime records an endpoint for the container on
the network. -/
def cli.NetworkConnect (networkID containerID : String) : Exec (Option String) :=
  fun w =>
    let w1 := { w with log := w.log ++ [Call.NetworkConnect networkID containerID] }
    match w.errorOf (Call.NetworkConnect networkID containerID) with
    | some e => .ok (some e) w1
    | none =>
      .ok none { w1 with
        networks := w.networks.map (fun n =>
          if n.ID == networkID then
            { n with Containers := n.Containers ++ [w.endpointOf networkID containerID] }
          else n) }

/-- Does a container pass a `ContainerList` filter?  A `label` filter
`key=value` selects the containers carrying exactly that label. -/
def ContainerFilter.selects (deps : Deps) (f : ContainerFilter) (c : Container) : Bool :=
  match f with
  | .name value => deps.containerNameFilter value c
  | .label key value => c.Labels.any (fun kv => kv.1 == key && kv.2 == value)

/-- Go `cli.ContainerList`; a failed call yields no container.  A container
that has been removed is not listed any more. -/
def cli.ContainerList (deps : Deps) (filter : ContainerFilter) : Exec (List Container) :=
  fun w =>
    match w.errorOf (Call.ContainerList filter) with
    | some _ => .ok [] w
    | none =>
      .ok ((w.containersAt w.now).filter
        (fun c => filter.selects deps c && !w.removed.contains c.ID)) w

/-- Go `strings.Split(s, "/")[0]`: the part of `s` before its first `/`. -/
def beforeSlash (s : String) : String :=
  String.mk (s.data.takeWhile (fun c => c != '/'))

/-- The loop of `PreConfig` that looks for the daemon among a network's
endpoints: the address of the first endpoint named `databox-network`. -/
def findCoreNetworkIP : List EndpointResource → String
  | [] => ""
  | cont :: rest =>
    if cont.Name = "databox-network" then beforeSlash cont.IPv4Address
    else findCoreNetworkIP rest

/-- The first half of `PreConfig`: inspect the network the name filter finds,
or create the network and attach the core-network daemon to it. -/
def PreConfig.network (deps : Deps) (networkName : String) (internal : Bool)
    (networkList : List NetworkResource) : Exec NetworkResource :=
  match networkList with
  | first :: _ => cli.NetworkInspect first.ID
  | [] => do
    let networkCreateResponseID ← cli.NetworkCreate networkName
      { Internal := internal, Driver := "overlay", Attachable := true,
        Labels := [("databox.type", "databox-network")] }
    let network ← cli.NetworkInspect networkCreateResponseID
    let coreNetwork ← cli.ContainerList deps (ContainerFilter.name "databox-network")
    match coreNetwork with
    | [] => Exec.panic -- coreNetwork[0]: index out of range
    | core :: _ => do
      let _ ← cli.NetworkConnect network.ID core.ID
      Sleep 5
      cli.NetworkInspect networkCreateResponseID

/-- Go `CoreNetworkClient.PreConfig`. -/
def PreConfig (deps : Deps) (localContainerName : String) (sla : SLA) : Exec NetworkConfig := do
  let networkName := localContainerName ++ "-network"
  let internal := if sla.DataboxType = "driver" then false else true
  let networkList ← cli.NetworkList deps networkName
  let network ← PreConfig.network deps networkName internal networkList
  let ipOnNewNet := findCoreNetworkIP network.Containers
  pure { NetworkName := networkName, DNS := ipOnNewNet }

/-! ## containerManager.go -/

/-- Go `ContainerManager.IsInstalled`. -/
def IsInstalled (w : World) (name : String) : Bool :=
  mapHas w.InstalledComponents name

/-- Go `cli.ImageList`; a failed call yields no image. -/
def cli.ImageList : Exec (List ImageSummary) :=
  fun w =>
    match w.errorOf Call.ImageList with
    | some _ => .ok [] w
    | none => .ok w.images w

/-- Go `ContainerManager.imageExists`. -/
def imageExists (image : String) : Exec Bool := do
  let images ← cli.ImageList
  pure (images.any (fun i => i.RepoTags.any (fun tag => image == tag)))

/-- Modelled from the spec: `pullImageIfRequired` is defined in a file of the
repository that is not among the sources.  §4.1 step 3: "pull if missing".
A pull fetches the reference when the registry has it. -/
def pullImageIfRequired (image DefaultRegistry DefaultRegistryHost : String) : Exec Unit :=
  fun w =>
    if w.images.any (fun i => i.RepoTags.any (fun tag => image == tag)) then
      .ok () w
    else
      let w1 := { w with log := w.log ++ [Call.ImagePull image] }
      if (w.errorOf (Call.ImagePull image)).isNone && w.registry.contains image then
        .ok () { w1 with images := w.images ++ [{ RepoTags := [image] }] }
      else
        .ok () w1

/-- Go `ContainerManager.getDriverConfig`; the `ServiceCreateOptions` it returns
are always empty and are left out. -/
def getDriverConfig (deps : Deps) (cm : ContainerManager) (sla : SLA) (localContainerName : String)
    (netConf : NetworkConfig) : ServiceSpec × List String :=
  let imageName := calculateImageNameFromSLA cm sla
  let service := deps.constructDefaultServiceSpec localContainerName imageName DataboxTypeDriver
    cm.Options.Version netConf
  let service := { service with Name := localContainerName }
  let service := { service with TaskTemplate := { service.TaskTemplate with ContainerSpec :=
    { service.TaskTemplate.ContainerSpec with
      Env := service.TaskTemplate.ContainerSpec.Env ++ ["DATABOX_STORE_URL=" ++ cm.Options.DefaultAppStore] } } }
  (service, ["arbiter"])

/-- The datasource loop of `getAppConfig`: one environment variable per
datasource, and the host of its href added to the required networks.
`none` is the panic of `parsedURL.Hostname()` on a nil URL. -/
def getAppConfig.loop (deps : Deps) :
    List DataSource → List String → List (String × String) → Option (List String × List (String × String))
  | [], env, requiredNetworks => some (env, requiredNetworks)
  | ds :: rest, env, requiredNetworks =>
    let hypercatString := deps.jsonMarshal ds.Hypercat
    let env := env ++ ["DATASOURCE_" ++ ds.Clientid ++ "=" ++ hypercatString]
    match deps.urlParse ds.Hypercat.Href with
    | none => none
    | some parsedURL =>
      let storeName := parsedURL.Hostname
      getAppConfig.loop deps rest env (mapSet requiredNetworks storeName storeName)

/-- Go `ContainerManager.getAppConfig`; `none` is a panic.  The keys of the map
`requiredNetworks` are listed in insertion order. -/
def getAppConfig (deps : Deps) (cm : ContainerManager) (sla : SLA) (localContainerName : String)
    (netConf : NetworkConfig) : Option (ServiceSpec × List String) :=
  let imageName := calculateImageNameFromSLA cm sla
  let service := deps.constructDefaultServiceSpec localContainerName imageName DataboxTypeApp
    cm.Options.Version netConf
  let service := { service with Name := localContainerName }
  let requiredNetworks := [("arbiter", "arbiter"), ("export-service", "export-service")]
  match getAppConfig.loop deps sla.Datasources service.TaskTemplate.ContainerSpec.Env requiredNetworks with
  | none => none
  | some (env, requiredNetworks) =>
    let service := { service with TaskTemplate := { service.TaskTemplate with ContainerSpec :=
      { service.TaskTemplate.ContainerSpec with Env := env } } }
    let networksToConnect := requiredNetworks.map (fun kv => kv.1)
    some (service, networksToConnect)

/-! ### Secrets -/

/-- Go `cli.SecretList` with a `name` filter; a failed call yields no secret. -/
def cli.SecretList (deps : Deps) (name : String) : Exec (List Secret) :=
  fun w =>
    match w.errorOf (Call.SecretList name) with
    | some _ => .ok [] w
    | none => .ok (w.secrets.filter (fun s => deps.secretNameFilter name s.Name)) w

/-- Go `cli.SecretRemove`. -/
def cli.SecretRemove (id : String) : Exec (Option String) :=
  fun w =>
    let w1 := { w with log := w.log ++ [Call.SecretRemove id] }
    match w.errorOf (Call.SecretRemove id) with
    | some e => .ok (some e) w1
    | none => .ok none { w1 with secrets := w.secrets.filter (fun s => s.ID != id) }

/-- Go `cli.SecretCreate`; returns the id of the response (empty on failure). -/
def cli.SecretCreate (name data : String) : Exec String :=
  fun w =>
    let w1 := { w with log := w.log ++ [Call.SecretCreate name data] }
    match w.errorOf (Call.SecretCreate name data) with
    | some _ => .ok "" w1
    | none =>
      let id := w.idOf w.nextID
      .ok id { w1 with
        nextID := w.nextID + 1
        secrets := w.secrets ++ [{ ID := id, Name := name, Data := data }] }

/-- Go `ContainerManager.createSecret`: remove the secrets the name filter finds,
create the new one, and return a reference to it. -/
def createSecret (deps : Deps) (name data filename : String) : Exec SecretReference := do
  let secrestsList ← cli.SecretList deps name
  forRange (fun s => do let _ ← cli.SecretRemove s.ID) secrestsList
  let secretCreateResponseID ← cli.SecretCreate name data
  pure { SecretID := secretCreateResponseID
         SecretName := name
         File := { Name := filename, UID := "0", GID := "0", Mode := 0o444 } }

/-- Go `GenerateArbiterToken`: the next value of the random source. -/
def GenerateArbiterToken : Exec String :=
  fun w => .ok (w.entropy w.entropyUsed) { w with entropyUsed := w.entropyUsed + 1 }

/-- Go `ArbiterClient.RegesterDataboxComponent`. -/
def RegesterDataboxComponent (name token : String) (databoxType : DataboxType) : Exec (Option String) :=
  fun w =>
    .ok (w.errorOf (Call.RegesterDataboxComponent name token databoxType))
      { w with log := w.log ++ [Call.RegesterDataboxComponent name token databoxType] }

/-- Go `ContainerManager.genorateSecrets`. -/
def genorateSecrets (deps : Deps) (cm : ContainerManager) (containerName : String)
    (databoxType : DataboxType) : Exec (List SecretReference) := do
  let secrets : List SecretReference := []
  let secrets := secrets ++ [
    { SecretID := cm.DATABOX_ROOT_CA_ID
      SecretName := "DATABOX_ROOT_CA"
      File := { Name := "DATABOX_ROOT_CA", UID := "0", GID := "0", Mode := 0o444 } }]
  let secrets := secrets ++ [
    { SecretID := cm.ZMQ_PUBLIC_KEY_ID
      SecretName := "ZMQ_PUBLIC_KEY"
      File := { Name := "ZMQ_PUBLIC_KEY", UID := "0", GID := "0", Mode := 0o444 } }]
  let cert := deps.GenCert "./certs/containerManager.crt" containerName ["127.0.0.1"] [containerName]
  let certRef ← createSecret deps (strings.ToUpper containerName ++ ".pem") cert "DATABOX.pem"
  let secrets := secrets ++ [certRef]
  let rawToken ← GenerateArbiterToken
  let b64TokenString := deps.EncodeToString rawToken
  let tokenRef ← createSecret deps (strings.ToUpper containerName ++ "_KEY") b64TokenString "ARBITER_TOKEN"
  let secrets := secrets ++ [tokenRef]
  let _ ← RegesterDataboxComponent containerName b64TokenString databoxType
  if databoxType = "store" then
    pure (secrets ++ [
      { SecretID := cm.ZMQ_PRIVATE_KEY_ID
        SecretName := "ZMQ_SECRET_KEY"
        File := { Name := "ZMQ_SECRET_KEY", UID := "0", GID := "0", Mode := 0o444 } }])
  else
    pure secrets

/-! ### Services -/

/-- Go `cli.ServiceList` with a `name` filter; a failed call yields no service. -/
def cli.ServiceList (deps : Deps) (name : String) : Exec (List Service) :=
  fun w =>
    match w.errorOf (Call.ServiceList name) with
    | some _ => .ok [] w
    | none => .ok (w.services.filter (fun s => deps.serviceNameFilter name s.Spec.Name)) w

/-- The error the runtime answers a `ServiceCreate` with, if any: the call
fails, or a service of that name exists already. -/
def cli.ServiceCreate.error (w : World) (service : ServiceSpec) : Option String :=
  match w.errorOf (Call.ServiceCreate service) with
  | some e => some e
  | none =>
    if w.services.any (fun s => s.Spec.Name == service.Name) then
      some ("name conflicts with an existing object: service " ++ service.Name ++ " already exists")
    else none

/-- Go `cli.ServiceCreate`; returns the error. -/
def cli.ServiceCreate (service : ServiceSpec) : Exec (Option String) :=
  fun w =>
    let w1 := { w with log := w.log ++ [Call.ServiceCreate service] }
    match cli.ServiceCreate.error w service with
    | some e => .ok (some e) w1
    | none =>
      .ok none { w1 with
        nextID := w.nextID + 1
        services := w.services ++ [{ ID := w.idOf w.nextID, Spec := service }] }

/-- Go `ContainerManager.launchStore`. -/
def launchStore (deps : Deps) (cm : ContainerManager) (requiredStore requiredStoreName : String)
    (netConf : NetworkConfig) : Exec String := do
  let stores ← cli.ServiceList deps requiredStoreName
  if stores.length > 0 then
    pure requiredStoreName
  else
    let image := cm.Options.DefaultStoreImage
    let service := deps.constructDefaultServiceSpec requiredStoreName image DataboxTypeStore
      cm.Options.Version netConf
    let service := { service with Name := requiredStoreName }
    let secrets ← genorateSecrets deps cm requiredStoreName DataboxTypeStore
    let service := { service with TaskTemplate := { service.TaskTemplate with ContainerSpec :=
      { service.TaskTemplate.ContainerSpec with Secrets := secrets } } }
    let storeName := requiredStoreName
    let service := { service with TaskTemplate := { service.TaskTemplate with ContainerSpec :=
      { service.TaskTemplate.ContainerSpec with
        Mounts := [{ Source := requiredStoreName, Target := "/database", Typ := "volume" }] } } }
    pullImageIfRequired service.TaskTemplate.ContainerSpec.Image cm.Options.DefaultRegistry
      cm.Options.DefaultRegistryHost
    let _ ← cli.ServiceCreate service
    pure storeName

/-- Go `strconv.Itoa`. -/
def strconv.Itoa (n : Int) : String := toString n

/-- The polling loop of `WaitForService`.  `fuel` bounds the number of polls;
`timeout + 1` polls always reach the `loopCount > timeout` exit. -/
def WaitForService.loop (deps : Deps) (name : String) (timeout : Int) :
    Nat → Int → Exec (Except String Container)
  | 0, _ =>
    pure (.error ("Service " ++ name ++ " has not restarted after " ++ strconv.Itoa timeout ++ " seconds !!"))
  | fuel + 1, loopCount => do
    let contList ← cli.ContainerList deps
      (ContainerFilter.label "com.docker.swarm.service.name" name)
    match contList with
    | found :: _ => do
      Sleep 3
      pure (.ok found)
    | [] => do
      Sleep 1
      let loopCount := loopCount + 1
      if loopCount > timeout then
        pure (.error ("Service " ++ name ++ " has not restarted after " ++ strconv.Itoa timeout ++ " seconds !!"))
      else
        WaitForService.loop deps name timeout fuel loopCount

/-- Go `ContainerManager.WaitForService`. -/
def WaitForService (deps : Deps) (name : String) (timeout : Int) : Exec (Except String Container) :=
  WaitForService.loop deps name timeout (timeout.toNat + 1) 0

/-! ### Permissions -/

/-- Go `ContainerManager.addPermission`, a wrapper of
`ArbiterClient.GrantContainerPermissions`. -/
def addPermission (name target path method caveat : String) : Exec (Option String) :=
  let newPermission : ContainerPermissions :=
    { Name := name, Route := { Target := target, Path := path, Method := method }, Caveat := caveat }
  fun w =>
    .ok (w.errorOf (Call.GrantContainerPermissions newPermission))
      { w with log := w.log ++ [Call.GrantContainerPermissions newPermission] }

/-- The inner loop of the external whitelist: the hostnames of the urls, in
order.  `parsedURL.Hostname()` on a nil URL panics. -/
def addPermissionsFromSLA.externals (deps : Deps) : List String → List String → Exec (List String)
  | externals, [] => pure externals
  | externals, u :: rest =>
    match deps.urlParse u with
    | none => Exec.panic
    | some parsedURL => addPermissionsFromSLA.externals deps (externals ++ [parsedURL.Hostname]) rest

/-- The body of the datasource loop of `addPermissionsFromSLA`.
`datasourceEndpoint.Path` on a nil URL panics. -/
def addPermissionsFromSLA.datasource (deps : Deps) (localContainerName : String) (ds : DataSource) :
    Exec Unit :=
  match deps.urlParse ds.Hypercat.Href with
  | none => Exec.panic
  | some datasourceEndpoint => do
    let datasourceName := datasourceEndpoint.Path
    if deps.IsActuator ds then
      let _ ← addPermission localContainerName datasourceEndpoint.Hostname (datasourceName ++ "/*") "POST" ""
      let _ ← addPermission localContainerName datasourceEndpoint.Hostname datasourceName "POST" ""
      let _ ← addPermission localContainerName datasourceEndpoint.Hostname datasourceName "GET" ""
      let _ ← addPermission localContainerName datasourceEndpoint.Hostname (datasourceName ++ "/*") "GET" ""
    else if deps.IsFunc ds then
      let _ ← addPermission localContainerName datasourceEndpoint.Hostname
        ("/notification/request/" ++ ds.Name ++ "/*") "POST" ""
      let _ ← addPermission localContainerName datasourceEndpoint.Hostname
        ("/notification/response/" ++ ds.Name ++ "/*") "GET" ""
    else
      let _ ← addPermission localContainerName datasourceEndpoint.Hostname datasourceName "GET" ""
      let _ ← addPermission localContainerName datasourceEndpoint.Hostname (datasourceName ++ "/*") "GET" ""

/-- The export-whitelist block of `addPermissionsFromSLA`. -/
def addPermissionsFromSLA.exportWhitelists (sla : SLA) : Exec Unit := do
  let localContainerName := sla.Name
  if sla.ExportWhitelists.length > 0 then
    forRange (fun whiteList => do
      let caveat := "\x7b\"destination\":\"" ++ whiteList.Url ++ "\"\x7d"
      let _ ← addPermission localContainerName "export-service" "/export" "POST" caveat
      let _ ← addPermission localContainerName "export-service" "/lp/export" "POST" caveat)
      sla.ExportWhitelists

/-- The external-whitelist block of `addPermissionsFromSLA`. -/
def addPermissionsFromSLA.externalWhitelist (deps : Deps) (sla : SLA) : Exec Unit := do
  let localContainerName := sla.Name
  if sla.DataboxType = "driver" ∧ sla.ExternalWhitelist.length > 0 then
    forRange (fun whiteList => do
      let externals ← addPermissionsFromSLA.externals deps [] whiteList.Urls
      let err ← ConnectEndpoints localContainerName externals
      ChkErr err)
      sla.ExternalWhitelist

/-- The datasource block of `addPermissionsFromSLA`. -/
def addPermissionsFromSLA.datasources (deps : Deps) (sla : SLA) : Exec Unit := do
  let localContainerName := sla.Name
  if sla.DataboxType = "app" ∧ sla.Datasources.length > 0 then
    forRange (addPermissionsFromSLA.datasource deps localContainerName) sla.Datasources

/-- The dependent-store block of `addPermissionsFromSLA`. -/
def addPermissionsFromSLA.dependentStore (sla : SLA) : Exec Unit := do
  let localContainerName := sla.Name
  if sla.ResourceRequirements.Store ≠ "" then
    let requiredStoreName := sla.Name ++ "-" ++ sla.ResourceRequirements.Store
    let _ ← addPermission "container-manager" requiredStoreName "/cat" "GET" ""
    let _ ← addPermission localContainerName requiredStoreName "/*" "POST" ""
    let _ ← addPermission localContainerName requiredStoreName "/*" "DELETE" ""
    let _ ← addPermission localContainerName requiredStoreName "/*" "GET" ""

/-- Go `ContainerManager.addPermissionsFromSLA`: its four blocks, in order. -/
def addPermissionsFromSLA (deps : Deps) (sla : SLA) : Exec Unit := do
  addPermissionsFromSLA.exportWhitelists sla
  addPermissionsFromSLA.externalWhitelist deps sla
  addPermissionsFromSLA.datasources deps sla
  addPermissionsFromSLA.dependentStore sla

/-! ### Persistence -/

/-- Modelled from the spec: `CMStore.SaveSLA` is defined in a file of the
repository that is not among the sources.  §4.5: one entry `sla/{name}` per
component, written atomically; a failed write changes nothing. -/
def SaveSLA (sla : SLA) : Exec (Option String) :=
  fun w =>
    let w1 := { w with log := w.log ++ [Call.SaveSLA sla] }
    match w.errorOf (Call.SaveSLA sla) with
    | some e => .ok (some e) w1
    | none => .ok none { w1 with slas := w.slas.filter (fun s => s.Name != sla.Name) ++ [sla] }

/-! ### Installation -/

/-- The `switch sla.DataboxType` of `LaunchFromSLA`: the service and the
networks to connect.  `none` is the `default` case, `some none` a panic in
`getAppConfig`. -/
def LaunchFromSLA.config (deps : Deps) (cm : ContainerManager) (sla : SLA)
    (localContainerName : String) (netConf : NetworkConfig) :
    Option (Option (ServiceSpec × List String)) :=
  if sla.DataboxType = DataboxTypeApp then
    some (getAppConfig deps cm sla localContainerName netConf)
  else if sla.DataboxType = DataboxTypeDriver then
    some (some (getDriverConfig deps cm sla localContainerName netConf))
  else none

/-- The block of `LaunchFromSLA` that launches the dependent store, once the
networks are configured. -/
def LaunchFromSLA.requiredStore (deps : Deps) (cm : ContainerManager) (sla : SLA)
    (requiredStoreName : String) (netConf : NetworkConfig) : Exec Unit := do
  if requiredStoreName ≠ "" then
    let _ ← launchStore deps cm sla.ResourceRequirements.Store requiredStoreName netConf
    let _ ← WaitForService deps requiredStoreName 10

/-- The part of `LaunchFromSLA` before the service is created (lines 213 to 274):
`.error e` is an early `return` of the error `e`, `.ok service` the service
spec that is about to be created. -/
def LaunchFromSLA.prepare (deps : Deps) (cm : ContainerManager) (sla : SLA) :
    Exec (Except String ServiceSpec) := do
  let localContainerName := sla.Name
  let requiredStoreName :=
    if sla.ResourceRequirements.Store ≠ "" then sla.Name ++ "-" ++ sla.ResourceRequirements.Store
    else ""
  let netConf ← PreConfig deps localContainerName sla
  match LaunchFromSLA.config deps cm sla localContainerName netConf with
  | none => pure (.error "[LaunchFromSLA] Unsupported image type")
  | some none => Exec.panic
  | some (some (service, requiredNetworks)) => do
    pullImageIfRequired service.TaskTemplate.ContainerSpec.Image cm.Options.DefaultRegistry
      cm.Options.DefaultRegistryHost
    let found ← imageExists service.TaskTemplate.ContainerSpec.Image
    if !found then
      pure (.error ("Can't install " ++ localContainerName ++ " cant find the image "
        ++ service.TaskTemplate.ContainerSpec.Image))
    else
      let secrets ← genorateSecrets deps cm localContainerName sla.DataboxType
      let service := { service with TaskTemplate := { service.TaskTemplate with ContainerSpec :=
        { service.TaskTemplate.ContainerSpec with Secrets := secrets } } }
      let service :=
        if requiredStoreName ≠ "" then
          { service with TaskTemplate := { service.TaskTemplate with ContainerSpec :=
            { service.TaskTemplate.ContainerSpec with
              Env := service.TaskTemplate.ContainerSpec.Env
                ++ ["DATABOX_ZMQ_ENDPOINT=tcp://" ++ requiredStoreName ++ ":5555"]
                ++ ["DATABOX_ZMQ_DEALER_ENDPOINT=tcp://" ++ requiredStoreName ++ ":5556"] } } }
        else service
      let _ ← ConnectEndpoints localContainerName requiredNetworks
      LaunchFromSLA.requiredStore deps cm sla requiredStoreName netConf
      addPermissionsFromSLA deps sla
      pure (.ok service)

/-- The block of `LaunchFromSLA` that saves the SLA when asked to; an error of
the store is logged (`ChkErr`) and dropped. -/
def LaunchFromSLA.save (sla : SLA) (save : Bool) : Exec Unit := do
  if save then
    let err ← SaveSLA sla
    ChkErr err

/-- The last statement of `LaunchFromSLA`: record the component in the map. -/
def LaunchFromSLA.keepTrack (localContainerName : String) : Exec Unit :=
  fun w => .ok ()
    { w with
      InstalledComponents := mapSet w.InstalledComponents localContainerName localContainerName }

/-- Go `ContainerManager.LaunchFromSLA`; the result is the returned error. -/
def LaunchFromSLA (deps : Deps) (cm : ContainerManager) (sla : SLA) (save : Bool) :
    Exec (Option String) := do
  let localContainerName := sla.Name
  let prepared ← LaunchFromSLA.prepare deps cm sla
  match prepared with
  | .error e => pure (some e)
  | .ok service => do
    let err ← cli.ServiceCreate service
    match err with
    | some e => pure (some e)
    | none => do
      LaunchFromSLA.save sla save
      LaunchFromSLA.keepTrack localContainerName
      pure none

/-! ### Removal -/

/-- Go `PostNetworkConfig` of coreNetworkClient.go. -/
structure PostNetworkConfig where
  NetworkName : String := ""
  IPv4Address : String := ""
deriving DecidableEq, Repr

/-- Go `CoreNetworkClient.toServiceName`: the part of a container name before
its first dot, `strings.Split(containerName, ".")[0]`. -/
def toServiceName (containerName : String) : String :=
  String.mk (containerName.data.takeWhile (fun c => c != '.'))

/-- The inner loop of `NetworkOfService`: the address of the first endpoint
whose service name is `serviceName`. -/
def NetworkOfService.endpoint (serviceName : String) : List EndpointResource → Option String
  | [] => none
  | endpoint :: rest =>
    if toServiceName endpoint.Name = serviceName then some endpoint.IPv4Address
    else NetworkOfService.endpoint serviceName rest

/-- The outer loop of `NetworkOfService`, over the networks found. -/
def NetworkOfService.loop (serviceName : String) :
    List NetworkResource → PostNetworkConfig → Exec PostNetworkConfig
  | [], netConfig => pure netConfig
  | net :: rest, netConfig => do
    let netInfo ← cli.NetworkInspect net.ID
    match NetworkOfService.endpoint serviceName netInfo.Containers with
    | some ip => NetworkOfService.loop serviceName rest { netConfig with IPv4Address := ip }
    | none => NetworkOfService.loop serviceName rest netConfig

/-- Go `CoreNetworkClient.NetworkOfService`: the network descriptor and the error. -/
def NetworkOfService (deps : Deps) (service : Service) (serviceName : String) :
    Exec (PostNetworkConfig × Option String) := do
  let netConfig : PostNetworkConfig := { NetworkName := serviceName ++ "-network" }
  let networks ← cli.NetworkList deps netConfig.NetworkName
  match networks with
  | [] => pure (netConfig, some ("Can't find network " ++ netConfig.NetworkName))
  | _ :: _ => do
    let netConfig ← NetworkOfService.loop serviceName networks netConfig
    pure (netConfig, none)

/-- Go `CoreNetworkClient.DisconnectEndpoints`. -/
def DisconnectEndpoints (serviceName : String) (netConfig : PostNetworkConfig) :
    Exec (Option String) :=
  post "DisconnectEndpoints" (PostData.disconnect serviceName netConfig.IPv4Address)
    "https://databox-network:8080/disconnect"

/-- Go `CoreNetworkClient.PostUninstall`. -/
def PostUninstall (name : String) (netConfig : PostNetworkConfig) : Exec (Option String) :=
  DisconnectEndpoints name netConfig

/-- Go `CoreNetworkClient.ServiceRestart`. -/
def ServiceRestart (serviceName oldIP newIP : String) : Exec (Option String) :=
  post "ServiceRestart" (PostData.restart serviceName oldIP newIP)
    "https://databox-network:8080/restart"

/-- Go `cli.ServiceList` with a `name` filter, with the error it returns. -/
def cli.ServiceListErr (deps : Deps) (name : String) : Exec (List Service × Option String) :=
  fun w =>
    match w.errorOf (Call.ServiceList name) with
    | some e => .ok ([], some e) w
    | none => .ok (w.services.filter (fun s => deps.serviceNameFilter name s.Spec.Name), none) w

/-- Go `cli.ServiceRemove`. -/
def cli.ServiceRemove (id : String) : Exec (Option String) :=
  fun w =>
    let w1 := { w with log := w.log ++ [Call.ServiceRemove id] }
    match w.errorOf (Call.ServiceRemove id) with
    | some e => .ok (some e) w1
    | none => .ok none { w1 with services := w.services.filter (fun s => s.ID != id) }

/-- Modelled from the spec: `CMStore.DeleteSLA` is defined in a file of the
repository that is not among the sources.  §4.1: "Persistence.deleteSLA(name)
(idempotent if absent)"; §4.5: one entry `sla/{name}` per component. -/
def DeleteSLA (name : String) : Exec (Option String) :=
  fun w =>
    let w1 := { w with log := w.log ++ [Call.DeleteSLA name] }
    match w.errorOf (Call.DeleteSLA name) with
    | some e => .ok (some e) w1
    | none => .ok none { w1 with slas := w.slas.filter (fun s => s.Name != name) }

/-- Deletion `delete(m, key)` on a Go map. -/
def mapDelete (m : List (String × String)) (key : String) : List (String × String) :=
  m.filter (fun kv => kv.1 != key)

/-- The statement `delete(cm.InstalledComponents, name)` of `Uninstall`. -/
def Uninstall.forget (name : String) : Exec Unit :=
  fun w => .ok () { w with InstalledComponents := mapDelete w.InstalledComponents name }

/-- The secret loop of `Uninstall`: remove every secret of every service listed. -/
def Uninstall.removeSecrets (serviceList : List Service) : Exec Unit :=
  forRange (fun s =>
    forRange (fun sec => do
      let _ ← cli.SecretRemove sec.SecretID)
      s.Spec.TaskTemplate.ContainerSpec.Secrets)
    serviceList

/-- Go `ContainerManager.Uninstall`; the result is the returned error.  The
variable `err` that is returned is last assigned by the second `ServiceList`. -/
def Uninstall (deps : Deps) (name : String) : Exec (Option String) := do
  let serList ← cli.ServiceList deps name
  match serList with
  | [] => pure (some ("Service " ++ name ++ " not running"))
  | first :: _ => do
    let networkConfig ← NetworkOfService deps first first.Spec.Name
    ChkErr networkConfig.2
    let err ← cli.ServiceRemove first.ID
    ChkErr err
    let serviceList ← cli.ServiceListErr deps name
    Uninstall.removeSecrets serviceList.1
    let _ ← PostUninstall name networkConfig.1
    let _ ← DeleteSLA name
    Uninstall.forget name
    pure serviceList.2

/-! ### Restart -/

namespace strings

/-- The first occurrence of `old` in a text replaced by `new`. -/
def replaceFirst (old new : List Char) : List Char → List Char
  | [] => if old = [] then new else []
  | c :: rest =>
    if old <+: c :: rest then new ++ (c :: rest).drop old.length
    else c :: replaceFirst old new rest

/-- Go `strings.Replace(s, old, new, 1)`: only the first occurrence is replaced. -/
def Replace (s old new : String) : String :=
  String.mk (replaceFirst old.data new.data s.data)

end strings

/-- Go `cli.ContainerRemove` with `Force: true`. -/
def cli.ContainerRemove (id : String) : Exec (Option String) :=
  fun w =>
    let w1 := { w with log := w.log ++ [Call.ContainerRemove id true] }
    match w.errorOf (Call.ContainerRemove id true) with
    | some e => .ok (some e) w1
    | none => .ok none { w1 with removed := w.removed ++ [id] }

/-- The name `Restart` looks for in the names of the attached networks. -/
def Restart.serviceName (cm : ContainerManager) (name : String) : String :=
  strings.Replace name ("-" ++ cm.CoreStoreName) ""

/-- The address loop of `Restart`, over the attached networks of a container:
each network whose name contains the service name overwrites the address.
`none` is the panic of `IPAMConfig.IPv4Address` on a nil `IPAMConfig`. -/
def Restart.ip (cm : ContainerManager) (name : String) :
    List (String × EndpointSettings) → String → Option String
  | [], ip => some ip
  | (netName, endpoint) :: rest, ip =>
    let serviceName := Restart.serviceName cm name
    if strings.Contains netName serviceName then
      match endpoint.IPAMConfig with
      | none => none
      | some config => Restart.ip cm name rest config.IPv4Address
    else Restart.ip cm name rest ip

/-- Go `ContainerManager.Restart`; the result is the returned error. -/
def Restart (deps : Deps) (cm : ContainerManager) (name : String) : Exec (Option String) := do
  let contList ← cli.ContainerList deps (ContainerFilter.label "com.docker.swarm.service.name" name)
  match contList with
  | [] => pure (some ("Service " ++ name ++ " not running"))
  | first :: _ =>
    match Restart.ip cm name first.Networks "" with
    | none => Exec.panic
    | some oldIP => do
      let err ← cli.ContainerRemove first.ID
      match err with
      | some e => pure (some ("Cannot remove " ++ name ++ " " ++ e))
      | none => do
        let waited ← WaitForService deps name 20
        match waited with
        | .error e => pure (some e)
        | .ok newCont =>
          match Restart.ip cm name newCont.Networks "" with
          | none => Exec.panic
          | some newIP => ServiceRestart name oldIP newIP

/-! ### Crash detector -/

/-- Go `events.Actor`. -/
structure Actor where
  ID : String := ""
  Attributes : List (String × String) := []
deriving DecidableEq, Repr

/-- Go `events.Message`; the Go field `Type` is `Typ` here. -/
structure Message where
  Typ : String := ""
  Action : String := ""
  Actor : Actor := {}
deriving DecidableEq, Repr

/-- Lookup `m[key]` on a Go map of strings: the empty string for a missing key. -/
def mapGet (m : List (String × String)) (key : String) : String :=
  match m.find? (fun kv => kv.1 == key) with
  | some kv => kv.2
  | none => ""

/-- The two maps `crashDetectore` keeps between events. -/
structure crashDetectore.State where
  restartDetected : List (String × String) := []
  uninstallDetected : List (String × String) := []
deriving DecidableEq, Repr

/-- The first `if` of the event loop: a removed service is recorded. -/
def crashDetectore.onRemove (st : crashDetectore.State) (msg : Message) : crashDetectore.State :=
  if msg.Typ = "service" ∧ msg.Action = "remove" then
    { st with uninstallDetected := mapSet st.uninstallDetected msg.Actor.ID msg.Actor.ID }
  else st

/-- The second `if` of the event loop: a container killed with signal 9 is recorded. -/
def crashDetectore.onKill (st : crashDetectore.State) (msg : Message) : crashDetectore.State :=
  if msg.Typ = "container" ∧ msg.Action = "kill" ∧ mapGet msg.Actor.Attributes "signal" = "9" then
    { st with restartDetected := mapSet st.restartDetected (mapGet msg.Actor.Attributes "name")
                                   (mapGet msg.Actor.Attributes "name") }
  else st

/-- The third `if` of the event loop: the maps after a `die` event and the
name `cm.Restart` is called with, if it is called. -/
def crashDetectore.onDie (st : crashDetectore.State) (msg : Message) :
    crashDetectore.State × Option String :=
  if msg.Typ = "container" ∧ msg.Action = "die" then
    let name := mapGet msg.Actor.Attributes "com.docker.swarm.service.name"
    let ContName := mapGet msg.Actor.Attributes "name"
    let serviceID := mapGet msg.Actor.Attributes "com.docker.swarm.service.id"
    if mapHas st.restartDetected ContName then
      ({ st with restartDetected := mapDelete st.restartDetected ContName }, none)
    else if mapHas st.uninstallDetected serviceID then
      ({ st with uninstallDetected := mapDelete st.uninstallDetected serviceID }, none)
    else if !mapHas msg.Actor.Attributes "databox.type" then
      (st, none)
    else
      (st, some name)
  else (st, none)

/-- One iteration of the event loop of `crashDetectore`. -/
def crashDetectore.handle (st : crashDetectore.State) (msg : Message) :
    crashDetectore.State × Option String :=
  crashDetectore.onDie (crashDetectore.onKill (crashDetectore.onRemove st msg) msg) msg

/-- The maps of `crashDetectore` after a run of events. -/
def crashDetectore.after : crashDetectore.State → List Message → crashDetectore.State
  | st, [] => st
  | st, msg :: rest => crashDetectore.after (crashDetectore.handle st msg).1 rest

/-- The calls `cm.Restart(name)` the event loop makes on a run of events: the
names, in order. -/
def crashDetectore.restarts : crashDetectore.State → List Message → List String
  | _, [] => []
  | st, msg :: rest =>
    match crashDetectore.handle st msg with
    | (st1, none) => crashDetectore.restarts st1 rest
    | (st1, some name) => name :: crashDetectore.restarts st1 rest

/-- Go `ContainerManager.crashDetectore` on the events received so far; the
error `cm.Restart` returns is dropped. -/
def crashDetectore (deps : Deps) (cm : ContainerManager) :
    crashDetectore.State → List Message → Exec crashDetectore.State
  | st, [] => pure st
  | st, msg :: rest =>
    match crashDetectore.handle st msg with
    | (st1, none) => crashDetectore deps cm st1 rest
    | (st1, some name) => do
      let _ ← Restart deps cm name
      crashDetectore deps cm st1 rest

/-! ### Reload

`reloadApps` starts one goroutine per driver, waits for them on a
`sync.WaitGroup`, then does the same for the apps.  The goroutines run
concurrently with each other and with the main goroutine, so the function is
embedded as a transition system: a state, and the steps a scheduler can pick.
What `LaunchFromSLA` does in between is not part of the state: a call is seen
by the two events that it starts and that it has returned. -/

/-- Go `sla.DataboxType == libDatabox.DataboxTypeDriver`. -/
def SLA.isDriver (sla : SLA) : Bool := sla.DataboxType == DataboxTypeDriver

/-- Go `sla.DataboxType == libDatabox.DataboxTypeApp`. -/
def SLA.isApp (sla : SLA) : Bool := sla.DataboxType == DataboxTypeApp

/-- What is observed of the calls `cm.LaunchFromSLA(sla, save)`. -/
inductive reloadApps.Event where
  | start (sla : SLA) (save : Bool)
  | returned (sla : SLA)
deriving DecidableEq, Repr

/-- Where the main goroutine stands: in the first loop with the SLAs still to
visit, at the first `waitGroup.Wait()`, in the second loop, at the second
`waitGroup.Wait()`, or at the end of the function. -/
inductive reloadApps.PC where
  | launchDrivers (rest : List SLA)
  | waitDrivers
  | launchApps (rest : List SLA)
  | waitApps
  | done
deriving DecidableEq, Repr

/-- The state of a run of `reloadApps`. -/
structure reloadApps.State where
  /-- The result of `cm.Store.GetAllSLAs()`. -/
  slaList : List SLA
  pc : reloadApps.PC
  /-- The counter of `waitGroup`. -/
  waitGroup : Nat := 0
  /-- Goroutines created by `go LaunchFromSLAandWait(sla, &waitGroup)` that have
  not called `LaunchFromSLA` yet, by their SLA. -/
  spawned : List SLA := []
  /-- Goroutines inside `cm.LaunchFromSLA(sla, false)`. -/
  running : List SLA := []
  /-- Goroutines for which `LaunchFromSLA` has returned, before `wg.Done()`. -/
  returned : List SLA := []
  /-- Goroutines that have ended. -/
  finished : List SLA := []
  /-- The events so far, oldest first. -/
  trace : List reloadApps.Event := []
deriving DecidableEq, Repr

/-- A step of one goroutine. -/
inductive reloadApps.Action where
  /-- The main goroutine runs its next statement. -/
  | main
  /-- A goroutine created for `sla` calls `cm.LaunchFromSLA(sla, false)`. -/
  | begin (sla : SLA)
  /-- The call `cm.LaunchFromSLA(sla, false)` of a goroutine returns. -/
  | finish (sla : SLA)
  /-- A goroutine calls `wg.Done()` and ends. -/
  | done (sla : SLA)
deriving DecidableEq, Repr

/-- The state on entry, once `GetAllSLAs` has returned `slaList`. -/
def reloadApps.init (slaList : List SLA) : reloadApps.State :=
  { slaList := slaList, pc := .launchDrivers slaList }

/-- One iteration of a launch loop on `sla`: `waitGroup.Add(1)` and the `go`
statement when the type is the one looked for. -/
def reloadApps.launch (s : reloadApps.State) (wanted : Bool) (sla : SLA) (next : reloadApps.PC) :
    reloadApps.State :=
  if wanted then
    { s with pc := next, waitGroup := s.waitGroup + 1, spawned := s.spawned ++ [sla] }
  else
    { s with pc := next }

/-- The next statement of the main goroutine; `none` when it is blocked in
`waitGroup.Wait()` or has ended. -/
def reloadApps.stepMain (s : reloadApps.State) : Option reloadApps.State :=
  match s.pc with
  | .launchDrivers [] => some { s with pc := .waitDrivers }
  | .launchDrivers (sla :: rest) => some (reloadApps.launch s sla.isDriver sla (.launchDrivers rest))
  | .waitDrivers => if s.waitGroup = 0 then some { s with pc := .launchApps s.slaList } else none
  | .launchApps [] => some { s with pc := .waitApps }
  | .launchApps (sla :: rest) => some (reloadApps.launch s sla.isApp sla (.launchApps rest))
  | .waitApps => if s.waitGroup = 0 then some { s with pc := .done } else none
  | .done => none

/-- The step the scheduler picks; `none` when that step cannot be taken. -/
def reloadApps.step (s : reloadApps.State) : reloadApps.Action → Option reloadApps.State
  | .main => reloadApps.stepMain s
  | .begin sla =>
    if sla ∈ s.spawned then
      some { s with spawned := s.spawned.erase sla, running := s.running ++ [sla]
                    trace := s.trace ++ [.start sla false] }
    else none
  | .finish sla =>
    if sla ∈ s.running then
      some { s with running := s.running.erase sla, returned := s.returned ++ [sla]
                    trace := s.trace ++ [.returned sla] }
    else none
  | .done sla =>
    if sla ∈ s.returned then
      some { s with returned := s.returned.erase sla, finished := s.finished ++ [sla]
                    waitGroup := s.waitGroup - 1 }
    else none

/-- The state a schedule leads to; `none` when one of its steps cannot be taken. -/
def reloadApps.run : List reloadApps.Action → reloadApps.State → Option reloadApps.State
  | [], s => some s
  | a :: schedule, s =>
    match reloadApps.step s a with
    | some s1 => reloadApps.run schedule s1
    | none => none

/-- The SLAs of the calls started, in order. -/
def reloadApps.started : List reloadApps.Event → List SLA
  | [] => []
  | .start sla _ :: rest => sla :: reloadApps.started rest
  | .returned _ :: rest => reloadApps.started rest

/-- The SLAs of the calls that have returned, in order. -/
def reloadApps.hasReturned : List reloadApps.Event → List SLA
  | [] => []
  | .start _ _ :: rest => reloadApps.hasReturned rest
  | .returned sla :: rest => sla :: reloadApps.hasReturned rest

/-- The schedule that runs the goroutines one at a time: each is started and
run to its end right after it is created. -/
def reloadApps.sequential (slaList : List SLA) : List reloadApps.Action :=
  slaList.flatMap (fun sla =>
    if sla.isDriver then [.main, .begin sla, .finish sla, .done sla] else [.main])
  ++ [.main, .main]
  ++ slaList.flatMap (fun sla =>
    if sla.isApp then [.main, .begin sla, .finish sla, .done sla] else [.main])
  ++ [.main, .main]

/-! ## secureServer.go -/

namespace strings

/-- The pieces of a text between the occurrences of a separator character;
there is always at least one piece. -/
def splitChars (sep : Char) : List Char → List (List Char)
  | [] => [[]]
  | c :: rest =>
    if c = sep then [] :: splitChars sep rest
    else
      match splitChars sep rest with
      | [] => [[c]]
      | piece :: pieces => (c :: piece) :: pieces

/-- Go `strings.Split(s, sep)` for a separator of one character. -/
def Split (s : String) (sep : Char) : List String :=
  (splitChars sep s.data).map String.mk

/-- Go `strings.Join(elems, sep)`. -/
def Join : List String → String → String
  | [], _ => ""
  | [a], _ => a
  | a :: b :: rest, sep => a ++ sep ++ Join (b :: rest) sep

end strings

/-- The Go slice expression `s[low:]`; `none` is the panic "slice bounds out
of range" when `low` exceeds the length. -/
def sliceFrom {α : Type} (s : List α) (low : Nat) : Option (List α) :=
  if low ≤ s.length then some (s.drop low) else none

/-- The target of Go `proxy`: the value of `RequestURI` for the path of the
request; `none` is a panic.  The forwarding of the request that follows is
left out. -/
def proxy.RequestURI (path : String) : Option String :=
  let parts := strings.Split path '/'
  if parts.length < 2 then
    some "https://core-ui:8080/ui/"
  else
    match sliceFrom parts 2 with
    | none => none
    | some rest => some ("https://core-ui:8080/ui/" ++ strings.Join rest "/")

/-! ## JSON text, to read the caveat of an export grant -/

namespace JSON

/-- Insignificant whitespace (RFC 8259 §2). -/
def isWhitespace (c : Char) : Bool :=
  c == ' ' || c == '\t' || c == '\n' || c == '\r'

/-- Value of a hexadecimal digit. -/
def hexValue (c : Char) : Option Nat :=
  if '0' ≤ c ∧ c ≤ '9' then some (c.toNat - '0'.toNat)
  else if 'a' ≤ c ∧ c ≤ 'f' then some (c.toNat - 'a'.toNat + 10)
  else if 'A' ≤ c ∧ c ≤ 'F' then some (c.toNat - 'A'.toNat + 10)
  else none

/-- The character a two-character escape stands for (RFC 8259 §7). -/
def unescape (c : Char) : Option Char :=
  if c = '"' then some '"'
  else if c = '\\' then some '\\'
  else if c = '/' then some '/'
  else if c = 'b' then some (Char.ofNat 8)
  else if c = 'f' then some (Char.ofNat 12)
  else if c = 'n' then some '\n'
  else if c = 'r' then some '\r'
  else if c = 't' then some '\t'
  else none

/-- Read a string after its opening quote: the characters it denotes and the
text after its closing quote.  An unescaped quote closes the string; control
characters must be escaped; a `\u` escape denotes the character of that code. -/
def readString : List Char → Option (List Char × List Char)
  | [] => none
  | c :: rest =>
    if c = '"' then some ([], rest)
    else if c = '\\' then
      match rest with
      | [] => none
      | e :: rest1 =>
        if e = 'u' then
          match rest1 with
          | h1 :: h2 :: h3 :: h4 :: rest2 =>
            match hexValue h1, hexValue h2, hexValue h3, hexValue h4 with
            | some a, some b, some c, some d =>
              (readString rest2).map (fun r => (Char.ofNat (((a * 16 + b) * 16 + c) * 16 + d) :: r.1, r.2))
            | _, _, _, _ => none
          | _ => none
        else
          match unescape e with
          | none => none
          | some ch => (readString rest1).map (fun r => (ch :: r.1, r.2))
    else if c.toNat < 32 then none
    else (readString rest).map (fun r => (c :: r.1, r.2))

/-- Drop leading whitespace. -/
def skipWhitespace (s : List Char) : List Char :=
  s.dropWhile isWhitespace

/-- Read one given character after optional whitespace. -/
def expect (c : Char) (s : List Char) : Option (List Char) :=
  match skipWhitespace s with
  | d :: rest => if d = c then some rest else none
  | [] => none

/-- The value of the member "destination" when the text is a JSON object with
that single member and a string value; `none` for any other text. -/
def destinationOf (text : String) : Option String := do
  let s ← expect '{' text.data
  let s ← expect '"' s
  let (key, s) ← readString s
  let s ← expect ':' s
  let s ← expect '"' s
  let (value, s) ← readString s
  let s ← expect '}' s
  if key = "destination".data ∧ skipWhitespace s = [] then some (String.mk value) else none

end JSON

/-! ## A sample environment for the worked examples -/

/-- A URL parser defined on the hrefs of the examples; it agrees with
`url.Parse` on them. -/
def sampleParse (s : String) : Option URL :=
  if s = "tcp://driver-phone-core-store:5555/kv/w" then some ⟨"driver-phone-core-store", "/kv/w"⟩
  else if s = "tcp://driver-hue-core-store:5555/kv/light" then some ⟨"driver-hue-core-store", "/kv/light"⟩
  else if s = "tcp://container-manager-core-store:5555/" then some ⟨"container-manager-core-store", "/"⟩
  else if s = "https://api.twitter.com" then some ⟨"api.twitter.com", ""⟩
  else none

/-- An environment for the examples: metadata flags read as in the SLAs that
`launchUI` builds, names filtered by prefix. -/
def sampleDeps : Deps where
  urlParse := sampleParse
  IsActuator := fun ds => ds.Hypercat.ItemMetadata.contains (RelVal.pairBool "urn:X-databox:rels:isActuator" true)
  IsFunc := fun ds => ds.Hypercat.ItemMetadata.contains (RelVal.pairBool "urn:X-databox:rels:isFunc" true)
  jsonMarshal := fun h => h.Href
  EncodeToString := fun s => s
  constructDefaultServiceSpec := fun localContainerName imageName databoxType databoxVersion netConf =>
    { Labels := [("databox.type", databoxType)]
      TaskTemplate :=
        { ContainerSpec :=
            { Image := imageName, Hostname := localContainerName
              Env := ["DATABOX_VERSION=" ++ databoxVersion], DNS := [netConf.DNS] }
          Networks := [netConf.NetworkName] } }
  GenCert := fun _ commonName _ _ => "cert:" ++ commonName
  networkNameFilter := fun value name => decide (value.data <+: name.data)
  containerNameFilter := fun value c => c.Names.any (fun n => decide (value.data <:+: n.data))
  serviceNameFilter := fun value name => decide (value.data <+: name.data)
  secretNameFilter := fun value name => decide (value.data <+: name.data)

/-- A sensor datasource (scenario A of the specification). -/
def sampleSensor : DataSource :=
  { Name := "w", Clientid := "W"
    Hypercat := { Href := "tcp://driver-phone-core-store:5555/kv/w" } }

/-- An actuator datasource (scenario C), flagged as a function as well. -/
def sampleActuator : DataSource :=
  { Name := "light", Clientid := "L"
    Hypercat :=
      { ItemMetadata := [RelVal.pairBool "urn:X-databox:rels:isActuator" true,
                         RelVal.pairBool "urn:X-databox:rels:isFunc" true]
        Href := "tcp://driver-hue-core-store:5555/kv/light" } }

/-- A function datasource, as `launchUI` declares `ServiceStatus`. -/
def sampleFunction : DataSource :=
  { Name := "ServiceStatus", Clientid := "CM_API_ServiceStatus"
    Hypercat :=
      { ItemMetadata := [RelVal.pairBool "urn:X-databox:rels:isFunc" true,
                         RelVal.pair "urn:X-databox:rels:hasDatasourceid" "ServiceStatus"]
        Href := "tcp://container-manager-core-store:5555/" } }

/-- An app with the three kinds of datasource and a dependent store. -/
def sampleApp : SLA :=
  { Name := "weather", DataboxType := "app"
    Datasources := [sampleSensor, sampleActuator, sampleFunction]
    ExternalWhitelist := [{ Urls := ["https://api.twitter.com"] }]
    ResourceRequirements := { Store := "core-store" } }

/-- A driver with an external whitelist (scenario B); it lists a datasource too. -/
def sampleDriver : SLA :=
  { Name := "driver-twitter", DataboxType := "driver"
    Datasources := [sampleSensor]
    ExternalWhitelist := [{ Urls := ["https://api.twitter.com"] }] }

/-- A manager configured without an architecture. -/
def sampleCM : ContainerManager :=
  NewContainerManager "" "ca" "pub" "priv"
    { Version := "0.5.2", DefaultRegistry := "databoxsystems"
      DefaultStoreImage := "databoxsystems/core-store:0.5.2" }

/-- A runtime that runs the core-network daemon and holds no image (scenario F). -/
def sampleWorld : World :=
  { containersAt := fun _ => [{ ID := "c0", Names := ["/databox-network"] }]
    idOf := fun n => String.mk (List.replicate (n + 1) 'i')
    endpointOf := fun _ _ => { Name := "databox-network", IPv4Address := "10.0.0.2/24" }
    entropy := fun _ => "token" }

/-- The sample runtime once it holds the image of the sample app. -/
def sampleWorldWithImage : World :=
  { sampleWorld with images := [{ RepoTags := ["databoxsystems/weather:0.5.2"] }] }

/-- The sample runtime with the image of the sample app, where the runtime
refuses to create the dependent store of the app. -/
def sampleWorldStoreRefused : World :=
  { sampleWorldWithImage with
    errorOf := fun c =>
      match c with
      | .ServiceCreate spec =>
        if spec.Name = "weather-core-store" then some "no suitable node" else none
      | _ => none }

/-- The sample runtime where every request to the core-network daemon fails
and the arbiter refuses every grant. -/
def sampleWorldDaemonDown : World :=
  { sampleWorldWithImage with
    errorOf := fun c =>
      match c with
      | .Post _ _ => some "connection refused"
      | .GrantContainerPermissions _ => some "arbiter unreachable"
      | _ => none }

/-- The sample runtime once it holds the image of the sample driver. -/
def sampleWorldWithDriverImage : World :=
  { sampleWorld with images := [{ RepoTags := ["databoxsystems/driver-twitter:0.5.2"] }] }

/-- The runtime after the sample driver has been installed and saved. -/
def sampleWorldDriverInstalled : World :=
  (LaunchFromSLA sampleDeps sampleCM sampleDriver true sampleWorldWithDriverImage).world

/-- The runtime with the sample driver installed, where the runtime refuses to
remove a service. -/
def sampleWorldRemoveRefused : World :=
  { sampleWorldDriverInstalled with
    errorOf := fun c =>
      match c with
      | .ServiceRemove _ => some "service is in use"
      | _ => none }

/-- A container of the service `weather`: it is attached to the ingress
network, where it has no address configuration, and to the network of the app. -/
def sampleContainer (id ip : String) : Container :=
  { ID := id, Names := ["/weather.1." ++ id]
    Labels := [("com.docker.swarm.service.name", "weather"), ("databox.type", "app")]
    Networks := [("ingress", { IPAddress := "10.255.0.4" }),
                 ("weather-network", { IPAddress := ip, IPAMConfig := some { IPv4Address := ip } })] }

/-- A runtime where the service `weather` runs the container `c1`, and starts
the container `c2` two seconds in. -/
def sampleWorldRunning : World :=
  { sampleWorld with
    containersAt := fun t =>
      [{ ID := "c0", Names := ["/databox-network"] }, sampleContainer "c1" "10.0.1.3"]
        ++ (if t < 2 then [] else [sampleContainer "c2" "10.0.1.7"]) }

/-- The state `reloadApps` ends in on the sample app and the sample driver
when the goroutines run one at a time. -/
def sampleReloaded : reloadApps.State :=
  { slaList := [sampleApp, sampleDriver], pc := .done
    finished := [sampleDriver, sampleApp]
    trace := [.start sampleDriver false, .returned sampleDriver,
              .start sampleApp false, .returned sampleApp] }

/-- The sample runtime where the core-network daemon answers every request
with the status 500. -/
def sampleWorldDaemonErrors : World :=
  { sampleWorld with StatusCode := fun _ _ => 500 }

/-- An app whose datasource has an href that `url.Parse` rejects (":" has no
scheme before the colon). -/
def sampleBrokenApp : SLA :=
  { Name := "broken", DataboxType := "app"
    Datasources := [{ Name := "w", Clientid := "W", Hypercat := { Href := ":" } }] }

/-- A driver whose external whitelist has a url that `url.Parse` rejects. -/
def sampleBrokenDriver : SLA :=
  { Name := "broken-driver", DataboxType := "driver"
    ExternalWhitelist := [{ Urls := [":"] }] }

/-- The sample runtime where the network of the sample app exists already and
the core-network daemon is not attached to it. -/
def sampleWorldWithNetwork : World :=
  { sampleWorld with
    networks := [{ ID := "n1", Name := "weather-network", Internal := true, Driver := "overlay"
                   Attachable := true, Labels := [("databox.type", "databox-network")] }] }

/-- The event the runtime sends when the process of the container `c1` of
the service `weather` exits. -/
def sampleDie : Message :=
  { Typ := "container", Action := "die"
    Actor := { ID := "c1"
               Attributes := [("name", "weather.1.c1"), ("com.docker.swarm.service.id", "s1"),
                              ("com.docker.swarm.service.name", "weather"),
                              ("databox.type", "app")] } }

/-- The event the runtime sends when the container `c1` is killed with signal 9. -/
def sampleKill : Message :=
  { Typ := "container", Action := "kill"
    Actor := { ID := "c1", Attributes := [("signal", "9"), ("name", "weather.1.c1")] } }

/-- The event the runtime sends when the service `s1` is removed. -/
def sampleRemove : Message :=
  { Typ := "service", Action := "remove", Actor := { ID := "s1" } }

/-- A container of a service named `a-core-store-b`: it is attached to the
ingress network and to the network of that component. -/
def sampleContainerMiddle (id ip : String) : Container :=
  { ID := id, Names := ["/a-core-store-b.1." ++ id]
    Labels := [("com.docker.swarm.service.name", "a-core-store-b"), ("databox.type", "app")]
    Networks := [("ingress", { IPAddress := "10.255.0.5" }),
                 ("a-core-store-b-network",
                  { IPAddress := ip, IPAMConfig := some { IPv4Address := ip } })] }

/-- A runtime where the service `a-core-store-b` runs the container `m1`, and
starts the container `m2` two seconds in. -/
def sampleWorldMiddle : World :=
  { sampleWorld with
    containersAt := fun t =>
      [{ ID := "c0", Names := ["/databox-network"] }, sampleContainerMiddle "m1" "10.0.2.3"]
        ++ (if t < 2 then [] else [sampleContainerMiddle "m2" "10.0.2.9"]) }

/-! ## Vocabulary of the statements -/

/-- The call `addPermission name target path method caveat` makes on the arbiter. -/
def Grant (name target path method caveat : String) : Call :=
  Call.GrantContainerPermissions
    { Name := name, Route := { Target := target, Path := path, Method := method }, Caveat := caveat }

/-- The grants `addPermissionsFromSLA` derives from the export whitelists. -/
def exportGrants (sla : SLA) : List Call :=
  sla.ExportWhitelists.flatMap (fun whiteList =>
    [Grant sla.Name "export-service" "/export" "POST" ("\x7b\"destination\":\"" ++ whiteList.Url ++ "\"\x7d"),
     Grant sla.Name "export-service" "/lp/export" "POST" ("\x7b\"destination\":\"" ++ whiteList.Url ++ "\"\x7d")])

/-- The grants `addPermissionsFromSLA` derives from the dependent store. -/
def storeGrants (sla : SLA) : List Call :=
  if sla.ResourceRequirements.Store = "" then []
  else
    [Grant "container-manager" (sla.Name ++ "-" ++ sla.ResourceRequirements.Store) "/cat" "GET" "",
     Grant sla.Name (sla.Name ++ "-" ++ sla.ResourceRequirements.Store) "/*" "POST" "",
     Grant sla.Name (sla.Name ++ "-" ++ sla.ResourceRequirements.Store) "/*" "DELETE" "",
     Grant sla.Name (sla.Name ++ "-" ++ sla.ResourceRequirements.Store) "/*" "GET" ""]

/-- Whether a run ended in a panic. -/
def Res.panicked {α : Type} : Res α → Bool
  | .ok _ _ => false
  | .panic _ => true

/-- From every world the run adds exactly the calls `T` to the log, changes
nothing else, and panics exactly when `p` holds. -/
def Emits {α : Type} (m : Exec α) (T : List Call) (p : Bool) : Prop :=
  ∀ w, (m w).world = { w with log := w.log ++ T } ∧ (m w).panicked = p

/-- Is the call a request to the core-network daemon? -/
def Call.isPost : Call → Bool
  | .Post _ _ => true
  | _ => false

/-- Does the call create or remove a secret? -/
def Call.touchesSecrets : Call → Bool
  | .SecretCreate _ _ => true
  | .SecretRemove _ => true
  | _ => false

/-- Is the call a write of an SLA to the management store? -/
def Call.isSaveSLA : Call → Bool
  | .SaveSLA _ => true
  | _ => false

/-- Is the call part of a secret rotation: a secret created or removed, a
token registered with the arbiter, a permission granted? -/
def Call.isSecretRotation : Call → Bool
  | .SecretCreate _ _ => true
  | .SecretRemove _ => true
  | .RegesterDataboxComponent _ _ _ => true
  | .GrantContainerPermissions _ => true
  | _ => false

/-- Does the call create a service? -/
def Call.isServiceCreate : Call → Bool
  | .ServiceCreate _ => true
  | _ => false

/-- The name of the service a `ServiceCreate` call asks for. -/
def Call.createdName : Call → Option String
  | .ServiceCreate service => some service.Name
  | _ => none

/-- What `LaunchFromSLA` may call before it creates the service: no write of
an SLA, and no service but the dependent store `sla.Name-sla.store`. -/
def LaunchFromSLA.preparing (sla : SLA) (c : Call) : Prop :=
  c.isSaveSLA = false ∧
  ∀ spec, c = Call.ServiceCreate spec →
    sla.ResourceRequirements.Store ≠ "" ∧
    spec.Name = sla.Name ++ "-" ++ sla.ResourceRequirements.Store

/-- The world `w'` comes from `w` by calls that all satisfy `Q`, none of them
a write of an SLA: the saved SLAs, the installed map and the failure oracle
are those of `w`, and the secrets too unless a call touched them. -/
def Keeps (Q : Call → Prop) (w w' : World) : Prop :=
  w'.slas = w.slas ∧ w'.InstalledComponents = w.InstalledComponents ∧ w'.errorOf = w.errorOf ∧
  ∃ T, w'.log = w.log ++ T ∧ (∀ c ∈ T, Q c) ∧
    ((∀ c ∈ T, c.touchesSecrets = false) → w'.secrets = w.secrets)

/-- Every run of `m` relates the world it starts from to the world it leaves. -/
def Steps {α : Type} (R : World → World → Prop) (m : Exec α) : Prop :=
  ∀ w, R w (m w).world

/-- The SLAs the launch loops of `reloadApps` have yet to create a goroutine for. -/
def reloadApps.remaining (slaList : List SLA) : reloadApps.PC → List SLA
  | .launchDrivers rest => rest.filter SLA.isDriver ++ slaList.filter SLA.isApp
  | .waitDrivers => slaList.filter SLA.isApp
  | .launchApps rest => rest.filter SLA.isApp
  | .waitApps => []
  | .done => []

/-- Has the main goroutine passed the first `waitGroup.Wait()`? -/
def reloadApps.PC.pastDrivers : reloadApps.PC → Bool
  | .launchDrivers _ => false
  | .waitDrivers => false
  | _ => true

/-- Before any install of an app starts, the installs of all the drivers of
`slaList` have returned. -/
def reloadApps.Ordered (slaList : List SLA) (trace : List reloadApps.Event) : Prop :=
  ∀ pre post a save, trace = pre ++ reloadApps.Event.start a save :: post → a.isApp = true →
    List.Perm ((reloadApps.hasReturned pre).filter SLA.isDriver) (slaList.filter SLA.isDriver)

/-- What holds of every state a run of `reloadApps` on `slaList` goes through. -/
structure reloadApps.Inv (slaList : List SLA) (s : reloadApps.State) : Prop where
  list : s.slaList = slaList
  counter : s.waitGroup = s.spawned.length + s.running.length + s.returned.length
  created : List.Perm
    (s.spawned ++ s.running ++ s.returned ++ s.finished ++ reloadApps.remaining slaList s.pc)
    (slaList.filter SLA.isDriver ++ slaList.filter SLA.isApp)
  starts : List.Perm (reloadApps.started s.trace) (s.running ++ s.returned ++ s.finished)
  returns : List.Perm (reloadApps.hasReturned s.trace) (s.returned ++ s.finished)
  noSave : ∀ a save, reloadApps.Event.start a save ∈ s.trace → save = false
  ordered : reloadApps.Ordered slaList s.trace
  drivers : s.pc.pastDrivers = false → ∀ a ∈ s.spawned, a.isDriver = true
  apps : s.pc.pastDrivers = true →
    (∀ a ∈ s.spawned ++ s.running, a.isDriver = false) ∧
    List.Perm ((reloadApps.hasReturned s.trace).filter SLA.isDriver) (slaList.filter SLA.isDriver)
  atEnd : s.pc = .done → s.waitGroup = 0

/-- The number of steps a run of `reloadApps` can still take, at most. -/
def reloadApps.stepsLeft (s : reloadApps.State) : Nat :=
  (match s.pc with
    | .launchDrivers rest => 4 + 4 * s.slaList.length + 4 * rest.length
    | .waitDrivers => 3 + 4 * s.slaList.length
    | .launchApps rest => 2 + 4 * rest.length
    | .waitApps => 1
    | .done => 0)
  + 3 * s.spawned.length + 2 * s.running.length + s.returned.length

/-! # Theorems -/

/-! ## Image resolution -/

theorem strings_contains_iff (s substr : String) :
    strings.Contains s substr = true ↔ substr.data <:+: s.data := by
  simp [strings.Contains]

theorem strings_contains_slash (a b : String) : strings.Contains (a ++ "/" ++ b) "/" = true := by
  rw [strings_contains_iff]
  exact ⟨a.data, b.data, by simp [String.data_append]⟩

theorem strings_contains_colon (a b : String) : strings.Contains (a ++ ":" ++ b) ":" = true := by
  rw [strings_contains_iff]
  exact ⟨a.data, b.data, by simp [String.data_append]⟩

theorem strings_contains_append_right (a b x : String) (h : strings.Contains a x = true) :
    strings.Contains (a ++ b) x = true := by
  rw [strings_contains_iff] at h ⊢
  obtain ⟨l, r, hlr⟩ := h
  exact ⟨l, r ++ b.data, by simp [String.data_append, ← hlr]⟩

/-- The image name built from its parts holds both separators. -/
theorem built_name_contains (registry imageName version : String) :
    strings.Contains (registry ++ "/" ++ imageName ++ ":" ++ version) "/" = true ∧
    strings.Contains (registry ++ "/" ++ imageName ++ ":" ++ version) ":" = true := by
  constructor
  · have h := strings_contains_slash registry imageName
    exact strings_contains_append_right _ _ _ (strings_contains_append_right _ _ _ h)
  · exact strings_contains_colon _ _

/-- C7. For every SLA and every configuration, `calculateImageNameFromSLA`
returns a string equal to `sla.DockerImage` if and only if `sla.DockerImage`
contains both a "/" and a ":". -/
theorem calculateImageNameFromSLA_unchanged_iff (cm : ContainerManager) (sla : SLA) :
    calculateImageNameFromSLA cm sla = sla.DockerImage ↔
      (strings.Contains sla.DockerImage "/" = true ∧ strings.Contains sla.DockerImage ":" = true) := by
  constructor
  · intro h
    by_cases hc : strings.Contains sla.DockerImage "/" = true ∧ strings.Contains sla.DockerImage ":" = true
    · exact hc
    · have hb : (strings.Contains sla.DockerImage "/" && strings.Contains sla.DockerImage ":") = false := by
        simpa using hc
      unfold calculateImageNameFromSLA at h
      rw [if_neg (by simp [hb])] at h
      rw [← h]
      exact built_name_contains _ _ _
  · intro h
    unfold calculateImageNameFromSLA
    rw [if_pos (by simp [h.1, h.2])]

/-- C8. For an SLA whose image does not contain both "/" and ":", the result
is registry + "/" + image + archSuffix + ":" + tag, each part taken from the SLA
when it is set there and from the configuration otherwise; the suffix is "-" +
arch for a configured architecture and empty without one. -/
theorem calculateImageNameFromSLA_built (dnsIP rootCA zmqPublic zmqPrivate : String)
    (opt : ContainerManagerOptions) (sla : SLA)
    (h : ¬ (strings.Contains sla.DockerImage "/" = true ∧ strings.Contains sla.DockerImage ":" = true)) :
    calculateImageNameFromSLA (NewContainerManager dnsIP rootCA zmqPublic zmqPrivate opt) sla =
      (if sla.DockerRegistry ≠ "" then sla.DockerRegistry else opt.DefaultRegistry) ++ "/" ++
      (if sla.DockerImage ≠ "" then sla.DockerImage else sla.Name) ++
      (if opt.Arch ≠ "" then "-" ++ opt.Arch else "") ++ ":" ++
      (if sla.DockerImageTag ≠ "" then sla.DockerImageTag else opt.Version) := by
  have hb : (strings.Contains sla.DockerImage "/" && strings.Contains sla.DockerImage ":") = false := by
    simpa using h
  unfold calculateImageNameFromSLA
  rw [if_neg (by simp [hb])]
  by_cases ha : opt.Arch = "" <;> simp [NewContainerManager, ha, String.append_assoc]

/-- C8 at the sample SLA "weather" on an arm64v8 node. -/
theorem calculateImageNameFromSLA_built_witness :
    calculateImageNameFromSLA
        (NewContainerManager "" "" "" "" { Version := "0.5.2", DefaultRegistry := "databoxsystems", Arch := "arm64v8" })
        { Name := "weather", DockerImageTag := "latest" } =
      "databoxsystems/weather-arm64v8:latest" :=
  (calculateImageNameFromSLA_built "" "" "" ""
      { Version := "0.5.2", DefaultRegistry := "databoxsystems", Arch := "arm64v8" }
      { Name := "weather", DockerImageTag := "latest" } (by decide)).trans (by decide)

/-! ## Running sequences -/

@[simp] theorem exec_pure_apply {α : Type} (a : α) (w : World) :
    (pure a : Exec α) w = Res.ok a w := rfl

@[simp] theorem exec_bind_apply {α β : Type} (m : Exec α) (f : α → Exec β) (w : World) :
    (m >>= f) w = match m w with
      | .ok a w1 => f a w1
      | .panic w1 => .panic w1 := rfl

@[simp] theorem exec_panic_apply {α : Type} (w : World) : (Exec.panic : Exec α) w = Res.panic w := rfl

theorem world_log_append_nil (w : World) : { w with log := w.log ++ [] } = w := by
  cases w; simp

theorem emits_pure {α : Type} (a : α) : Emits (pure a : Exec α) [] false := by
  intro w; simp [Res.world, Res.panicked]

theorem emits_panic {α : Type} : Emits (Exec.panic : Exec α) [] true := by
  intro w; simp [Res.world, Res.panicked]

theorem emits_bind {α β : Type} {m : Exec α} {f : α → Exec β} {T1 T2 : List Call} {p1 p2 : Bool}
    (hm : Emits m T1 p1) (hf : ∀ a, Emits (f a) T2 p2) :
    Emits (m >>= f) (T1 ++ if p1 then [] else T2) (p1 || p2) := by
  intro w
  obtain ⟨h1, h2⟩ := hm w
  rw [exec_bind_apply]
  cases hmw : m w with
  | ok a w1 =>
    rw [hmw] at h1 h2
    simp only [Res.world, Res.panicked] at h1 h2
    subst h1
    obtain ⟨h3, h4⟩ := hf a { w with log := w.log ++ T1 }
    subst h2
    simp only [h3, h4, Bool.false_or, List.append_assoc]
    simp
  | panic w1 =>
    rw [hmw] at h1 h2
    simp only [Res.world, Res.panicked] at h1 h2
    subst h1
    subst h2
    simp [Res.world, Res.panicked]

theorem emits_issued {α : Type} {m : Exec α} {T : List Call} {p : Bool} (h : Emits m T p)
    (w : World) : issued m w = T := by
  unfold Databox.issued
  rw [(h w).1]
  simp

theorem emits_unique {α : Type} {m : Exec α} {T T' : List Call} {p p' : Bool}
    (h : Emits m T p) (h' : Emits m T' p') : T = T' ∧ p = p' := by
  have w : World := {}
  refine ⟨?_, ?_⟩
  · rw [← emits_issued h w, ← emits_issued h' w]
  · rw [← (h w).2, ← (h' w).2]

theorem emits_addPermission (name target path method caveat : String) :
    Emits (addPermission name target path method caveat) [Grant name target path method caveat] false := by
  intro w; simp [Databox.addPermission, Grant, Res.world, Res.panicked]

theorem emits_ConnectEndpoints (serviceName : String) (peers : List String) :
    Emits (ConnectEndpoints serviceName peers)
      [Call.Post "https://databox-network:8080/connect" (PostData.connect serviceName peers)] false := by
  intro w
  unfold Databox.ConnectEndpoints post
  cases w.errorOf (Call.Post "https://databox-network:8080/connect" (PostData.connect serviceName peers)) <;>
    simp [Res.world, Res.panicked]

theorem forRange_append {α : Type} (body : α → Exec Unit) (xs ys : List α) :
    forRange body (xs ++ ys) = (forRange body xs >>= fun _ => forRange body ys) := by
  induction xs with
  | nil => funext w; simp [forRange]
  | cons x xs ih =>
    funext w
    simp only [List.cons_append, forRange, ih, exec_bind_apply]
    cases body x w <;> simp [ih]

theorem forRange_cons {α : Type} (body : α → Exec Unit) (x : α) (xs : List α) :
    forRange body (x :: xs) = (body x >>= fun _ => forRange body xs) := rfl

theorem emits_forRange_exists {α : Type} (body : α → Exec Unit)
    (h : ∀ x, ∃ T p, Emits (body x) T p) (xs : List α) :
    ∃ T p, Emits (forRange body xs) T p := by
  induction xs with
  | nil => exact ⟨[], false, emits_pure ()⟩
  | cons x xs ih =>
    obtain ⟨T1, p1, h1⟩ := h x
    obtain ⟨T2, p2, h2⟩ := ih
    exact ⟨_, _, emits_bind h1 (fun _ => h2)⟩

theorem emits_forRange_flatMap {α : Type} (body : α → Exec Unit) (t : α → List Call) (xs : List α)
    (h : ∀ x ∈ xs, Emits (body x) (t x) false) :
    Emits (forRange body xs) (xs.flatMap t) false := by
  induction xs with
  | nil => exact emits_pure ()
  | cons x xs ih =>
    have h1 := h x (List.mem_cons_self x xs)
    have h2 := ih (fun y hy => h y (List.mem_cons_of_mem x hy))
    have := emits_bind h1 (fun _ => h2)
    simpa [forRange_cons] using this

theorem emits_forRange_ok {α : Type} (body : α → Exec Unit) (xs : List α)
    (h : ∀ x ∈ xs, ∃ T, Emits (body x) T false) :
    ∃ T, Emits (forRange body xs) T false := by
  induction xs with
  | nil => exact ⟨[], emits_pure ()⟩
  | cons x xs ih =>
    obtain ⟨T1, h1⟩ := h x (List.mem_cons_self x xs)
    obtain ⟨T2, h2⟩ := ih (fun y hy => h y (List.mem_cons_of_mem x hy))
    have := emits_bind h1 (fun _ => h2)
    exact ⟨_, by simpa [forRange_cons] using this⟩

/-! ## The blocks of `addPermissionsFromSLA` -/

theorem emits_bind_ok {α β : Type} {m : Exec α} {f : α → Exec β} {T T1 T2 : List Call} {p : Bool}
    (hm : Emits m T1 false) (hf : ∀ a, Emits (f a) T2 p) (hT : T = T1 ++ T2) :
    Emits (m >>= f) T p := by
  have := emits_bind hm hf
  subst hT
  simpa using this

/-- The grants of the export-whitelist block. -/
theorem emits_exportWhitelists (sla : SLA) :
    Emits (addPermissionsFromSLA.exportWhitelists sla)
      (sla.ExportWhitelists.flatMap (fun whiteList =>
        [Grant sla.Name "export-service" "/export" "POST" ("\x7b\"destination\":\"" ++ whiteList.Url ++ "\"\x7d"),
         Grant sla.Name "export-service" "/lp/export" "POST" ("\x7b\"destination\":\"" ++ whiteList.Url ++ "\"\x7d")]))
      false := by
  unfold addPermissionsFromSLA.exportWhitelists
  split
  · apply emits_forRange_flatMap
    intro x _
    exact emits_bind_ok (emits_addPermission _ _ _ _ _)
      (fun _ => emits_bind_ok (emits_addPermission _ _ _ _ _) (fun _ => emits_pure _) rfl) rfl
  · rename_i hlen
    have hnil : sla.ExportWhitelists = [] := by
      cases hE : sla.ExportWhitelists with
      | nil => rfl
      | cons a l => simp [hE] at hlen
    rw [hnil]
    exact emits_pure _

/-- The grants of the dependent-store block. -/
theorem emits_dependentStore (sla : SLA) :
    Emits (addPermissionsFromSLA.dependentStore sla)
      (if sla.ResourceRequirements.Store = "" then []
       else
        [Grant "container-manager" (sla.Name ++ "-" ++ sla.ResourceRequirements.Store) "/cat" "GET" "",
         Grant sla.Name (sla.Name ++ "-" ++ sla.ResourceRequirements.Store) "/*" "POST" "",
         Grant sla.Name (sla.Name ++ "-" ++ sla.ResourceRequirements.Store) "/*" "DELETE" "",
         Grant sla.Name (sla.Name ++ "-" ++ sla.ResourceRequirements.Store) "/*" "GET" ""])
      false := by
  unfold addPermissionsFromSLA.dependentStore
  by_cases hs : sla.ResourceRequirements.Store = ""
  · simp only [hs, ne_eq, not_true_eq_false, if_false, if_true]
    exact emits_pure _
  · simp only [hs, ne_eq, not_false_eq_true, if_true, if_false]
    exact emits_bind_ok (emits_addPermission _ _ _ _ _)
      (fun _ => emits_bind_ok (emits_addPermission _ _ _ _ _)
        (fun _ => emits_bind_ok (emits_addPermission _ _ _ _ _)
          (fun _ => emits_bind_ok (emits_addPermission _ _ _ _ _) (fun _ => emits_pure _) rfl) rfl) rfl) rfl

/-- The hostnames loop returns the hostnames in order when every url parses. -/
theorem externals_ok (deps : Deps) (urls : List String)
    (h : ∀ u ∈ urls, (deps.urlParse u).isSome = true) (externals : List String) :
    addPermissionsFromSLA.externals deps externals urls =
      pure (externals ++ urls.filterMap (fun u => (deps.urlParse u).map URL.Hostname)) := by
  induction urls generalizing externals with
  | nil => simp [addPermissionsFromSLA.externals]
  | cons u rest ih =>
    have hu := h u (List.mem_cons_self u rest)
    obtain ⟨v, hv⟩ := Option.isSome_iff_exists.mp hu
    have hrest := ih (fun y hy => h y (List.mem_cons_of_mem u hy))
    simp [addPermissionsFromSLA.externals, hv, hrest]

/-- The hostnames loop touches nothing: it returns a list or panics. -/
theorem externals_pure (deps : Deps) (urls : List String) (externals : List String) :
    (∃ r, addPermissionsFromSLA.externals deps externals urls = pure r) ∨
    addPermissionsFromSLA.externals deps externals urls = Exec.panic := by
  induction urls generalizing externals with
  | nil => exact Or.inl ⟨externals, rfl⟩
  | cons u rest ih =>
    unfold addPermissionsFromSLA.externals
    cases deps.urlParse u with
    | none => exact Or.inr rfl
    | some v => exact ih _

theorem emits_pure_bind {α β : Type} (a : α) (f : α → Exec β) {T : List Call} {p : Bool}
    (h : Emits (f a) T p) : Emits ((Pure.pure a : Exec α) >>= f) T p := h

theorem emits_panic_bind {α β : Type} (f : α → Exec β) :
    Emits ((Exec.panic : Exec α) >>= f) [] true := by
  intro w; simp [Res.world, Res.panicked]

/-- The external-whitelist block of a driver whose urls all parse: one connect
request per whitelist entry. -/
theorem emits_externalWhitelist_driver (deps : Deps) (sla : SLA) (hd : sla.DataboxType = "driver")
    (h : ∀ whiteList ∈ sla.ExternalWhitelist, ∀ u ∈ whiteList.Urls, (deps.urlParse u).isSome = true) :
    Emits (addPermissionsFromSLA.externalWhitelist deps sla)
      (sla.ExternalWhitelist.flatMap (fun whiteList =>
        [Call.Post "https://databox-network:8080/connect"
          (PostData.connect sla.Name
            (whiteList.Urls.filterMap (fun u => (deps.urlParse u).map URL.Hostname)))]))
      false := by
  unfold addPermissionsFromSLA.externalWhitelist
  split
  · apply emits_forRange_flatMap
    intro x hx
    show Emits (addPermissionsFromSLA.externals deps [] x.Urls >>= _) _ _
    rw [externals_ok deps x.Urls (h x hx)]
    apply emits_pure_bind
    exact emits_bind_ok (emits_ConnectEndpoints _ _) (fun _ => emits_pure _) (by simp)
  · rename_i hc
    have hnil : sla.ExternalWhitelist = [] := by
      cases hE : sla.ExternalWhitelist with
      | nil => rfl
      | cons a l => simp [hE, hd] at hc
    rw [hnil]
    exact emits_pure _

/-- The external-whitelist block of an SLA that is not a driver does nothing. -/
theorem externalWhitelist_other (deps : Deps) (sla : SLA) (hd : sla.DataboxType ≠ "driver") :
    addPermissionsFromSLA.externalWhitelist deps sla = pure () := by
  unfold addPermissionsFromSLA.externalWhitelist
  simp [hd]

/-- The datasource block of an SLA that is not an app does nothing. -/
theorem datasources_other (deps : Deps) (sla : SLA) (hd : sla.DataboxType ≠ "app") :
    addPermissionsFromSLA.datasources deps sla = pure () := by
  unfold addPermissionsFromSLA.datasources
  simp [hd]

/-- The datasource block of an app is the loop over its datasources. -/
theorem datasources_app (deps : Deps) (sla : SLA) (hd : sla.DataboxType = "app") :
    addPermissionsFromSLA.datasources deps sla =
      forRange (addPermissionsFromSLA.datasource deps sla.Name) sla.Datasources := by
  unfold addPermissionsFromSLA.datasources
  cases hE : sla.Datasources with
  | nil => simp [hd, forRange]
  | cons a l => simp [hd]

theorem emits_datasource_actuator (deps : Deps) (name : String) (ds : DataSource) (u : URL)
    (hu : deps.urlParse ds.Hypercat.Href = some u) (hact : deps.IsActuator ds = true) :
    Emits (addPermissionsFromSLA.datasource deps name ds)
      [Grant name u.Hostname (u.Path ++ "/*") "POST" "", Grant name u.Hostname u.Path "POST" "",
       Grant name u.Hostname u.Path "GET" "", Grant name u.Hostname (u.Path ++ "/*") "GET" ""]
      false := by
  unfold addPermissionsFromSLA.datasource
  simp only [hu, hact, if_true]
  exact emits_bind_ok (emits_addPermission _ _ _ _ _)
    (fun _ => emits_bind_ok (emits_addPermission _ _ _ _ _)
      (fun _ => emits_bind_ok (emits_addPermission _ _ _ _ _)
        (fun _ => emits_bind_ok (emits_addPermission _ _ _ _ _) (fun _ => emits_pure _) rfl) rfl) rfl) rfl

theorem emits_datasource_func (deps : Deps) (name : String) (ds : DataSource) (u : URL)
    (hu : deps.urlParse ds.Hypercat.Href = some u) (hact : deps.IsActuator ds = false)
    (hfunc : deps.IsFunc ds = true) :
    Emits (addPermissionsFromSLA.datasource deps name ds)
      [Grant name u.Hostname ("/notification/request/" ++ ds.Name ++ "/*") "POST" "",
       Grant name u.Hostname ("/notification/response/" ++ ds.Name ++ "/*") "GET" ""]
      false := by
  unfold addPermissionsFromSLA.datasource
  simp only [hu, hact, hfunc, if_true, Bool.false_eq_true, if_false]
  exact emits_bind_ok (emits_addPermission _ _ _ _ _)
    (fun _ => emits_bind_ok (emits_addPermission _ _ _ _ _) (fun _ => emits_pure _) rfl) rfl

theorem emits_datasource_sensor (deps : Deps) (name : String) (ds : DataSource) (u : URL)
    (hu : deps.urlParse ds.Hypercat.Href = some u) (hact : deps.IsActuator ds = false)
    (hfunc : deps.IsFunc ds = false) :
    Emits (addPermissionsFromSLA.datasource deps name ds)
      [Grant name u.Hostname u.Path "GET" "", Grant name u.Hostname (u.Path ++ "/*") "GET" ""]
      false := by
  unfold addPermissionsFromSLA.datasource
  simp only [hu, hact, hfunc, Bool.false_eq_true, if_false]
  exact emits_bind_ok (emits_addPermission _ _ _ _ _)
    (fun _ => emits_bind_ok (emits_addPermission _ _ _ _ _) (fun _ => emits_pure _) rfl) rfl

/-- A datasource whose href parses is handled without a panic. -/
theorem emits_datasource_ok (deps : Deps) (name : String) (ds : DataSource)
    (h : (deps.urlParse ds.Hypercat.Href).isSome = true) :
    ∃ T, Emits (addPermissionsFromSLA.datasource deps name ds) T false := by
  obtain ⟨u, hu⟩ := Option.isSome_iff_exists.mp h
  cases hact : deps.IsActuator ds with
  | true => exact ⟨_, emits_datasource_actuator deps name ds u hu hact⟩
  | false =>
    cases hfunc : deps.IsFunc ds with
    | true => exact ⟨_, emits_datasource_func deps name ds u hu hact hfunc⟩
    | false => exact ⟨_, emits_datasource_sensor deps name ds u hu hact hfunc⟩

/-- Whatever the datasource, its handling is independent of the world. -/
theorem emits_datasource_exists (deps : Deps) (name : String) (ds : DataSource) :
    ∃ T p, Emits (addPermissionsFromSLA.datasource deps name ds) T p := by
  cases hu : deps.urlParse ds.Hypercat.Href with
  | none =>
    refine ⟨[], true, ?_⟩
    unfold addPermissionsFromSLA.datasource
    simp only [hu]
    exact emits_panic
  | some u =>
    obtain ⟨T, hT⟩ := emits_datasource_ok deps name ds (by simp [hu])
    exact ⟨T, false, hT⟩

/-- The trace of `addPermissionsFromSLA` from the traces of its two middle blocks. -/
theorem emits_addPermissionsFromSLA (deps : Deps) (sla : SLA) {TX TD : List Call} {pX pD : Bool}
    (hX : Emits (addPermissionsFromSLA.externalWhitelist deps sla) TX pX)
    (hD : Emits (addPermissionsFromSLA.datasources deps sla) TD pD) :
    Emits (Databox.addPermissionsFromSLA deps sla)
      (exportGrants sla ++ (TX ++ if pX then [] else (TD ++ if pD then [] else storeGrants sla)))
      (pX || pD) := by
  unfold Databox.addPermissionsFromSLA
  have h := emits_bind (emits_exportWhitelists sla)
    (fun _ => emits_bind hX (fun _ => emits_bind hD (fun _ => emits_dependentStore sla)))
  simpa [exportGrants, storeGrants] using h

/-- The calls issued for an app SLA, from the trace of its datasource loop. -/
theorem issued_app (deps : Deps) (sla : SLA) (T : List Call) (p : Bool) (w : World)
    (happ : sla.DataboxType = "app")
    (hT : Emits (forRange (addPermissionsFromSLA.datasource deps sla.Name) sla.Datasources) T p) :
    issued (addPermissionsFromSLA deps sla) w =
      exportGrants sla ++ (T ++ if p then [] else storeGrants sla) := by
  have hnd : sla.DataboxType ≠ "driver" := by rw [happ]; decide
  have hX : Emits (addPermissionsFromSLA.externalWhitelist deps sla) [] false := by
    rw [externalWhitelist_other deps sla hnd]; exact emits_pure _
  have hD : Emits (addPermissionsFromSLA.datasources deps sla) T p := by
    rw [datasources_app deps sla happ]; exact hT
  have hall := emits_issued (emits_addPermissionsFromSLA deps sla hX hD) w
  simpa using hall

/-- The trace of an app SLA splits at any datasource that is reached: what is
done for the SLA cut before it, the calls of its own iteration, and what is
done for the rest. -/
theorem addPermissionsFromSLA_split (deps : Deps) (sla : SLA) (pre post : List DataSource)
    (ds : DataSource) (T : List Call) (w : World)
    (happ : sla.DataboxType = "app")
    (hds : sla.Datasources = pre ++ ds :: post)
    (hpre : ∀ d ∈ pre, (deps.urlParse d.Hypercat.Href).isSome = true)
    (hbody : Emits (addPermissionsFromSLA.datasource deps sla.Name ds) T false) :
    issued (addPermissionsFromSLA deps sla) w =
      issued (addPermissionsFromSLA deps
        { sla with Datasources := pre, ResourceRequirements := { Store := "" } }) w
      ++ T
      ++ issued (addPermissionsFromSLA deps { sla with ExportWhitelists := [], Datasources := post }) w := by
  obtain ⟨Tpre, hTpre⟩ := emits_forRange_ok (addPermissionsFromSLA.datasource deps sla.Name) pre
    (fun d hd => emits_datasource_ok deps sla.Name d (hpre d hd))
  obtain ⟨Tpost, ppost, hTpost⟩ := emits_forRange_exists (addPermissionsFromSLA.datasource deps sla.Name)
    (emits_datasource_exists deps sla.Name) post
  have hD : Emits (forRange (addPermissionsFromSLA.datasource deps sla.Name) sla.Datasources)
      (Tpre ++ (T ++ Tpost)) ppost := by
    rw [hds, forRange_append, forRange_cons]
    exact emits_bind_ok hTpre (fun _ => emits_bind_ok hbody (fun _ => hTpost) rfl) rfl
  rw [issued_app deps sla _ _ w happ hD,
    issued_app deps { sla with Datasources := pre, ResourceRequirements := { Store := "" } }
      Tpre false w happ hTpre,
    issued_app deps { sla with ExportWhitelists := [], Datasources := post } Tpost ppost w happ hTpost]
  simp [exportGrants, storeGrants, List.append_assoc]

/-- C1. For an app SLA and a datasource of it that is an actuator (flagged as a
function or not), `addPermissionsFromSLA` issues exactly four grants for that
datasource, with subject `sla.Name`, target the hostname of the href and an
empty caveat: POST and GET on the href path and on the path followed by "/*".
The calls of the run are those for the SLA cut before the datasource, then
these four, then those for the rest of the SLA. -/
theorem addPermissionsFromSLA_actuator (deps : Deps) (sla : SLA) (pre post : List DataSource)
    (ds : DataSource) (u : URL) (w : World)
    (happ : sla.DataboxType = "app")
    (hds : sla.Datasources = pre ++ ds :: post)
    (hpre : ∀ d ∈ pre, (deps.urlParse d.Hypercat.Href).isSome = true)
    (hu : deps.urlParse ds.Hypercat.Href = some u)
    (hact : deps.IsActuator ds = true) :
    issued (addPermissionsFromSLA deps sla) w =
      issued (addPermissionsFromSLA deps
        { sla with Datasources := pre, ResourceRequirements := { Store := "" } }) w
      ++ [Grant sla.Name u.Hostname (u.Path ++ "/*") "POST" "",
          Grant sla.Name u.Hostname u.Path "POST" "",
          Grant sla.Name u.Hostname u.Path "GET" "",
          Grant sla.Name u.Hostname (u.Path ++ "/*") "GET" ""]
      ++ issued (addPermissionsFromSLA deps { sla with ExportWhitelists := [], Datasources := post }) w :=
  addPermissionsFromSLA_split deps sla pre post ds _ w happ hds hpre
    (emits_datasource_actuator deps sla.Name ds u hu hact)

/-- C2. For an app SLA and a datasource of it that is neither an actuator nor a
function, `addPermissionsFromSLA` issues exactly two grants for that
datasource: GET on the href path and GET on the path followed by "/*", with
subject `sla.Name` and target the hostname of the href; no POST or DELETE. -/
theorem addPermissionsFromSLA_sensor (deps : Deps) (sla : SLA) (pre post : List DataSource)
    (ds : DataSource) (u : URL) (w : World)
    (happ : sla.DataboxType = "app")
    (hds : sla.Datasources = pre ++ ds :: post)
    (hpre : ∀ d ∈ pre, (deps.urlParse d.Hypercat.Href).isSome = true)
    (hu : deps.urlParse ds.Hypercat.Href = some u)
    (hact : deps.IsActuator ds = false) (hfunc : deps.IsFunc ds = false) :
    issued (addPermissionsFromSLA deps sla) w =
      issued (addPermissionsFromSLA deps
        { sla with Datasources := pre, ResourceRequirements := { Store := "" } }) w
      ++ [Grant sla.Name u.Hostname u.Path "GET" "",
          Grant sla.Name u.Hostname (u.Path ++ "/*") "GET" ""]
      ++ issued (addPermissionsFromSLA deps { sla with ExportWhitelists := [], Datasources := post }) w :=
  addPermissionsFromSLA_split deps sla pre post ds _ w happ hds hpre
    (emits_datasource_sensor deps sla.Name ds u hu hact hfunc)

/-- C3. For an app SLA and a datasource of it that is a function and not an
actuator, `addPermissionsFromSLA` issues exactly two grants for it, at the
hostname of the href: POST on "/notification/request/" + name + "/*" and GET on
"/notification/response/" + name + "/*"; none on the href path. -/
theorem addPermissionsFromSLA_function (deps : Deps) (sla : SLA) (pre post : List DataSource)
    (ds : DataSource) (u : URL) (w : World)
    (happ : sla.DataboxType = "app")
    (hds : sla.Datasources = pre ++ ds :: post)
    (hpre : ∀ d ∈ pre, (deps.urlParse d.Hypercat.Href).isSome = true)
    (hu : deps.urlParse ds.Hypercat.Href = some u)
    (hact : deps.IsActuator ds = false) (hfunc : deps.IsFunc ds = true) :
    issued (addPermissionsFromSLA deps sla) w =
      issued (addPermissionsFromSLA deps
        { sla with Datasources := pre, ResourceRequirements := { Store := "" } }) w
      ++ [Grant sla.Name u.Hostname ("/notification/request/" ++ ds.Name ++ "/*") "POST" "",
          Grant sla.Name u.Hostname ("/notification/response/" ++ ds.Name ++ "/*") "GET" ""]
      ++ issued (addPermissionsFromSLA deps { sla with ExportWhitelists := [], Datasources := post }) w :=
  addPermissionsFromSLA_split deps sla pre post ds _ w happ hds hpre
    (emits_datasource_func deps sla.Name ds u hu hact hfunc)

/-! ## Frames -/

theorem keeps_refl (Q : Call → Prop) (w : World) : Keeps Q w w :=
  ⟨rfl, rfl, rfl, [], by simp, by simp, fun _ => rfl⟩

theorem keeps_trans {Q : Call → Prop} {w1 w2 w3 : World} (h12 : Keeps Q w1 w2) (h23 : Keeps Q w2 w3) :
    Keeps Q w1 w3 := by
  obtain ⟨a1, b1, c1, T1, l1, q1, s1⟩ := h12
  obtain ⟨a2, b2, c2, T2, l2, q2, s2⟩ := h23
  refine ⟨a2.trans a1, b2.trans b1, c2.trans c1, T1 ++ T2, by rw [l2, l1, List.append_assoc], ?_, ?_⟩
  · intro c hc
    rcases List.mem_append.mp hc with h | h
    · exact q1 c h
    · exact q2 c h
  · intro h
    rw [s2 (fun c hc => h c (List.mem_append.mpr (Or.inr hc))),
      s1 (fun c hc => h c (List.mem_append.mpr (Or.inl hc)))]

theorem keeps_mono {Q Q' : Call → Prop} {w w' : World} (h : Keeps Q w w') (hQ : ∀ c, Q c → Q' c) :
    Keeps Q' w w' := by
  obtain ⟨a, b, c, T, l, q, s⟩ := h
  exact ⟨a, b, c, T, l, fun x hx => hQ x (q x hx), s⟩

theorem steps_pure {α : Type} (Q : Call → Prop) (a : α) : Steps (Keeps Q) (Pure.pure a : Exec α) :=
  fun w => keeps_refl Q w

theorem steps_panic {α : Type} (Q : Call → Prop) : Steps (Keeps Q) (Exec.panic : Exec α) :=
  fun w => keeps_refl Q w

theorem steps_bind {α β : Type} {Q : Call → Prop} {m : Exec α} {f : α → Exec β}
    (hm : Steps (Keeps Q) m) (hf : ∀ a, Steps (Keeps Q) (f a)) : Steps (Keeps Q) (m >>= f) := by
  intro w
  have h1 := hm w
  rw [exec_bind_apply]
  cases hmw : m w with
  | ok a w1 =>
    rw [hmw] at h1
    exact keeps_trans h1 (hf a w1)
  | panic w1 =>
    rw [hmw] at h1
    exact h1

/-- A step that leaves the world alone. -/
theorem steps_of_world_eq {α : Type} (Q : Call → Prop) (m : Exec α) (h : ∀ w, (m w).world = w) :
    Steps (Keeps Q) m := by
  intro w; rw [h w]; exact keeps_refl Q w

/-- A step that logs one call and touches neither the saved SLAs, the map nor
the oracle, and the secrets only if the call is a secret call. -/
theorem keeps_of_call {Q : Call → Prop} {w w' : World} (c : Call) (hQ : Q c)
    (hlog : w'.log = w.log ++ [c]) (hslas : w'.slas = w.slas)
    (hmap : w'.InstalledComponents = w.InstalledComponents) (herr : w'.errorOf = w.errorOf)
    (hsec : c.touchesSecrets = false → w'.secrets = w.secrets) : Keeps Q w w' :=
  ⟨hslas, hmap, herr, [c], hlog, by simpa using hQ, fun h => hsec (h c (by simp))⟩

theorem steps_Sleep (Q : Call → Prop) (n : Nat) : Steps (Keeps Q) (Sleep n) :=
  fun w => ⟨rfl, rfl, rfl, [], by simp [Databox.Sleep, Res.world], by simp, fun _ => rfl⟩

theorem steps_NetworkList (Q : Call → Prop) (deps : Deps) (name : String) :
    Steps (Keeps Q) (cli.NetworkList deps name) := by
  apply steps_of_world_eq
  intro w; unfold cli.NetworkList; split <;> rfl

theorem steps_NetworkInspect (Q : Call → Prop) (id : String) :
    Steps (Keeps Q) (cli.NetworkInspect id) := by
  apply steps_of_world_eq
  intro w; unfold cli.NetworkInspect; split
  · rfl
  · split <;> rfl

theorem steps_ContainerList (Q : Call → Prop) (deps : Deps) (f : ContainerFilter) :
    Steps (Keeps Q) (cli.ContainerList deps f) := by
  apply steps_of_world_eq
  intro w; unfold cli.ContainerList; split <;> rfl

theorem steps_ImageList (Q : Call → Prop) : Steps (Keeps Q) cli.ImageList := by
  apply steps_of_world_eq
  intro w; unfold cli.ImageList; split <;> rfl

theorem steps_NetworkCreate (Q : Call → Prop) (name : String) (options : NetworkCreate)
    (hQ : Q (Call.NetworkCreate name options)) : Steps (Keeps Q) (cli.NetworkCreate name options) := by
  intro w
  unfold cli.NetworkCreate
  split <;> exact keeps_of_call _ hQ rfl rfl rfl rfl (fun _ => rfl)

theorem steps_NetworkConnect (Q : Call → Prop) (networkID containerID : String)
    (hQ : Q (Call.NetworkConnect networkID containerID)) :
    Steps (Keeps Q) (cli.NetworkConnect networkID containerID) := by
  intro w
  unfold cli.NetworkConnect
  split <;> exact keeps_of_call _ hQ rfl rfl rfl rfl (fun _ => rfl)

/-- The calls of `PreConfig` are network calls; it saves nothing and keeps the map. -/
theorem steps_PreConfig (Q : Call → Prop) (deps : Deps) (name : String) (sla : SLA)
    (hc : ∀ n o, Q (Call.NetworkCreate n o)) (hn : ∀ n c, Q (Call.NetworkConnect n c)) :
    Steps (Keeps Q) (PreConfig deps name sla) := by
  unfold Databox.PreConfig
  refine steps_bind (steps_NetworkList Q deps _) (fun networkList => ?_)
  refine steps_bind ?_ (fun _ => steps_pure Q _)
  unfold PreConfig.network
  cases networkList with
  | cons first rest => exact steps_NetworkInspect Q _
  | nil =>
    refine steps_bind (steps_NetworkCreate Q _ _ (hc _ _)) (fun id => ?_)
    refine steps_bind (steps_NetworkInspect Q _) (fun network => ?_)
    refine steps_bind (steps_ContainerList Q deps _) (fun coreNetwork => ?_)
    cases coreNetwork with
    | nil => exact steps_panic Q
    | cons core rest =>
      refine steps_bind (steps_NetworkConnect Q _ _ (hn _ _)) (fun _ => ?_)
      exact steps_bind (steps_Sleep Q 5) (fun _ => steps_NetworkInspect Q _)

theorem steps_forRange {α : Type} (Q : Call → Prop) (body : α → Exec Unit) (xs : List α)
    (h : ∀ x ∈ xs, Steps (Keeps Q) (body x)) : Steps (Keeps Q) (forRange body xs) := by
  induction xs with
  | nil => exact steps_pure Q ()
  | cons x xs ih =>
    exact steps_bind (h x (List.mem_cons_self x xs))
      (fun _ => ih (fun y hy => h y (List.mem_cons_of_mem x hy)))

theorem steps_pullImageIfRequired (Q : Call → Prop) (image r h : String)
    (hQ : Q (Call.ImagePull image)) : Steps (Keeps Q) (pullImageIfRequired image r h) := by
  intro w
  unfold Databox.pullImageIfRequired
  split
  · exact keeps_refl Q w
  · split <;> exact keeps_of_call _ hQ rfl rfl rfl rfl (fun _ => rfl)

theorem steps_imageExists (Q : Call → Prop) (image : String) : Steps (Keeps Q) (imageExists image) :=
  steps_bind (steps_ImageList Q) (fun _ => steps_pure Q _)

theorem steps_SecretList (Q : Call → Prop) (deps : Deps) (name : String) :
    Steps (Keeps Q) (cli.SecretList deps name) := by
  apply steps_of_world_eq
  intro w; unfold cli.SecretList; split <;> rfl

theorem steps_ServiceList (Q : Call → Prop) (deps : Deps) (name : String) :
    Steps (Keeps Q) (cli.ServiceList deps name) := by
  apply steps_of_world_eq
  intro w; unfold cli.ServiceList; split <;> rfl

theorem steps_SecretRemove (Q : Call → Prop) (id : String) (hQ : Q (Call.SecretRemove id)) :
    Steps (Keeps Q) (cli.SecretRemove id) := by
  intro w
  unfold cli.SecretRemove
  split <;> exact keeps_of_call _ hQ rfl rfl rfl rfl (fun h => by simp [Call.touchesSecrets] at h)

theorem steps_SecretCreate (Q : Call → Prop) (name data : String)
    (hQ : Q (Call.SecretCreate name data)) : Steps (Keeps Q) (cli.SecretCreate name data) := by
  intro w
  unfold cli.SecretCreate
  split <;> exact keeps_of_call _ hQ rfl rfl rfl rfl (fun h => by simp [Call.touchesSecrets] at h)

theorem steps_GenerateArbiterToken (Q : Call → Prop) : Steps (Keeps Q) GenerateArbiterToken :=
  fun w => ⟨rfl, rfl, rfl, [], by simp [Databox.GenerateArbiterToken, Res.world], by simp, fun _ => rfl⟩

theorem steps_RegesterDataboxComponent (Q : Call → Prop) (name token : String) (ty : DataboxType)
    (hQ : Q (Call.RegesterDataboxComponent name token ty)) :
    Steps (Keeps Q) (RegesterDataboxComponent name token ty) :=
  fun _ => keeps_of_call _ hQ rfl rfl rfl rfl (fun _ => rfl)

theorem steps_addPermission (Q : Call → Prop) (name target path method caveat : String)
    (hQ : Q (Grant name target path method caveat)) :
    Steps (Keeps Q) (addPermission name target path method caveat) :=
  fun _ => keeps_of_call _ hQ rfl rfl rfl rfl (fun _ => rfl)

theorem steps_post (Q : Call → Prop) (fn : String) (data : PostData) (URL : String)
    (hQ : Q (Call.Post URL data)) : Steps (Keeps Q) (post fn data URL) := by
  intro w
  unfold Databox.post
  split
  · exact keeps_of_call _ hQ rfl rfl rfl rfl (fun _ => rfl)
  · split <;> exact keeps_of_call _ hQ rfl rfl rfl rfl (fun _ => rfl)

theorem steps_ConnectEndpoints (Q : Call → Prop) (name : String) (peers : List String)
    (hQ : ∀ u d, Q (Call.Post u d)) : Steps (Keeps Q) (ConnectEndpoints name peers) :=
  steps_post Q _ _ _ (hQ _ _)

theorem steps_ServiceCreate (Q : Call → Prop) (service : ServiceSpec)
    (hQ : Q (Call.ServiceCreate service)) : Steps (Keeps Q) (cli.ServiceCreate service) := by
  intro w
  unfold cli.ServiceCreate
  split <;> exact keeps_of_call _ hQ rfl rfl rfl rfl (fun _ => rfl)

theorem steps_createSecret (Q : Call → Prop) (deps : Deps) (name data filename : String)
    (hC : ∀ n d, Q (Call.SecretCreate n d)) (hR : ∀ i, Q (Call.SecretRemove i)) :
    Steps (Keeps Q) (createSecret deps name data filename) := by
  unfold Databox.createSecret
  refine steps_bind (steps_SecretList Q deps _) (fun l => ?_)
  refine steps_bind (steps_forRange Q _ l (fun s _ => ?_)) (fun _ => ?_)
  · exact steps_bind (steps_SecretRemove Q _ (hR _)) (fun _ => steps_pure Q _)
  · exact steps_bind (steps_SecretCreate Q _ _ (hC _ _)) (fun _ => steps_pure Q _)

theorem steps_genorateSecrets (Q : Call → Prop) (deps : Deps) (cm : ContainerManager)
    (containerName : String) (databoxType : DataboxType)
    (hC : ∀ n d, Q (Call.SecretCreate n d)) (hR : ∀ i, Q (Call.SecretRemove i))
    (hA : ∀ n t ty, Q (Call.RegesterDataboxComponent n t ty)) :
    Steps (Keeps Q) (genorateSecrets deps cm containerName databoxType) := by
  unfold Databox.genorateSecrets
  refine steps_bind (steps_createSecret Q deps _ _ _ hC hR) (fun _ => ?_)
  refine steps_bind (steps_GenerateArbiterToken Q) (fun _ => ?_)
  refine steps_bind (steps_createSecret Q deps _ _ _ hC hR) (fun _ => ?_)
  refine steps_bind (steps_RegesterDataboxComponent Q _ _ _ (hA _ _ _)) (fun _ => ?_)
  split <;> exact steps_pure Q _

theorem steps_launchStore (Q : Call → Prop) (deps : Deps) (cm : ContainerManager)
    (requiredStore requiredStoreName : String) (netConf : NetworkConfig)
    (hC : ∀ n d, Q (Call.SecretCreate n d)) (hR : ∀ i, Q (Call.SecretRemove i))
    (hA : ∀ n t ty, Q (Call.RegesterDataboxComponent n t ty))
    (hI : ∀ i, Q (Call.ImagePull i))
    (hS : ∀ spec : ServiceSpec, spec.Name = requiredStoreName → Q (Call.ServiceCreate spec)) :
    Steps (Keeps Q) (launchStore deps cm requiredStore requiredStoreName netConf) := by
  unfold Databox.launchStore
  refine steps_bind (steps_ServiceList Q deps _) (fun stores => ?_)
  split
  · exact steps_pure Q _
  · refine steps_bind (steps_genorateSecrets Q deps cm _ _ hC hR hA) (fun _ => ?_)
    refine steps_bind (steps_pullImageIfRequired Q _ _ _ (hI _)) (fun _ => ?_)
    exact steps_bind (steps_ServiceCreate Q _ (hS _ rfl)) (fun _ => steps_pure Q _)

theorem steps_WaitForService_loop (Q : Call → Prop) (deps : Deps) (name : String) (timeout : Int)
    (fuel : Nat) (loopCount : Int) :
    Steps (Keeps Q) (WaitForService.loop deps name timeout fuel loopCount) := by
  induction fuel generalizing loopCount with
  | zero => exact steps_pure Q _
  | succ n ih =>
    unfold WaitForService.loop
    refine steps_bind (steps_ContainerList Q deps _) (fun contList => ?_)
    cases contList with
    | cons c rest => exact steps_bind (steps_Sleep Q 3) (fun _ => steps_pure Q _)
    | nil =>
      refine steps_bind (steps_Sleep Q 1) (fun _ => ?_)
      dsimp only
      split
      · exact steps_pure Q _
      · exact ih _

theorem steps_WaitForService (Q : Call → Prop) (deps : Deps) (name : String) (timeout : Int) :
    Steps (Keeps Q) (WaitForService deps name timeout) :=
  steps_WaitForService_loop Q deps name timeout _ _

theorem steps_externals (Q : Call → Prop) (deps : Deps) (externals urls : List String) :
    Steps (Keeps Q) (addPermissionsFromSLA.externals deps externals urls) := by
  induction urls generalizing externals with
  | nil => exact steps_pure Q _
  | cons u rest ih =>
    unfold addPermissionsFromSLA.externals
    split
    · exact steps_panic Q
    · exact ih _

theorem steps_datasource (Q : Call → Prop) (deps : Deps) (name : String) (ds : DataSource)
    (hG : ∀ n t p m c, Q (Grant n t p m c)) :
    Steps (Keeps Q) (addPermissionsFromSLA.datasource deps name ds) := by
  unfold addPermissionsFromSLA.datasource
  split
  · exact steps_panic Q
  · split
    · exact steps_bind (steps_addPermission Q _ _ _ _ _ (hG _ _ _ _ _))
        (fun _ => steps_bind (steps_addPermission Q _ _ _ _ _ (hG _ _ _ _ _))
          (fun _ => steps_bind (steps_addPermission Q _ _ _ _ _ (hG _ _ _ _ _))
            (fun _ => steps_bind (steps_addPermission Q _ _ _ _ _ (hG _ _ _ _ _))
              (fun _ => steps_pure Q _))))
    · split
      · exact steps_bind (steps_addPermission Q _ _ _ _ _ (hG _ _ _ _ _))
          (fun _ => steps_bind (steps_addPermission Q _ _ _ _ _ (hG _ _ _ _ _))
            (fun _ => steps_pure Q _))
      · exact steps_bind (steps_addPermission Q _ _ _ _ _ (hG _ _ _ _ _))
          (fun _ => steps_bind (steps_addPermission Q _ _ _ _ _ (hG _ _ _ _ _))
            (fun _ => steps_pure Q _))

/-- The calls of `addPermissionsFromSLA` are grants, and connect requests for a driver only. -/
theorem steps_addPermissionsFromSLA (Q : Call → Prop) (deps : Deps) (sla : SLA)
    (hG : ∀ n t p m c, Q (Grant n t p m c))
    (hP : sla.DataboxType = "driver" → ∀ u d, Q (Call.Post u d)) :
    Steps (Keeps Q) (addPermissionsFromSLA deps sla) := by
  unfold Databox.addPermissionsFromSLA
  refine steps_bind ?_ (fun _ => steps_bind ?_ (fun _ => steps_bind ?_ (fun _ => ?_)))
  · unfold addPermissionsFromSLA.exportWhitelists
    split
    · exact steps_forRange Q _ _ (fun x _ =>
        steps_bind (steps_addPermission Q _ _ _ _ _ (hG _ _ _ _ _))
          (fun _ => steps_bind (steps_addPermission Q _ _ _ _ _ (hG _ _ _ _ _))
            (fun _ => steps_pure Q _)))
    · exact steps_pure Q _
  · unfold addPermissionsFromSLA.externalWhitelist
    split
    · rename_i hc
      exact steps_forRange Q _ _ (fun x _ =>
        steps_bind (steps_externals Q deps _ _)
          (fun _ => steps_bind (steps_ConnectEndpoints Q _ _ (hP hc.1)) (fun _ => steps_pure Q _)))
    · exact steps_pure Q _
  · unfold addPermissionsFromSLA.datasources
    split
    · exact steps_forRange Q _ _ (fun x _ => steps_datasource Q deps _ x hG)
    · exact steps_pure Q _
  · unfold addPermissionsFromSLA.dependentStore
    split
    · exact steps_bind (steps_addPermission Q _ _ _ _ _ (hG _ _ _ _ _))
        (fun _ => steps_bind (steps_addPermission Q _ _ _ _ _ (hG _ _ _ _ _))
          (fun _ => steps_bind (steps_addPermission Q _ _ _ _ _ (hG _ _ _ _ _))
            (fun _ => steps_bind (steps_addPermission Q _ _ _ _ _ (hG _ _ _ _ _))
              (fun _ => steps_pure Q _))))
    · exact steps_pure Q _

theorem flatMap_singleton {α β : Type} (f : α → β) (xs : List α) :
    xs.flatMap (fun x => [f x]) = xs.map f := by
  induction xs with
  | nil => rfl
  | cons x xs ih => simp [List.flatMap_cons, ih]

/-- The calls a run issues, read off a frame. -/
theorem keeps_issued {α : Type} {Q : Call → Prop} {m : Exec α} {w : World}
    (h : Keeps Q w (m w).world) : ∀ c ∈ issued m w, Q c := by
  obtain ⟨_, _, _, T, hl, hq, _⟩ := h
  unfold Databox.issued
  rw [hl, List.drop_left]
  exact hq

/-- C6. For a driver SLA whose external urls parse, `addPermissionsFromSLA`
asks the network controller, once per external whitelist entry and in order,
to connect the driver to the hostnames of the entry, and issues no datasource
grant whatever datasources the SLA lists: its calls are the export grants, the
connect requests and the store grants.  For an app SLA no connect request is
made, whatever external whitelist it lists. -/
theorem addPermissionsFromSLA_external (deps : Deps) (driver app : SLA) (w : World)
    (hd : driver.DataboxType = "driver")
    (hurls : ∀ whiteList ∈ driver.ExternalWhitelist, ∀ u ∈ whiteList.Urls,
      (deps.urlParse u).isSome = true)
    (ha : app.DataboxType = "app") :
    issued (addPermissionsFromSLA deps driver) w =
        exportGrants driver
        ++ driver.ExternalWhitelist.map (fun whiteList =>
            Call.Post "https://databox-network:8080/connect"
              (PostData.connect driver.Name
                (whiteList.Urls.filterMap (fun u => (deps.urlParse u).map URL.Hostname))))
        ++ storeGrants driver
    ∧ ∀ c ∈ issued (addPermissionsFromSLA deps app) w, c.isPost = false := by
  constructor
  · have hX := emits_externalWhitelist_driver deps driver hd hurls
    have hnapp : driver.DataboxType ≠ "app" := by rw [hd]; decide
    have hD : Emits (addPermissionsFromSLA.datasources deps driver) [] false := by
      rw [datasources_other deps driver hnapp]; exact emits_pure _
    have h := emits_issued (emits_addPermissionsFromSLA deps driver hX hD) w
    rw [h, flatMap_singleton]
    simp
  · have hnd : app.DataboxType ≠ "driver" := by rw [ha]; decide
    exact keeps_issued (steps_addPermissionsFromSLA (fun c => c.isPost = false) deps app
      (fun _ _ _ _ _ => rfl) (fun h => absurd h hnd) w)

/-- A string without quote, backslash or control character is read back as it
stands. -/
theorem json_readString_plain (v rest : List Char)
    (h : ∀ c ∈ v, c ≠ '"' ∧ c ≠ '\\' ∧ ¬ c.toNat < 32) :
    JSON.readString (v ++ '"' :: rest) = some (v, rest) := by
  induction v with
  | nil => rw [JSON.readString.eq_def]; simp
  | cons c v ih =>
    obtain ⟨h1, h2, h3⟩ := h c (List.mem_cons_self c v)
    have ih' := ih (fun d hd => h d (List.mem_cons_of_mem c hd))
    rw [JSON.readString.eq_def]
    simp [h1, h2, h3, ih']

/-- For a url without quote, backslash or control character the caveat built by
`addPermissionsFromSLA` is the JSON object with the single member "destination"
of value the url. -/
theorem json_destinationOf_caveat (url : String)
    (h : ∀ c ∈ url.data, c ≠ '"' ∧ c ≠ '\\' ∧ ¬ c.toNat < 32) :
    JSON.destinationOf ("\x7b\"destination\":\"" ++ url ++ "\"\x7d") = some url := by
  have hkey : JSON.readString ("destination".data ++ '"' :: (':' :: '"' :: (url.data ++ ['"', '}'])))
      = some ("destination".data, ':' :: '"' :: (url.data ++ ['"', '}'])) :=
    json_readString_plain _ _ (by decide)
  have hval : JSON.readString (url.data ++ '"' :: ['}']) = some (url.data, ['}']) :=
    json_readString_plain _ _ h
  have hdata : ("\x7b\"destination\":\"" ++ url ++ "\"\x7d").data
      = '{' :: '"' :: ("destination".data ++ '"' :: (':' :: '"' :: (url.data ++ ['"', '}']))) := by
    simp [String.data_append]
  unfold JSON.destinationOf
  rw [hdata]
  have e1 : JSON.expect '{' ('{' :: '"' :: ("destination".data ++ '"' :: (':' :: '"' :: (url.data ++ ['"', '}']))))
      = some ('"' :: ("destination".data ++ '"' :: (':' :: '"' :: (url.data ++ ['"', '}'])))) := by
    simp [JSON.expect, JSON.skipWhitespace, JSON.isWhitespace]
  have e2 : JSON.expect '"' ('"' :: ("destination".data ++ '"' :: (':' :: '"' :: (url.data ++ ['"', '}']))))
      = some ("destination".data ++ '"' :: (':' :: '"' :: (url.data ++ ['"', '}']))) := by
    simp [JSON.expect, JSON.skipWhitespace, JSON.isWhitespace]
  have e3 : JSON.expect ':' (':' :: '"' :: (url.data ++ ['"', '}'])) = some ('"' :: (url.data ++ ['"', '}'])) := by
    simp [JSON.expect, JSON.skipWhitespace, JSON.isWhitespace]
  have e4 : JSON.expect '"' ('"' :: (url.data ++ ['"', '}'])) = some (url.data ++ ['"', '}']) := by
    simp [JSON.expect, JSON.skipWhitespace, JSON.isWhitespace]
  have e5 : JSON.expect '}' ['}'] = some [] := by
    simp [JSON.expect, JSON.skipWhitespace, JSON.isWhitespace]
  rw [e1]
  simp only [Option.bind_eq_bind, Option.some_bind]
  rw [e2]
  simp only [Option.some_bind]
  rw [hkey]
  simp only [Option.some_bind]
  rw [e3]
  simp only [Option.some_bind]
  rw [e4]
  simp only [Option.some_bind]
  rw [hval]
  simp only [Option.some_bind]
  rw [e5]
  simp [JSON.skipWhitespace]

/-- C4 (the code at the failing input). An export whitelist entry whose url holds
a double quote: the two grants POST "/export" and POST "/lp/export" on
"export-service" are issued, but their caveat is the url pasted between fixed
text, which is not a JSON object with the member "destination" of that value. -/
theorem exportWhitelists_caveat_unescaped (deps : Deps) (w : World) :
    issued (addPermissionsFromSLA deps
        { Name := "app", DataboxType := "app",
          ExportWhitelists := [{ Url := "https://example.org/a\"b" }] }) w
      = [Grant "app" "export-service" "/export" "POST" "\x7b\"destination\":\"https://example.org/a\"b\"\x7d",
         Grant "app" "export-service" "/lp/export" "POST" "\x7b\"destination\":\"https://example.org/a\"b\"\x7d"]
    ∧ JSON.destinationOf "\x7b\"destination\":\"https://example.org/a\"b\"\x7d" = none := by
  constructor
  · have h := issued_app deps
      { Name := "app", DataboxType := "app",
        ExportWhitelists := [{ Url := "https://example.org/a\"b" }] } [] false w rfl (emits_pure ())
    rw [h]
    decide
  · decide

/-! ## Installation -/

theorem store_name_ne_empty (name store : String) : name ++ "-" ++ store ≠ "" := by
  intro h
  have := congrArg String.data h
  simp [String.data_append] at this

theorem steps_requiredStore (Q : Call → Prop) (deps : Deps) (cm : ContainerManager) (sla : SLA)
    (requiredStoreName : String) (netConf : NetworkConfig)
    (hC : ∀ n d, Q (Call.SecretCreate n d)) (hR : ∀ i, Q (Call.SecretRemove i))
    (hA : ∀ n t ty, Q (Call.RegesterDataboxComponent n t ty))
    (hI : ∀ i, Q (Call.ImagePull i))
    (hS : ∀ spec : ServiceSpec, requiredStoreName ≠ "" → spec.Name = requiredStoreName →
      Q (Call.ServiceCreate spec)) :
    Steps (Keeps Q) (LaunchFromSLA.requiredStore deps cm sla requiredStoreName netConf) := by
  unfold LaunchFromSLA.requiredStore
  split
  · rename_i hne
    exact steps_bind (steps_launchStore Q deps cm _ _ _ hC hR hA hI (fun spec h => hS spec hne h))
      (fun _ => steps_bind (steps_WaitForService Q deps _ _) (fun _ => steps_pure Q _))
  · exact steps_pure Q _

/-- Before the service is created nothing is saved and the map is not touched;
the only service created is the dependent store. -/
theorem steps_prepare (deps : Deps) (cm : ContainerManager) (sla : SLA) :
    Steps (Keeps (LaunchFromSLA.preparing sla)) (LaunchFromSLA.prepare deps cm sla) := by
  have hother : ∀ c : Call, c.isSaveSLA = false → c.isServiceCreate = false →
      LaunchFromSLA.preparing sla c := by
    intro c h1 h2
    refine ⟨h1, fun spec h => ?_⟩
    subst h
    simp [Call.isServiceCreate] at h2
  unfold LaunchFromSLA.prepare
  refine steps_bind (steps_PreConfig _ deps _ _ (fun _ _ => hother _ rfl rfl)
    (fun _ _ => hother _ rfl rfl)) (fun netConf => ?_)
  split
  · exact steps_pure _ _
  · exact steps_panic _
  · rename_i service requiredNetworks _
    refine steps_bind (steps_pullImageIfRequired _ _ _ _ (hother _ rfl rfl)) (fun _ => ?_)
    refine steps_bind (steps_imageExists _ _) (fun found => ?_)
    split
    · exact steps_pure _ _
    · refine steps_bind (steps_genorateSecrets _ deps cm _ _ (fun _ _ => hother _ rfl rfl)
        (fun _ => hother _ rfl rfl) (fun _ _ _ => hother _ rfl rfl)) (fun secrets => ?_)
      refine steps_bind (steps_ConnectEndpoints _ _ _ (fun _ _ => hother _ rfl rfl)) (fun _ => ?_)
      refine steps_bind (steps_requiredStore _ deps cm sla _ _ (fun _ _ => hother _ rfl rfl)
        (fun _ => hother _ rfl rfl) (fun _ _ _ => hother _ rfl rfl) (fun _ => hother _ rfl rfl)
        ?_) (fun _ => ?_)
      · intro spec hne hname
        refine ⟨rfl, fun spec' h => ?_⟩
        cases h
        by_cases hs : sla.ResourceRequirements.Store = ""
        · simp [hs] at hne
        · refine ⟨hs, ?_⟩
          rw [hname]
          simp [hs]
      · exact steps_bind (steps_addPermissionsFromSLA _ deps sla (fun _ _ _ _ _ => hother _ rfl rfl)
          (fun _ _ _ => hother _ rfl rfl)) (fun _ => steps_pure _ _)

theorem issued_of_log {α : Type} {m : Exec α} {w : World} {T : List Call}
    (h : (m w).world.log = w.log ++ T) : issued m w = T := by
  unfold issued
  rw [h, List.drop_left]

theorem mapHas_mapSet (m : List (String × String)) (key value : String) :
    mapHas (mapSet m key value) key = true := by
  unfold mapSet mapHas
  split
  · rename_i h
    rw [List.any_eq_true] at h ⊢
    obtain ⟨kv, hkv, hk⟩ := h
    refine ⟨(key, value), ?_, by simp⟩
    rw [List.mem_map]
    exact ⟨kv, hkv, by simp [hk]⟩
  · simp

/-- The four ways a run of `LaunchFromSLA` can end, from the outcome of its
preparation and of the service creation. -/
theorem LaunchFromSLA_of_panic (deps : Deps) (cm : ContainerManager) (sla : SLA) (save : Bool)
    (w w1 : World) (h : LaunchFromSLA.prepare deps cm sla w = .panic w1) :
    LaunchFromSLA deps cm sla save w = .panic w1 := by
  simp [LaunchFromSLA, h]

theorem LaunchFromSLA_of_error (deps : Deps) (cm : ContainerManager) (sla : SLA) (save : Bool)
    (w w1 : World) (e : String) (h : LaunchFromSLA.prepare deps cm sla w = .ok (.error e) w1) :
    LaunchFromSLA deps cm sla save w = .ok (some e) w1 := by
  simp [LaunchFromSLA, h]

theorem LaunchFromSLA_of_create_error (deps : Deps) (cm : ContainerManager) (sla : SLA) (save : Bool)
    (w w1 : World) (service : ServiceSpec) (e : String)
    (h : LaunchFromSLA.prepare deps cm sla w = .ok (.ok service) w1)
    (he : cli.ServiceCreate.error w1 service = some e) :
    LaunchFromSLA deps cm sla save w =
      .ok (some e) { w1 with log := w1.log ++ [Call.ServiceCreate service] } := by
  simp [LaunchFromSLA, h, cli.ServiceCreate, he]

theorem LaunchFromSLA_of_created (deps : Deps) (cm : ContainerManager) (sla : SLA) (save : Bool)
    (w w1 : World) (service : ServiceSpec)
    (h : LaunchFromSLA.prepare deps cm sla w = .ok (.ok service) w1)
    (he : cli.ServiceCreate.error w1 service = none) :
    ∃ w3, LaunchFromSLA deps cm sla save w = .ok none w3 ∧
      w3.InstalledComponents = mapSet w1.InstalledComponents sla.Name sla.Name ∧
      w3.log = w1.log ++ ([Call.ServiceCreate service] ++ if save = true then [Call.SaveSLA sla] else []) ∧
      w3.slas = (if save = true ∧ w1.errorOf (Call.SaveSLA sla) = none then
        w1.slas.filter (fun s => s.Name != sla.Name) ++ [sla] else w1.slas) := by
  cases save with
  | false =>
    refine ⟨_, by simp [LaunchFromSLA, h, cli.ServiceCreate, he, LaunchFromSLA.save, LaunchFromSLA.keepTrack]; rfl, ?_, ?_, ?_⟩ <;> simp
  | true =>
    cases hs : w1.errorOf (Call.SaveSLA sla) with
    | none =>
      refine ⟨_, by simp [LaunchFromSLA, h, cli.ServiceCreate, he, LaunchFromSLA.save, LaunchFromSLA.keepTrack, SaveSLA, hs]; rfl, ?_, ?_, ?_⟩ <;> simp [hs]
    | some e =>
      refine ⟨_, by simp [LaunchFromSLA, h, cli.ServiceCreate, he, LaunchFromSLA.save, LaunchFromSLA.keepTrack, SaveSLA, hs]; rfl, ?_, ?_, ?_⟩ <;> simp [hs]

/-- C9. `LaunchFromSLA sla save` adds `sla.Name` to the installed map exactly
when it returns no error, and writes the SLA to the management store exactly
when it returns no error and `save` is set (the stored set changes unless that
write fails).  When the preparation is through and the runtime refuses to
create the service, that error is what `LaunchFromSLA` returns; together with
the first parts, nothing is saved then and `IsInstalled` keeps its value. -/
theorem LaunchFromSLA_installed_saved (deps : Deps) (cm : ContainerManager) (sla : SLA)
    (save : Bool) (w : World) :
    (LaunchFromSLA deps cm sla save w).world.InstalledComponents =
      (if (LaunchFromSLA deps cm sla save w).value = some none then
        mapSet w.InstalledComponents sla.Name sla.Name
       else w.InstalledComponents)
    ∧ IsInstalled (LaunchFromSLA deps cm sla save w).world sla.Name =
      (if (LaunchFromSLA deps cm sla save w).value = some none then true
       else IsInstalled w sla.Name)
    ∧ (∀ s, Call.SaveSLA s ∈ issued (LaunchFromSLA deps cm sla save) w ↔
        (s = sla ∧ (LaunchFromSLA deps cm sla save w).value = some none ∧ save = true))
    ∧ (LaunchFromSLA deps cm sla save w).world.slas =
      (if (LaunchFromSLA deps cm sla save w).value = some none ∧ save = true
          ∧ w.errorOf (Call.SaveSLA sla) = none then
        w.slas.filter (fun s => s.Name != sla.Name) ++ [sla]
       else w.slas)
    ∧ (∀ service e,
        (LaunchFromSLA.prepare deps cm sla w).value = some (Except.ok service) →
        cli.ServiceCreate.error (LaunchFromSLA.prepare deps cm sla w).world service = some e →
        (LaunchFromSLA deps cm sla save w).value = some (some e)) := by
  have hk := steps_prepare deps cm sla w
  cases hp : LaunchFromSLA.prepare deps cm sla w with
  | panic w1 =>
    rw [hp] at hk
    obtain ⟨hsl, hmap, herr, T, hlog, hq, _⟩ := hk
    simp only [Res.world] at hsl hmap herr hlog
    have hr := LaunchFromSLA_of_panic deps cm sla save w w1 hp
    have hiss : issued (LaunchFromSLA deps cm sla save) w = T :=
      issued_of_log (by rw [hr]; exact hlog)
    rw [hr, hiss]
    refine ⟨by simp [Res.world, Res.value, hmap], by simp [Res.world, Res.value, IsInstalled, hmap],
      ?_, by simp [Res.world, Res.value, hsl], by simp [Res.value]⟩
    intro s
    constructor
    · intro hs
      have := (hq _ hs).1
      simp [Call.isSaveSLA] at this
    · intro h
      simp [Res.value] at h
  | ok prepared w1 =>
    rw [hp] at hk
    obtain ⟨hsl, hmap, herr, T, hlog, hq, _⟩ := hk
    simp only [Res.world] at hsl hmap herr hlog
    have hnosave : ∀ s, Call.SaveSLA s ∉ T := by
      intro s hs
      have := (hq _ hs).1
      simp [Call.isSaveSLA] at this
    cases prepared with
    | error e =>
      have hr := LaunchFromSLA_of_error deps cm sla save w w1 e hp
      have hiss : issued (LaunchFromSLA deps cm sla save) w = T :=
        issued_of_log (by rw [hr]; exact hlog)
      rw [hr, hiss]
      refine ⟨by simp [Res.world, Res.value, hmap], by simp [Res.world, Res.value, IsInstalled, hmap],
        ?_, by simp [Res.world, Res.value, hsl], by simp [Res.value]⟩
      intro s
      constructor
      · intro hs
        exact absurd hs (hnosave s)
      · intro h
        simp [Res.value] at h
    | ok service =>
      cases he : cli.ServiceCreate.error w1 service with
      | some e =>
        have hr := LaunchFromSLA_of_create_error deps cm sla save w w1 service e hp he
        have hiss : issued (LaunchFromSLA deps cm sla save) w = T ++ [Call.ServiceCreate service] :=
          issued_of_log (by rw [hr]; simp [Res.world, hlog])
        rw [hr, hiss]
        refine ⟨by simp [Res.world, Res.value, hmap],
          by simp [Res.world, Res.value, IsInstalled, hmap], ?_,
          by simp [Res.world, Res.value, hsl], ?_⟩
        · intro s
          constructor
          · intro hs
            rcases List.mem_append.mp hs with h | h
            · exact absurd h (hnosave s)
            · simp at h
          · intro h
            simp [Res.value] at h
        · intro service' e' h1 h2
          simp only [Res.value, Option.some.injEq, Except.ok.injEq] at h1
          subst h1
          simp only [Res.world] at h2
          rw [he] at h2
          simp only [Res.value]
          rw [h2]
      | none =>
        obtain ⟨w3, hr, h3map, h3log, h3slas⟩ :=
          LaunchFromSLA_of_created deps cm sla save w w1 service hp he
        have hiss : issued (LaunchFromSLA deps cm sla save) w =
            T ++ ([Call.ServiceCreate service] ++ if save = true then [Call.SaveSLA sla] else []) :=
          issued_of_log (by rw [hr]; simp only [Res.world]; rw [h3log, hlog, List.append_assoc])
        rw [hr, hiss]
        refine ⟨by simp [Res.world, Res.value, h3map, hmap],
          by simp [Res.world, Res.value, IsInstalled, h3map, mapHas_mapSet], ?_,
          by simp [Res.world, Res.value, h3slas, hsl, herr], ?_⟩
        · intro s
          constructor
          · intro hs
            rcases List.mem_append.mp hs with h | h
            · exact absurd h (hnosave s)
            · cases save with
              | false => simp at h
              | true =>
                simp at h
                simp [Res.value, h]
          · intro h
            obtain ⟨h1, _, h3⟩ := h
            subst h1
            simp [h3]
        · intro service' e' h1 h2
          simp only [Res.value, Option.some.injEq, Except.ok.injEq] at h1
          subst h1
          simp only [Res.world] at h2
          rw [he] at h2
          exact absurd h2 (by simp)

theorem res_value_eq_some {α : Type} {r : Res α} {a : α} (h : r.value = some a) :
    r = .ok a r.world := by
  cases r with
  | ok b w => simp [Res.value] at h; simp [Res.world, h]
  | panic w => simp [Res.value] at h

theorem pullImageIfRequired_ok (image r h : String) (w : World) :
    pullImageIfRequired image r h w = .ok () (pullImageIfRequired image r h w).world := by
  unfold pullImageIfRequired
  split
  · rfl
  · split <;> rfl

theorem imageExists_world (image : String) (w : World) :
    ∃ b, imageExists image w = .ok b w := by
  unfold imageExists cli.ImageList
  cases h : w.errorOf Call.ImageList <;> simp [h]

theorem touchesSecrets_of_rotation (c : Call) (h : c.isSecretRotation = false) :
    c.touchesSecrets = false := by
  cases c <;> simp_all [Call.isSecretRotation, Call.touchesSecrets]

/-- C10. When the image of the service is absent from the runtime's image list
after the pull attempt, `LaunchFromSLA` returns an error; at that point no SLA
has been saved, the installed map and the secrets are as before, and none of
the calls made creates or removes a secret, registers a token with the arbiter
or grants a permission. -/
theorem LaunchFromSLA_image_missing (deps : Deps) (cm : ContainerManager) (sla : SLA) (save : Bool)
    (w : World) (netConf : NetworkConfig) (service : ServiceSpec) (requiredNetworks : List String)
    (hpre : (PreConfig deps sla.Name sla w).value = some netConf)
    (hcfg : LaunchFromSLA.config deps cm sla sla.Name netConf = some (some (service, requiredNetworks)))
    (himg : (imageExists service.TaskTemplate.ContainerSpec.Image
        (pullImageIfRequired service.TaskTemplate.ContainerSpec.Image cm.Options.DefaultRegistry
          cm.Options.DefaultRegistryHost (PreConfig deps sla.Name sla w).world).world).value
        = some false) :
    (LaunchFromSLA deps cm sla save w).value =
      some (some ("Can't install " ++ sla.Name ++ " cant find the image "
        ++ service.TaskTemplate.ContainerSpec.Image))
    ∧ (LaunchFromSLA deps cm sla save w).world.slas = w.slas
    ∧ (LaunchFromSLA deps cm sla save w).world.InstalledComponents = w.InstalledComponents
    ∧ (LaunchFromSLA deps cm sla save w).world.secrets = w.secrets
    ∧ ∀ c ∈ issued (LaunchFromSLA deps cm sla save) w,
        c.isSecretRotation = false ∧ c.isSaveSLA = false := by
  have hk1 := steps_PreConfig (fun c => c.isSecretRotation = false ∧ c.isSaveSLA = false) deps
    sla.Name sla (fun _ _ => ⟨rfl, rfl⟩) (fun _ _ => ⟨rfl, rfl⟩) w
  have h1 := res_value_eq_some hpre
  generalize (PreConfig deps sla.Name sla w).world = w1 at h1 himg hk1
  have hk2 := steps_pullImageIfRequired (fun c => c.isSecretRotation = false ∧ c.isSaveSLA = false)
    service.TaskTemplate.ContainerSpec.Image cm.Options.DefaultRegistry cm.Options.DefaultRegistryHost
    ⟨rfl, rfl⟩ w1
  have h2 := pullImageIfRequired_ok service.TaskTemplate.ContainerSpec.Image cm.Options.DefaultRegistry
    cm.Options.DefaultRegistryHost w1
  generalize (pullImageIfRequired service.TaskTemplate.ContainerSpec.Image cm.Options.DefaultRegistry
    cm.Options.DefaultRegistryHost w1).world = w2 at h2 himg hk2
  obtain ⟨b, h3⟩ := imageExists_world service.TaskTemplate.ContainerSpec.Image w2
  rw [h3] at himg
  simp only [Res.value, Option.some.injEq] at himg
  subst himg
  have hprep : LaunchFromSLA.prepare deps cm sla w =
      .ok (.error ("Can't install " ++ sla.Name ++ " cant find the image "
        ++ service.TaskTemplate.ContainerSpec.Image)) w2 := by
    unfold LaunchFromSLA.prepare
    simp only [exec_bind_apply, h1, hcfg, h2, h3]
    simp
  have hr := LaunchFromSLA_of_error deps cm sla save w _ _ hprep
  obtain ⟨hsl, hmap, _, T, hlog, hq, hsec⟩ := keeps_trans hk1 hk2
  have hiss : issued (LaunchFromSLA deps cm sla save) w = T :=
    issued_of_log (by rw [hr]; exact hlog)
  rw [hiss, hr]
  refine ⟨rfl, hsl, hmap, hsec (fun c hc => touchesSecrets_of_rotation c (hq c hc).1), hq⟩

theorem exec_bind_ok_inv {α β : Type} {m : Exec α} {f : α → Exec β} {w w' : World} {b : β}
    (h : (m >>= f) w = .ok b w') : ∃ a w1, m w = .ok a w1 ∧ f a w1 = .ok b w' := by
  rw [exec_bind_apply] at h
  cases hm : m w with
  | ok a w1 => rw [hm] at h; exact ⟨a, w1, rfl, h⟩
  | panic w1 => rw [hm] at h; cases h

/-- The service spec a successful preparation hands over: the spec of the
`switch`, with the secrets and, for a dependent store, the two endpoint
variables appended to its environment. -/
theorem prepare_service (deps : Deps) (cm : ContainerManager) (sla : SLA) (w w' : World)
    (service : ServiceSpec) (h : LaunchFromSLA.prepare deps cm sla w = .ok (.ok service) w') :
    ∃ netConf cfg nets, (PreConfig deps sla.Name sla w).value = some netConf ∧
      LaunchFromSLA.config deps cm sla sla.Name netConf = some (some (cfg, nets)) ∧
      service.TaskTemplate.ContainerSpec.Env = cfg.TaskTemplate.ContainerSpec.Env ++
        (if sla.ResourceRequirements.Store = "" then []
         else ["DATABOX_ZMQ_ENDPOINT=tcp://" ++ (sla.Name ++ "-" ++ sla.ResourceRequirements.Store) ++ ":5555",
               "DATABOX_ZMQ_DEALER_ENDPOINT=tcp://" ++ (sla.Name ++ "-" ++ sla.ResourceRequirements.Store) ++ ":5556"]) := by
  unfold LaunchFromSLA.prepare at h
  obtain ⟨netConf, w1, hpre, h⟩ := exec_bind_ok_inv h
  refine ⟨netConf, ?_⟩
  cases hcfg : LaunchFromSLA.config deps cm sla sla.Name netConf with
  | none => simp only [hcfg] at h; cases h
  | some o =>
    cases o with
    | none => simp only [hcfg] at h; cases h
    | some p =>
      obtain ⟨cfg, nets⟩ := p
      simp only [hcfg] at h
      refine ⟨cfg, nets, by rw [hpre]; rfl, rfl, ?_⟩
      obtain ⟨_, w2, _, h⟩ := exec_bind_ok_inv h
      obtain ⟨found, w3, _, h⟩ := exec_bind_ok_inv h
      cases found with
      | false => simp at h
      | true =>
        simp only [Bool.not_true, Bool.false_eq_true, if_false] at h
        obtain ⟨secrets, w4, _, h⟩ := exec_bind_ok_inv h
        obtain ⟨_, w5, _, h⟩ := exec_bind_ok_inv h
        obtain ⟨_, w6, _, h⟩ := exec_bind_ok_inv h
        obtain ⟨_, w7, _, h⟩ := exec_bind_ok_inv h
        simp only [exec_pure_apply, Res.ok.injEq, Except.ok.injEq] at h
        obtain ⟨h, _⟩ := h
        subst h
        by_cases hs : sla.ResourceRequirements.Store = ""
        · simp [hs]
        · simp [hs, store_name_ne_empty]

theorem emits_externalWhitelist_ok (deps : Deps) (sla : SLA)
    (h : sla.DataboxType = "driver" → ∀ whiteList ∈ sla.ExternalWhitelist, ∀ u ∈ whiteList.Urls,
      (deps.urlParse u).isSome = true) :
    ∃ T, Emits (addPermissionsFromSLA.externalWhitelist deps sla) T false := by
  by_cases hd : sla.DataboxType = "driver"
  · exact ⟨_, emits_externalWhitelist_driver deps sla hd (h hd)⟩
  · rw [externalWhitelist_other deps sla hd]
    exact ⟨[], emits_pure _⟩

theorem emits_datasources_ok (deps : Deps) (sla : SLA)
    (h : sla.DataboxType = "app" → ∀ ds ∈ sla.Datasources,
      (deps.urlParse ds.Hypercat.Href).isSome = true) :
    ∃ T, Emits (addPermissionsFromSLA.datasources deps sla) T false := by
  by_cases hd : sla.DataboxType = "app"
  · rw [datasources_app deps sla hd]
    exact emits_forRange_ok _ _ (fun d hdm => emits_datasource_ok deps sla.Name d (h hd d hdm))
  · rw [datasources_other deps sla hd]
    exact ⟨[], emits_pure _⟩

/-- C5. For an SLA with a store class, `addPermissionsFromSLA` ends with exactly
four store grants, all on the store `sla.Name-sla.store`: GET "/cat" for
"container-manager", and POST, DELETE and GET on "/*" for `sla.Name`; with an
empty store class it ends with none.  Every service `LaunchFromSLA` creates is
either the dependent store, of that same name and only for a non-empty store
class, or the component's service, whose environment is that of the `switch`
followed, for a non-empty store class only, by DATABOX_ZMQ_ENDPOINT (port
5555) and DATABOX_ZMQ_DEALER_ENDPOINT (port 5556) on that same name. -/
theorem dependentStore_name (deps : Deps) (cm : ContainerManager) (sla : SLA) (save : Bool)
    (w : World)
    (hds : sla.DataboxType = "app" → ∀ ds ∈ sla.Datasources,
      (deps.urlParse ds.Hypercat.Href).isSome = true)
    (hurls : sla.DataboxType = "driver" → ∀ whiteList ∈ sla.ExternalWhitelist,
      ∀ u ∈ whiteList.Urls, (deps.urlParse u).isSome = true) :
    issued (addPermissionsFromSLA deps sla) w =
        issued (addPermissionsFromSLA deps { sla with ResourceRequirements := { Store := "" } }) w
        ++ (if sla.ResourceRequirements.Store = "" then []
            else
              [Grant "container-manager" (sla.Name ++ "-" ++ sla.ResourceRequirements.Store) "/cat" "GET" "",
               Grant sla.Name (sla.Name ++ "-" ++ sla.ResourceRequirements.Store) "/*" "POST" "",
               Grant sla.Name (sla.Name ++ "-" ++ sla.ResourceRequirements.Store) "/*" "DELETE" "",
               Grant sla.Name (sla.Name ++ "-" ++ sla.ResourceRequirements.Store) "/*" "GET" ""])
    ∧ ∀ spec, Call.ServiceCreate spec ∈ issued (LaunchFromSLA deps cm sla save) w →
        (sla.ResourceRequirements.Store ≠ "" ∧
          spec.Name = sla.Name ++ "-" ++ sla.ResourceRequirements.Store)
        ∨ ∃ netConf cfg nets, (PreConfig deps sla.Name sla w).value = some netConf ∧
            LaunchFromSLA.config deps cm sla sla.Name netConf = some (some (cfg, nets)) ∧
            spec.TaskTemplate.ContainerSpec.Env = cfg.TaskTemplate.ContainerSpec.Env ++
              (if sla.ResourceRequirements.Store = "" then []
               else
                ["DATABOX_ZMQ_ENDPOINT=tcp://"
                    ++ (sla.Name ++ "-" ++ sla.ResourceRequirements.Store) ++ ":5555",
                 "DATABOX_ZMQ_DEALER_ENDPOINT=tcp://"
                    ++ (sla.Name ++ "-" ++ sla.ResourceRequirements.Store) ++ ":5556"]) := by
  constructor
  · obtain ⟨TX, hX⟩ := emits_externalWhitelist_ok deps sla hurls
    obtain ⟨TD, hD⟩ := emits_datasources_ok deps sla hds
    have h1 := emits_issued (emits_addPermissionsFromSLA deps sla hX hD) w
    have hX0 : Emits (addPermissionsFromSLA.externalWhitelist deps
        { sla with ResourceRequirements := { Store := "" } }) TX false := hX
    have hD0 : Emits (addPermissionsFromSLA.datasources deps
        { sla with ResourceRequirements := { Store := "" } }) TD false := hD
    have h0 := emits_issued (emits_addPermissionsFromSLA deps _ hX0 hD0) w
    rw [h1, h0]
    simp [exportGrants, storeGrants, List.append_assoc]
  · intro spec hspec
    have hk := steps_prepare deps cm sla w
    have hstore : ∀ T : List Call, (∀ c ∈ T, LaunchFromSLA.preparing sla c) →
        Call.ServiceCreate spec ∈ T →
        sla.ResourceRequirements.Store ≠ "" ∧
          spec.Name = sla.Name ++ "-" ++ sla.ResourceRequirements.Store :=
      fun T hq hs => (hq _ hs).2 spec rfl
    cases hp : LaunchFromSLA.prepare deps cm sla w with
    | panic w1 =>
      rw [hp] at hk
      obtain ⟨_, _, _, T, hlog, hq, _⟩ := hk
      have hr := LaunchFromSLA_of_panic deps cm sla save w w1 hp
      have hiss : issued (LaunchFromSLA deps cm sla save) w = T :=
        issued_of_log (by rw [hr]; exact hlog)
      rw [hiss] at hspec
      exact Or.inl (hstore T hq hspec)
    | ok prepared w1 =>
      rw [hp] at hk
      obtain ⟨_, _, _, T, hlog, hq, _⟩ := hk
      simp only [Res.world] at hlog
      cases prepared with
      | error e =>
        have hr := LaunchFromSLA_of_error deps cm sla save w w1 e hp
        have hiss : issued (LaunchFromSLA deps cm sla save) w = T :=
          issued_of_log (by rw [hr]; exact hlog)
        rw [hiss] at hspec
        exact Or.inl (hstore T hq hspec)
      | ok service =>
        cases he : cli.ServiceCreate.error w1 service with
        | some e =>
          have hr := LaunchFromSLA_of_create_error deps cm sla save w w1 service e hp he
          have hiss : issued (LaunchFromSLA deps cm sla save) w = T ++ [Call.ServiceCreate service] :=
            issued_of_log (by rw [hr]; simp [Res.world, hlog])
          rw [hiss] at hspec
          rcases List.mem_append.mp hspec with h | h
          · exact Or.inl (hstore T hq h)
          · simp at h
            subst h
            exact Or.inr (prepare_service deps cm sla w w1 spec hp)
        | none =>
          obtain ⟨w3, hr, _, h3log, _⟩ :=
            LaunchFromSLA_of_created deps cm sla save w w1 service hp he
          have hiss : issued (LaunchFromSLA deps cm sla save) w =
              T ++ ([Call.ServiceCreate service] ++ if save = true then [Call.SaveSLA sla] else []) :=
            issued_of_log (by rw [hr]; simp only [Res.world]; rw [h3log, hlog, List.append_assoc])
          rw [hiss] at hspec
          rcases List.mem_append.mp hspec with h | h
          · exact Or.inl (hstore T hq h)
          · rcases List.mem_append.mp h with h | h
            · simp at h
              subst h
              exact Or.inr (prepare_service deps cm sla w w1 spec hp)
            · cases save <;> simp at h

/-- C1 on the sample app: the actuator, although flagged as a function too,
gets the four grants on "/kv/light". -/
theorem addPermissionsFromSLA_actuator_witness :
    issued (addPermissionsFromSLA sampleDeps sampleApp) {} =
      issued (addPermissionsFromSLA sampleDeps
        { sampleApp with Datasources := [sampleSensor], ResourceRequirements := { Store := "" } }) {}
      ++ [Grant "weather" "driver-hue-core-store" "/kv/light/*" "POST" "",
          Grant "weather" "driver-hue-core-store" "/kv/light" "POST" "",
          Grant "weather" "driver-hue-core-store" "/kv/light" "GET" "",
          Grant "weather" "driver-hue-core-store" "/kv/light/*" "GET" ""]
      ++ issued (addPermissionsFromSLA sampleDeps
        { sampleApp with ExportWhitelists := [], Datasources := [sampleFunction] }) {} :=
  addPermissionsFromSLA_actuator sampleDeps sampleApp [sampleSensor] [sampleFunction] sampleActuator
    ⟨"driver-hue-core-store", "/kv/light"⟩ {} (by decide) (by decide) (by decide) (by decide) (by decide)

/-- C2 on the sample app (scenario A): the sensor gets GET on "/kv/w" and "/kv/w/*". -/
theorem addPermissionsFromSLA_sensor_witness :
    issued (addPermissionsFromSLA sampleDeps sampleApp) {} =
      issued (addPermissionsFromSLA sampleDeps
        { sampleApp with Datasources := [], ResourceRequirements := { Store := "" } }) {}
      ++ [Grant "weather" "driver-phone-core-store" "/kv/w" "GET" "",
          Grant "weather" "driver-phone-core-store" "/kv/w/*" "GET" ""]
      ++ issued (addPermissionsFromSLA sampleDeps
        { sampleApp with ExportWhitelists := [], Datasources := [sampleActuator, sampleFunction] }) {} :=
  addPermissionsFromSLA_sensor sampleDeps sampleApp [] [sampleActuator, sampleFunction] sampleSensor
    ⟨"driver-phone-core-store", "/kv/w"⟩ {} (by decide) (by decide) (by decide) (by decide)
    (by decide) (by decide)

/-- C3 on the sample app: the function gets its two notification grants. -/
theorem addPermissionsFromSLA_function_witness :
    issued (addPermissionsFromSLA sampleDeps sampleApp) {} =
      issued (addPermissionsFromSLA sampleDeps
        { sampleApp with Datasources := [sampleSensor, sampleActuator],
                         ResourceRequirements := { Store := "" } }) {}
      ++ [Grant "weather" "container-manager-core-store" "/notification/request/ServiceStatus/*" "POST" "",
          Grant "weather" "container-manager-core-store" "/notification/response/ServiceStatus/*" "GET" ""]
      ++ issued (addPermissionsFromSLA sampleDeps
        { sampleApp with ExportWhitelists := [], Datasources := [] }) {} :=
  addPermissionsFromSLA_function sampleDeps sampleApp [sampleSensor, sampleActuator] [] sampleFunction
    ⟨"container-manager-core-store", "/"⟩ {} (by decide) (by decide) (by decide) (by decide)
    (by decide) (by decide)

/-- C6 on the sample driver (scenario B) and the sample app. -/
theorem addPermissionsFromSLA_external_witness :
    issued (addPermissionsFromSLA sampleDeps sampleDriver) {} =
      [Call.Post "https://databox-network:8080/connect"
        (PostData.connect "driver-twitter" ["api.twitter.com"])]
    ∧ ∀ c ∈ issued (addPermissionsFromSLA sampleDeps sampleApp) {}, c.isPost = false := by
  have h := addPermissionsFromSLA_external sampleDeps sampleDriver sampleApp {} (by decide)
    (by decide) (by decide)
  refine ⟨h.1.trans (by decide), h.2⟩

/-- C5 on the sample app, whose store is "weather-core-store". -/
theorem dependentStore_name_witness :
    issued (addPermissionsFromSLA sampleDeps sampleApp) sampleWorld =
      issued (addPermissionsFromSLA sampleDeps
        { sampleApp with ResourceRequirements := { Store := "" } }) sampleWorld
      ++ [Grant "container-manager" "weather-core-store" "/cat" "GET" "",
          Grant "weather" "weather-core-store" "/*" "POST" "",
          Grant "weather" "weather-core-store" "/*" "DELETE" "",
          Grant "weather" "weather-core-store" "/*" "GET" ""] :=
  (dependentStore_name sampleDeps sampleCM sampleApp true sampleWorld (by decide) (by decide)).1

/-- C10 on the sample world (scenario F): no image, nothing in the registry. -/
theorem LaunchFromSLA_image_missing_witness :
    (LaunchFromSLA sampleDeps sampleCM sampleApp true sampleWorld).value =
      some (some "Can't install weather cant find the image databoxsystems/weather:0.5.2")
    ∧ (LaunchFromSLA sampleDeps sampleCM sampleApp true sampleWorld).world.slas = []
    ∧ (LaunchFromSLA sampleDeps sampleCM sampleApp true sampleWorld).world.InstalledComponents = [] :=
  have h := LaunchFromSLA_image_missing sampleDeps sampleCM sampleApp true sampleWorld
    { NetworkName := "weather-network", DNS := "10.0.0.2" }
    ((getAppConfig sampleDeps sampleCM sampleApp "weather"
      { NetworkName := "weather-network", DNS := "10.0.0.2" }).getD ({}, [])).1
    ((getAppConfig sampleDeps sampleCM sampleApp "weather"
      { NetworkName := "weather-network", DNS := "10.0.0.2" }).getD ({}, [])).2
    (by decide) (by decide) (by decide)
  ⟨h.1, h.2.1, h.2.2.1⟩

/-- C9 on the sample app: in a runtime that holds its image the install
succeeds, the name is in the map and the SLA is stored; without the image it
fails and the name is not in the map. -/
theorem LaunchFromSLA_installed_saved_witness :
    (LaunchFromSLA sampleDeps sampleCM sampleApp true sampleWorldWithImage).value = some none
    ∧ IsInstalled (LaunchFromSLA sampleDeps sampleCM sampleApp true sampleWorldWithImage).world
        sampleApp.Name = true
    ∧ (LaunchFromSLA sampleDeps sampleCM sampleApp true sampleWorldWithImage).world.slas
      = [sampleApp]
    ∧ IsInstalled (LaunchFromSLA sampleDeps sampleCM sampleApp true sampleWorld).world
        sampleApp.Name = false := by
  have hv : (LaunchFromSLA sampleDeps sampleCM sampleApp true sampleWorldWithImage).value
      = some none := by decide!
  have hf : (LaunchFromSLA sampleDeps sampleCM sampleApp true sampleWorld).value ≠ some none := by
    decide!
  have h := LaunchFromSLA_installed_saved sampleDeps sampleCM sampleApp true sampleWorldWithImage
  have h' := LaunchFromSLA_installed_saved sampleDeps sampleCM sampleApp true sampleWorld
  refine ⟨hv, ?_, ?_, ?_⟩
  · exact h.2.1.trans (if_pos hv)
  · exact h.2.2.2.1.trans (if_pos ⟨hv, rfl, rfl⟩)
  · exact h'.2.1.trans (if_neg hf)

/-! ## Removal -/

theorem ServiceList_ok (deps : Deps) (name : String) (w : World) :
    cli.ServiceList deps name w = .ok (cli.ServiceList deps name w).value.get! w
      ∧ ∃ l, cli.ServiceList deps name w = .ok l w := by
  unfold cli.ServiceList
  split <;> exact ⟨rfl, _, rfl⟩

theorem Uninstall_of_no_service (deps : Deps) (name : String) (w : World)
    (h : (cli.ServiceList deps name w).value = some []) :
    Uninstall deps name w = .ok (some ("Service " ++ name ++ " not running")) w := by
  obtain ⟨l, hl⟩ := (ServiceList_ok deps name w).2
  rw [hl] at h
  simp only [Res.value, Option.some.injEq] at h
  subst h
  simp [Uninstall, hl]

theorem NetworkInspect_ok (id : String) (w : World) : ∃ n, cli.NetworkInspect id w = .ok n w := by
  unfold cli.NetworkInspect
  split
  · exact ⟨_, rfl⟩
  · split <;> exact ⟨_, rfl⟩

theorem NetworkOfService_loop_ok (serviceName : String) (nets : List NetworkResource)
    (cfg : PostNetworkConfig) (w : World) :
    ∃ r, NetworkOfService.loop serviceName nets cfg w = .ok r w := by
  induction nets generalizing cfg with
  | nil => exact ⟨cfg, rfl⟩
  | cons net rest ih =>
    obtain ⟨n, hn⟩ := NetworkInspect_ok net.ID w
    unfold NetworkOfService.loop
    rw [exec_bind_apply, hn]
    dsimp only
    cases NetworkOfService.endpoint serviceName n.Containers with
    | none => exact ih _
    | some ip => exact ih _

theorem NetworkList_ok (deps : Deps) (name : String) (w : World) :
    ∃ l, cli.NetworkList deps name w = .ok l w := by
  unfold cli.NetworkList
  split <;> exact ⟨_, rfl⟩

theorem NetworkOfService_ok (deps : Deps) (service : Service) (serviceName : String) (w : World) :
    ∃ r, NetworkOfService deps service serviceName w = .ok r w := by
  obtain ⟨l, hl⟩ := NetworkList_ok deps (serviceName ++ "-network") w
  unfold NetworkOfService
  rw [exec_bind_apply, hl]
  cases l with
  | nil => exact ⟨_, rfl⟩
  | cons n ns =>
    obtain ⟨r, hr⟩ := NetworkOfService_loop_ok serviceName (n :: ns)
      { NetworkName := serviceName ++ "-network" } w
    dsimp only
    rw [exec_bind_apply, hr]
    exact ⟨_, rfl⟩

theorem forRange_ok {α : Type} (body : α → Exec Unit) (xs : List α)
    (h : ∀ x w, body x w = .ok () (body x w).world) (w : World) :
    forRange body xs w = .ok () (forRange body xs w).world := by
  induction xs generalizing w with
  | nil => rfl
  | cons x xs ih =>
    unfold forRange
    rw [exec_bind_apply, h x w]
    exact ih _

theorem SecretRemove_ok (id : String) (w : World) :
    ∃ e, cli.SecretRemove id w = .ok e (cli.SecretRemove id w).world := by
  unfold cli.SecretRemove
  dsimp only
  split <;> exact ⟨_, rfl⟩

theorem removeSecrets_ok (serviceList : List Service) (w : World) :
    Uninstall.removeSecrets serviceList w
      = .ok () (Uninstall.removeSecrets serviceList w).world := by
  unfold Uninstall.removeSecrets
  refine forRange_ok _ _ (fun s w1 => forRange_ok _ _ (fun sec w2 => ?_) w1) w
  obtain ⟨e, he⟩ := SecretRemove_ok sec.SecretID w2
  rw [exec_bind_apply, he]
  rfl

theorem steps_removeSecrets (Q : Call → Prop) (serviceList : List Service)
    (hQ : ∀ i, Q (Call.SecretRemove i)) : Steps (Keeps Q) (Uninstall.removeSecrets serviceList) := by
  unfold Uninstall.removeSecrets
  refine steps_forRange Q _ _ (fun s _ => steps_forRange Q _ _ (fun sec _ => ?_))
  exact steps_bind (steps_SecretRemove Q _ (hQ _)) (fun _ => steps_pure Q _)

theorem ServiceRemove_ok (id : String) (w : World) :
    ∃ e w2, cli.ServiceRemove id w = .ok e w2 ∧ e = w.errorOf (Call.ServiceRemove id) ∧
      w2.log = w.log ++ [Call.ServiceRemove id] ∧ w2.slas = w.slas ∧
      w2.InstalledComponents = w.InstalledComponents ∧ w2.errorOf = w.errorOf ∧
      w2.secrets = w.secrets ∧
      w2.services = (if w.errorOf (Call.ServiceRemove id) = none then
        w.services.filter (fun s => s.ID != id) else w.services) := by
  unfold cli.ServiceRemove
  cases h : w.errorOf (Call.ServiceRemove id) with
  | none => exact ⟨_, _, rfl, rfl, rfl, rfl, rfl, rfl, rfl, by simp⟩
  | some e => exact ⟨_, _, rfl, rfl, rfl, rfl, rfl, rfl, rfl, by simp⟩

theorem ServiceListErr_ok (deps : Deps) (name : String) (w : World) :
    ∃ l, cli.ServiceListErr deps name w = .ok (l, w.errorOf (Call.ServiceList name)) w ∧
      (w.errorOf (Call.ServiceList name) = none →
        l = w.services.filter (fun s => deps.serviceNameFilter name s.Spec.Name)) := by
  unfold cli.ServiceListErr
  cases h : w.errorOf (Call.ServiceList name) with
  | none => exact ⟨_, rfl, fun _ => rfl⟩
  | some e => exact ⟨_, rfl, fun h => by cases h⟩

theorem post_ok (fn : String) (data : PostData) (URL : String) (w : World) :
    ∃ e, post fn data URL w = .ok e { w with log := w.log ++ [Call.Post URL data] } := by
  unfold post
  dsimp only
  split
  · exact ⟨_, rfl⟩
  · split <;> exact ⟨_, rfl⟩

theorem DeleteSLA_ok (name : String) (w : World) :
    ∃ e w5, DeleteSLA name w = .ok e w5 ∧ w5.log = w.log ++ [Call.DeleteSLA name] ∧
      w5.InstalledComponents = w.InstalledComponents ∧ w5.secrets = w.secrets ∧
      w5.services = w.services ∧
      w5.slas = (if w.errorOf (Call.DeleteSLA name) = none then
        w.slas.filter (fun s => s.Name != name) else w.slas) := by
  unfold DeleteSLA
  cases h : w.errorOf (Call.DeleteSLA name) with
  | none => exact ⟨_, _, rfl, rfl, rfl, rfl, rfl, by simp⟩
  | some e => exact ⟨_, _, rfl, rfl, rfl, rfl, rfl, by simp⟩

/-- Once a service is listed, `Uninstall` runs to its last statement whatever
fails on the way: the service removal, the secret removals of the services
listed afterwards, the disconnect request and the deletion of the SLA are
issued in this order, and the name leaves the installed map.  The error
returned is the one of the second listing. -/
theorem Uninstall_of_service (deps : Deps) (name : String) (w : World) (first : Service)
    (rest : List Service) (h : (cli.ServiceList deps name w).value = some (first :: rest)) :
    ∃ (ip : String) (T : List Call) (w' : World),
      Uninstall deps name w = .ok (w.errorOf (Call.ServiceList name)) w' ∧
      w'.log = w.log ++ ([Call.ServiceRemove first.ID] ++ T ++
        [Call.Post "https://databox-network:8080/disconnect" (PostData.disconnect name ip),
         Call.DeleteSLA name]) ∧
      (∀ c ∈ T, ∃ i, c = Call.SecretRemove i) ∧
      w'.InstalledComponents = mapDelete w.InstalledComponents name ∧
      w'.slas = (if w.errorOf (Call.DeleteSLA name) = none then
        w.slas.filter (fun s => s.Name != name) else w.slas) := by
  obtain ⟨l, hl⟩ := (ServiceList_ok deps name w).2
  rw [hl] at h
  simp only [Res.value, Option.some.injEq] at h
  subst h
  obtain ⟨nc, hnc⟩ := NetworkOfService_ok deps first first.Spec.Name w
  obtain ⟨e2, w2, h2, -, hlog2, hslas2, hmap2, herr2, -, -⟩ := ServiceRemove_ok first.ID w
  obtain ⟨sl, h3, -⟩ := ServiceListErr_ok deps name w2
  have h4 := removeSecrets_ok sl w2
  have k4 := steps_removeSecrets (fun c => ∃ i, c = Call.SecretRemove i) sl (fun i => ⟨i, rfl⟩) w2
  generalize (Uninstall.removeSecrets sl w2).world = w3 at h4 k4
  obtain ⟨hslas3, hmap3, herr3, T, hlog3, hT, -⟩ := k4
  obtain ⟨e5, h5⟩ := post_ok "DisconnectEndpoints" (PostData.disconnect name nc.1.IPv4Address)
    "https://databox-network:8080/disconnect" w3
  obtain ⟨e6, w6, h6, hlog6, hmap6, -, -, hslas6⟩ := DeleteSLA_ok name
    { w3 with log := w3.log ++ [Call.Post "https://databox-network:8080/disconnect"
      (PostData.disconnect name nc.1.IPv4Address)] }
  refine ⟨nc.1.IPv4Address, T, { w6 with InstalledComponents := mapDelete w6.InstalledComponents name }, ?_, ?_, ?_, ?_, ?_⟩
  · simp [Uninstall, hl, hnc, ChkErr, h2, h3, h4, PostUninstall, DisconnectEndpoints, h5, h6,
      Uninstall.forget, herr2]
  · simp [hlog6, hlog3, hlog2]
  · exact hT
  · simp [hmap6, hmap3, hmap2]
  · simp [hslas6, hslas3, hslas2, herr3, herr2]

/-- C13. When the runtime lists no service for `name`, `Uninstall name` returns
the error "Service name not running" and leaves the world as it found it: it
issues no call at all, so no service or secret is removed, no disconnect is
posted, no SLA is deleted and the installed map is unchanged. -/
theorem Uninstall_not_running (deps : Deps) (name : String) (w : World)
    (h : (cli.ServiceList deps name w).value = some []) :
    Uninstall deps name w = .ok (some ("Service " ++ name ++ " not running")) w
    ∧ issued (Uninstall deps name) w = []
    ∧ (Uninstall deps name w).world.services = w.services
    ∧ (Uninstall deps name w).world.secrets = w.secrets
    ∧ (Uninstall deps name w).world.slas = w.slas
    ∧ (Uninstall deps name w).world.InstalledComponents = w.InstalledComponents := by
  have hr := Uninstall_of_no_service deps name w h
  refine ⟨hr, ?_, ?_, ?_, ?_, ?_⟩
  · exact issued_of_log (by rw [hr]; simp [Res.world])
  all_goals rw [hr]; rfl

/-- C12 fails on the code. The sample driver is installed on a runtime whose
calls all succeed and then uninstalled: `Uninstall` returns no error, the
service, the SLA and the entry of the installed map are gone, but no secret is
removed: `DRIVER-TWITTER.pem` and `DRIVER-TWITTER_KEY` are still held.  The
secret loop runs over the services listed after the service was removed. -/
theorem Uninstall_leaves_secrets :
    IsInstalled sampleWorldDriverInstalled "driver-twitter" = true
    ∧ sampleWorldDriverInstalled.services.map (fun s => s.Spec.Name) = ["driver-twitter"]
    ∧ (sampleWorldDriverInstalled.services.flatMap
        (fun s => s.Spec.TaskTemplate.ContainerSpec.Secrets.map (fun sec => sec.SecretName)))
        = ["DATABOX_ROOT_CA", "ZMQ_PUBLIC_KEY", "DRIVER-TWITTER.pem", "DRIVER-TWITTER_KEY"]
    ∧ (Uninstall sampleDeps "driver-twitter" sampleWorldDriverInstalled).value = some none
    ∧ (Uninstall sampleDeps "driver-twitter" sampleWorldDriverInstalled).world.services = []
    ∧ (Uninstall sampleDeps "driver-twitter" sampleWorldDriverInstalled).world.slas = []
    ∧ IsInstalled (Uninstall sampleDeps "driver-twitter" sampleWorldDriverInstalled).world
        "driver-twitter" = false
    ∧ (Uninstall sampleDeps "driver-twitter" sampleWorldDriverInstalled).world.secrets.map
        (fun s => s.Name) = ["DRIVER-TWITTER.pem", "DRIVER-TWITTER_KEY"]
    ∧ issued (Uninstall sampleDeps "driver-twitter") sampleWorldDriverInstalled =
        [Call.ServiceRemove "iiii",
         Call.Post "https://databox-network:8080/disconnect"
           (PostData.disconnect "driver-twitter" ""),
         Call.DeleteSLA "driver-twitter"] := by
  decide!

/-- C13 on the sample runtime, which runs no service. -/
theorem Uninstall_not_running_witness :
    Uninstall sampleDeps "weather" sampleWorld
      = .ok (some ("Service " ++ "weather" ++ " not running")) sampleWorld
    ∧ issued (Uninstall sampleDeps "weather") sampleWorld = [] :=
  have h := Uninstall_not_running sampleDeps "weather" sampleWorld (by decide)
  ⟨h.1, h.2.1⟩

/-! ## Which failures end an install -/

/-- The four ways `LaunchFromSLA` ends, with the calls it has issued: `T` are
the calls of the preparation. -/
theorem LaunchFromSLA_outcome (deps : Deps) (cm : ContainerManager) (sla : SLA) (save : Bool)
    (w : World) :
    ∃ T, (∀ c ∈ T, LaunchFromSLA.preparing sla c) ∧
      (((LaunchFromSLA.prepare deps cm sla w).value = none ∧
        (LaunchFromSLA deps cm sla save w).value = none ∧
        issued (LaunchFromSLA deps cm sla save) w = T)
      ∨ (∃ e, (LaunchFromSLA.prepare deps cm sla w).value = some (.error e) ∧
        (LaunchFromSLA deps cm sla save w).value = some (some e) ∧
        issued (LaunchFromSLA deps cm sla save) w = T ∧
        (LaunchFromSLA deps cm sla save w).world.slas = w.slas ∧
        (LaunchFromSLA deps cm sla save w).world.InstalledComponents = w.InstalledComponents)
      ∨ (∃ service e, (LaunchFromSLA.prepare deps cm sla w).value = some (.ok service) ∧
        cli.ServiceCreate.error (LaunchFromSLA.prepare deps cm sla w).world service = some e ∧
        (LaunchFromSLA deps cm sla save w).value = some (some e) ∧
        issued (LaunchFromSLA deps cm sla save) w = T ++ [Call.ServiceCreate service] ∧
        (LaunchFromSLA deps cm sla save w).world.slas = w.slas ∧
        (LaunchFromSLA deps cm sla save w).world.InstalledComponents = w.InstalledComponents)
      ∨ (∃ service, (LaunchFromSLA.prepare deps cm sla w).value = some (.ok service) ∧
        cli.ServiceCreate.error (LaunchFromSLA.prepare deps cm sla w).world service = none ∧
        (LaunchFromSLA deps cm sla save w).value = some none ∧
        issued (LaunchFromSLA deps cm sla save) w =
          T ++ ([Call.ServiceCreate service] ++ if save = true then [Call.SaveSLA sla] else []))) := by
  have hk := steps_prepare deps cm sla w
  cases hp : LaunchFromSLA.prepare deps cm sla w with
  | panic w1 =>
    rw [hp] at hk
    obtain ⟨hsl, hmap, herr, T, hlog, hq, _⟩ := hk
    simp only [Res.world] at hsl hmap herr hlog
    have hr := LaunchFromSLA_of_panic deps cm sla save w w1 hp
    refine ⟨T, hq, Or.inl ⟨rfl, by rw [hr]; rfl, issued_of_log (by rw [hr]; exact hlog)⟩⟩
  | ok prepared w1 =>
    rw [hp] at hk
    obtain ⟨hsl, hmap, herr, T, hlog, hq, _⟩ := hk
    simp only [Res.world] at hsl hmap herr hlog
    cases prepared with
    | error e =>
      have hr := LaunchFromSLA_of_error deps cm sla save w w1 e hp
      refine ⟨T, hq, Or.inr (Or.inl ⟨e, rfl, by rw [hr]; rfl,
        issued_of_log (by rw [hr]; exact hlog), by rw [hr]; exact hsl, by rw [hr]; exact hmap⟩)⟩
    | ok service =>
      cases he : cli.ServiceCreate.error w1 service with
      | some e =>
        have hr := LaunchFromSLA_of_create_error deps cm sla save w w1 service e hp he
        refine ⟨T, hq, Or.inr (Or.inr (Or.inl ⟨service, e, rfl, he, by rw [hr]; rfl,
          issued_of_log (by rw [hr]; simp [Res.world, hlog]), by rw [hr]; exact hsl,
          by rw [hr]; exact hmap⟩))⟩
      | none =>
        obtain ⟨w3, hr, h3map, h3log, h3slas⟩ :=
          LaunchFromSLA_of_created deps cm sla save w w1 service hp he
        refine ⟨T, hq, Or.inr (Or.inr (Or.inr ⟨service, rfl, he, by rw [hr]; rfl,
          issued_of_log (by rw [hr]; simp only [Res.world]; rw [h3log, hlog, List.append_assoc])⟩))⟩

/-- The two errors the preparation of an install returns. -/
theorem prepare_error (deps : Deps) (cm : ContainerManager) (sla : SLA) (w w' : World)
    (e : String) (h : LaunchFromSLA.prepare deps cm sla w = .ok (.error e) w') :
    e = "[LaunchFromSLA] Unsupported image type"
    ∨ ∃ image, e = "Can't install " ++ sla.Name ++ " cant find the image " ++ image := by
  unfold LaunchFromSLA.prepare at h
  obtain ⟨netConf, w1, hpre, h⟩ := exec_bind_ok_inv h
  cases hcfg : LaunchFromSLA.config deps cm sla sla.Name netConf with
  | none =>
    simp only [hcfg, exec_pure_apply, Res.ok.injEq, Except.error.injEq] at h
    exact Or.inl h.1.symm
  | some o =>
    cases o with
    | none => simp only [hcfg] at h; cases h
    | some p =>
      obtain ⟨cfg, nets⟩ := p
      simp only [hcfg] at h
      obtain ⟨_, w2, _, h⟩ := exec_bind_ok_inv h
      obtain ⟨found, w3, _, h⟩ := exec_bind_ok_inv h
      cases found with
      | false =>
        simp only [Bool.not_false, if_true, exec_pure_apply, Res.ok.injEq, Except.error.injEq] at h
        exact Or.inr ⟨_, h.1.symm⟩
      | true =>
        simp only [Bool.not_true, Bool.false_eq_true, if_false] at h
        obtain ⟨secrets, w4, _, h⟩ := exec_bind_ok_inv h
        obtain ⟨_, w5, _, h⟩ := exec_bind_ok_inv h
        obtain ⟨_, w6, _, h⟩ := exec_bind_ok_inv h
        obtain ⟨_, w7, _, h⟩ := exec_bind_ok_inv h
        simp [exec_pure_apply] at h

/-- The service a successful preparation hands over bears the name of the SLA. -/
theorem prepare_service_name (deps : Deps) (cm : ContainerManager) (sla : SLA) (w w' : World)
    (service : ServiceSpec) (h : LaunchFromSLA.prepare deps cm sla w = .ok (.ok service) w') :
    service.Name = sla.Name := by
  unfold LaunchFromSLA.prepare at h
  obtain ⟨netConf, w1, hpre, h⟩ := exec_bind_ok_inv h
  cases hcfg : LaunchFromSLA.config deps cm sla sla.Name netConf with
  | none => simp only [hcfg] at h; cases h
  | some o =>
    cases o with
    | none => simp only [hcfg] at h; cases h
    | some p =>
      obtain ⟨cfg, nets⟩ := p
      simp only [hcfg] at h
      have hname : cfg.Name = sla.Name := by
        unfold LaunchFromSLA.config at hcfg
        split at hcfg
        · simp only [Option.some.injEq] at hcfg
          unfold getAppConfig at hcfg
          dsimp only at hcfg
          split at hcfg
          · cases hcfg
          · simp only [Option.some.injEq, Prod.mk.injEq] at hcfg
            rw [← hcfg.1]
        · split at hcfg
          · simp only [Option.some.injEq, getDriverConfig, Prod.mk.injEq] at hcfg
            rw [← hcfg.1]
          · cases hcfg
      obtain ⟨_, w2, _, h⟩ := exec_bind_ok_inv h
      obtain ⟨found, w3, _, h⟩ := exec_bind_ok_inv h
      cases found with
      | false => simp at h
      | true =>
        simp only [Bool.not_true, Bool.false_eq_true, if_false] at h
        obtain ⟨secrets, w4, _, h⟩ := exec_bind_ok_inv h
        obtain ⟨_, w5, _, h⟩ := exec_bind_ok_inv h
        obtain ⟨_, w6, _, h⟩ := exec_bind_ok_inv h
        obtain ⟨_, w7, _, h⟩ := exec_bind_ok_inv h
        simp only [exec_pure_apply, Res.ok.injEq, Except.ok.injEq] at h
        obtain ⟨h, _⟩ := h
        subst h
        by_cases hs : sla.ResourceRequirements.Store = ""
        · simp [hs, hname]
        · simp [hs, hname, store_name_ne_empty]

/-- C11 fails on the code. On the sample runtime that refuses to create the
store `weather-core-store`, the install of the sample app (which requires the
store `core-store`) issues the creation of the store, which fails, then that
of `weather`, which succeeds; it returns no error, only `weather` runs, and
the SLA has been written to the management store. -/
theorem LaunchFromSLA_saved_store_refused :
    sampleApp.ResourceRequirements.Store = "core-store"
    ∧ (issued (LaunchFromSLA sampleDeps sampleCM sampleApp true) sampleWorldStoreRefused).filterMap
        (fun c => (Call.createdName c).map (fun n => (n, sampleWorldStoreRefused.errorOf c)))
        = [("weather-core-store", some "no suitable node"), ("weather", none)]
    ∧ (LaunchFromSLA sampleDeps sampleCM sampleApp true sampleWorldStoreRefused).value = some none
    ∧ (LaunchFromSLA sampleDeps sampleCM sampleApp true sampleWorldStoreRefused).world.services.map
        (fun s => s.Spec.Name) = ["weather"]
    ∧ Call.SaveSLA sampleApp
        ∈ issued (LaunchFromSLA sampleDeps sampleCM sampleApp true) sampleWorldStoreRefused
    ∧ (LaunchFromSLA sampleDeps sampleCM sampleApp true sampleWorldStoreRefused).world.slas
        = [sampleApp] := by
  decide!

/-- C11, amended. For an SLA that requires a dependent store,
`LaunchFromSLA sla true` writes the SLA exactly when the preparation is
through and the runtime accepts the creation of the component's own service,
named `sla.Name`.  The write is then the last call, right after that creation;
every service creation issued before is that of the dependent store
`sla.Name-store`, and its outcome is no condition of the write. -/
theorem LaunchFromSLA_saved_after_own_service (deps : Deps) (cm : ContainerManager) (sla : SLA)
    (w : World) (hstore : sla.ResourceRequirements.Store ≠ "") :
    (∀ s, Call.SaveSLA s ∈ issued (LaunchFromSLA deps cm sla true) w ↔
      s = sla ∧ ∃ service, (LaunchFromSLA.prepare deps cm sla w).value = some (.ok service) ∧
        service.Name = sla.Name ∧
        cli.ServiceCreate.error (LaunchFromSLA.prepare deps cm sla w).world service = none)
    ∧ (∀ s, Call.SaveSLA s ∈ issued (LaunchFromSLA deps cm sla true) w →
        ∃ T service, issued (LaunchFromSLA deps cm sla true) w
            = T ++ [Call.ServiceCreate service, Call.SaveSLA sla] ∧
          service.Name = sla.Name ∧
          ∀ c ∈ T, c.isSaveSLA = false ∧
            ∀ n, c.createdName = some n → n = sla.Name ++ "-" ++ sla.ResourceRequirements.Store) := by
  obtain ⟨T, hT, h⟩ := LaunchFromSLA_outcome deps cm sla true w
  have hnosave : ∀ s, Call.SaveSLA s ∉ T := by
    intro s hs
    have := (hT _ hs).1
    simp [Call.isSaveSLA] at this
  have hTq : ∀ c ∈ T, c.isSaveSLA = false ∧
      ∀ n, c.createdName = some n → n = sla.Name ++ "-" ++ sla.ResourceRequirements.Store := by
    intro c hc
    refine ⟨(hT c hc).1, fun n hn => ?_⟩
    cases c with
    | ServiceCreate service =>
      simp only [Call.createdName, Option.some.injEq] at hn
      subst hn
      exact ((hT _ hc).2 _ rfl).2
    | _ => simp [Call.createdName] at hn
  rcases h with ⟨hv, _, hiss⟩ | ⟨e, hv, _, hiss, _⟩ | ⟨service, e, hv, he, _, hiss, _⟩
    | ⟨service, hv, he, _, hiss⟩
  · rw [hiss, hv]
    refine ⟨fun s => ⟨fun hs => absurd hs (hnosave s), fun h => by simp at h⟩,
      fun s hs => absurd hs (hnosave s)⟩
  · rw [hiss, hv]
    refine ⟨fun s => ⟨fun hs => absurd hs (hnosave s), fun h => by simp at h⟩,
      fun s hs => absurd hs (hnosave s)⟩
  · have hno : ∀ s, Call.SaveSLA s ∉ T ++ [Call.ServiceCreate service] := by
      intro s hs
      rcases List.mem_append.mp hs with h | h
      · exact hnosave s h
      · simp at h
    rw [hiss, hv]
    refine ⟨fun s => ⟨fun hs => absurd hs (hno s), fun h => ?_⟩, fun s hs => absurd hs (hno s)⟩
    obtain ⟨_, service', h1, _, h2⟩ := h
    simp only [Option.some.injEq, Except.ok.injEq] at h1
    subst h1
    rw [he] at h2
    cases h2
  · have hname : service.Name = sla.Name :=
      prepare_service_name deps cm sla w _ service (res_value_eq_some hv)
    simp only [if_true, List.singleton_append] at hiss
    rw [hiss, hv]
    refine ⟨fun s => ⟨fun hs => ?_, fun h => ?_⟩, fun s _ => ⟨T, service, rfl, hname, hTq⟩⟩
    · rcases List.mem_append.mp hs with h | h
      · exact absurd h (hnosave s)
      · simp only [List.mem_cons, Call.SaveSLA.injEq, List.mem_singleton, reduceCtorEq,
          false_or, List.not_mem_nil, or_false] at h
        exact ⟨h, service, rfl, hname, he⟩
    · rw [h.1]
      simp

/-- C11 on the sample app, where the runtime refuses to create its store: the
SLA is written, last, after the creation of the service `weather`. -/
theorem LaunchFromSLA_saved_after_own_service_witness :
    sampleApp.ResourceRequirements.Store ≠ ""
    ∧ ∃ T service, issued (LaunchFromSLA sampleDeps sampleCM sampleApp true) sampleWorldStoreRefused
          = T ++ [Call.ServiceCreate service, Call.SaveSLA sampleApp] ∧
        service.Name = sampleApp.Name ∧
        ∀ c ∈ T, c.isSaveSLA = false ∧
          ∀ n, c.createdName = some n →
            n = sampleApp.Name ++ "-" ++ sampleApp.ResourceRequirements.Store :=
  ⟨by decide,
    (LaunchFromSLA_saved_after_own_service sampleDeps sampleCM sampleApp sampleWorldStoreRefused
      (by decide)).2 sampleApp (by decide!)⟩

/-! ## Restart -/

theorem ContainerList_ok (deps : Deps) (f : ContainerFilter) (w : World) :
    ∃ l, cli.ContainerList deps f w = .ok l w ∧
      ∀ c ∈ l, c.ID ∉ w.removed ∧ c ∈ w.containersAt w.now := by
  unfold cli.ContainerList
  split
  · exact ⟨_, rfl, by simp⟩
  · refine ⟨_, rfl, fun c hc => ?_⟩
    simp only [List.mem_filter, Bool.and_eq_true, Bool.not_eq_true', List.contains_eq_any_beq,
      List.any_eq_false, beq_iff_eq] at hc
    exact ⟨fun hmem => hc.2.2 c.ID hmem rfl, hc.1⟩

theorem ContainerRemove_ok (id : String) (w : World) :
    ∃ w2, cli.ContainerRemove id w = .ok (w.errorOf (Call.ContainerRemove id true)) w2 ∧
      w2.log = w.log ++ [Call.ContainerRemove id true] ∧ w2.errorOf = w.errorOf ∧
      w2.containersAt = w.containersAt ∧
      (w.errorOf (Call.ContainerRemove id true) = none → id ∈ w2.removed) := by
  unfold cli.ContainerRemove
  cases h : w.errorOf (Call.ContainerRemove id true) with
  | none => exact ⟨_, rfl, rfl, rfl, rfl, fun _ => by simp⟩
  | some e => exact ⟨_, rfl, rfl, rfl, rfl, fun h => by cases h⟩

/-- The polling loop returns (it never panics), it issues no call, it leaves
the removed containers and the oracle as they are, and the container it
returns is not a removed one. -/
theorem WaitForService_loop_ok (deps : Deps) (name : String) (timeout : Int) (fuel : Nat)
    (loopCount : Int) (w : World) :
    ∃ r w', WaitForService.loop deps name timeout fuel loopCount w = .ok r w' ∧
      w'.log = w.log ∧ w'.errorOf = w.errorOf ∧ w'.removed = w.removed ∧
      ∀ c, r = .ok c → c.ID ∉ w.removed ∧ ∃ t, c ∈ w.containersAt t := by
  induction fuel generalizing loopCount w with
  | zero => exact ⟨_, _, rfl, rfl, rfl, rfl, fun c h => by cases h⟩
  | succ n ih =>
    obtain ⟨l, hl, hrem⟩ := ContainerList_ok deps
      (ContainerFilter.label "com.docker.swarm.service.name" name) w
    unfold WaitForService.loop
    rw [exec_bind_apply, hl]
    cases l with
    | cons c rest =>
      refine ⟨_, _, rfl, rfl, rfl, rfl, fun c' h => ?_⟩
      simp only [Except.ok.injEq] at h
      subst h
      exact ⟨(hrem c (by simp)).1, _, (hrem c (by simp)).2⟩
    | nil =>
      dsimp only
      rw [exec_bind_apply]
      simp only [Sleep]
      split
      · exact ⟨_, _, rfl, rfl, rfl, rfl, fun c h => by cases h⟩
      · obtain ⟨r, w', h, h1, h2, h3, h4⟩ := ih (loopCount + 1) { w with now := w.now + 1 }
        exact ⟨r, w', h, h1, h2, h3, h4⟩

theorem WaitForService_ok (deps : Deps) (name : String) (timeout : Int) (w : World) :
    ∃ r w', WaitForService deps name timeout w = .ok r w' ∧
      w'.log = w.log ∧ w'.errorOf = w.errorOf ∧ w'.removed = w.removed ∧
      ∀ c, r = .ok c → c.ID ∉ w.removed ∧ ∃ t, c ∈ w.containersAt t :=
  WaitForService_loop_ok deps name timeout _ _ w

/-- The six ways `Restart` ends, with the calls it has issued. -/
theorem Restart_outcome (deps : Deps) (cm : ContainerManager) (name : String) (w : World) :
    ((cli.ContainerList deps (ContainerFilter.label "com.docker.swarm.service.name" name) w).value
        = some [] ∧
      Restart deps cm name w = .ok (some ("Service " ++ name ++ " not running")) w)
    ∨ ∃ first rest,
      (cli.ContainerList deps (ContainerFilter.label "com.docker.swarm.service.name" name) w).value
        = some (first :: rest) ∧ first ∈ w.containersAt w.now ∧
      ((Restart.ip cm name first.Networks "" = none ∧ Restart deps cm name w = .panic w)
      ∨ ∃ oldIP, Restart.ip cm name first.Networks "" = some oldIP ∧
        ((∃ e, w.errorOf (Call.ContainerRemove first.ID true) = some e ∧
          (Restart deps cm name w).value = some (some ("Cannot remove " ++ name ++ " " ++ e)) ∧
          issued (Restart deps cm name) w = [Call.ContainerRemove first.ID true])
        ∨ (w.errorOf (Call.ContainerRemove first.ID true) = none ∧
          ((∃ e, (WaitForService deps name 20 (cli.ContainerRemove first.ID w).world).value
              = some (.error e) ∧
            (Restart deps cm name w).value = some (some e) ∧
            issued (Restart deps cm name) w = [Call.ContainerRemove first.ID true])
          ∨ ∃ newCont, (WaitForService deps name 20 (cli.ContainerRemove first.ID w).world).value
              = some (.ok newCont) ∧ newCont.ID ≠ first.ID ∧ (∃ t, newCont ∈ w.containersAt t) ∧
            ((Restart.ip cm name newCont.Networks "" = none ∧
              (Restart deps cm name w).value = none ∧
              issued (Restart deps cm name) w = [Call.ContainerRemove first.ID true])
            ∨ ∃ newIP, Restart.ip cm name newCont.Networks "" = some newIP ∧
              (Restart deps cm name w).value = some (w.errorOf
                (Call.Post "https://databox-network:8080/restart"
                  (PostData.restart name oldIP newIP))) ∧
              issued (Restart deps cm name) w = [Call.ContainerRemove first.ID true,
                Call.Post "https://databox-network:8080/restart"
                  (PostData.restart name oldIP newIP)]))))) := by
  obtain ⟨l, hl, hmem⟩ := ContainerList_ok deps
    (ContainerFilter.label "com.docker.swarm.service.name" name) w
  cases l with
  | nil => exact Or.inl ⟨by rw [hl]; rfl, by simp [Restart, hl]⟩
  | cons first rest =>
    refine Or.inr ⟨first, rest, by rw [hl]; rfl, (hmem first (by simp)).2, ?_⟩
    cases hip : Restart.ip cm name first.Networks "" with
    | none => exact Or.inl ⟨rfl, by simp [Restart, hl, hip, Exec.panic]⟩
    | some oldIP =>
      refine Or.inr ⟨oldIP, rfl, ?_⟩
      obtain ⟨w2, h2, hlog2, herr2, hcont2, hrem2⟩ := ContainerRemove_ok first.ID w
      have hw2 : (cli.ContainerRemove first.ID w).world = w2 := by rw [h2]; rfl
      rw [hw2]
      cases he : w.errorOf (Call.ContainerRemove first.ID true) with
      | some e =>
        rw [he] at h2
        have hr : Restart deps cm name w = .ok (some ("Cannot remove " ++ name ++ " " ++ e)) w2 := by
          simp [Restart, hl, hip, h2]
        exact Or.inl ⟨e, rfl, by rw [hr]; rfl, issued_of_log (by rw [hr]; exact hlog2)⟩
      | none =>
        rw [he] at h2
        refine Or.inr ⟨rfl, ?_⟩
        obtain ⟨r, w3, h3, hlog3, herr3, _, hnew⟩ := WaitForService_ok deps name 20 w2
        cases r with
        | error e =>
          have hr : Restart deps cm name w = .ok (some e) w3 := by
            simp [Restart, hl, hip, h2, h3]
          exact Or.inl ⟨e, by rw [h3]; rfl, by rw [hr]; rfl,
            issued_of_log (by rw [hr]; simp [Res.world, hlog3, hlog2])⟩
        | ok newCont =>
          have hne : newCont.ID ≠ first.ID := by
            intro heq
            exact (hnew newCont rfl).1 (heq ▸ hrem2 he)
          refine Or.inr ⟨newCont, by rw [h3]; rfl, hne, hcont2 ▸ (hnew newCont rfl).2, ?_⟩
          cases hip2 : Restart.ip cm name newCont.Networks "" with
          | none =>
            have hr : Restart deps cm name w = .panic w3 := by
              simp [Restart, hl, hip, h2, h3, hip2, Exec.panic]
            exact Or.inl ⟨rfl, by rw [hr]; rfl,
              issued_of_log (by rw [hr]; simp [Res.world, hlog3, hlog2])⟩
          | some newIP =>
            refine Or.inr ⟨newIP, rfl, ?_⟩
            have hr : Restart deps cm name w = post "ServiceRestart"
                (PostData.restart name oldIP newIP) "https://databox-network:8080/restart" w3 := by
              simp [Restart, hl, hip, h2, h3, hip2, ServiceRestart]
            have herr : w3.errorOf = w.errorOf := herr3.trans herr2
            rw [hr]
            constructor
            · unfold post
              dsimp only
              rw [herr]
              cases w.errorOf (Call.Post "https://databox-network:8080/restart"
                (PostData.restart name oldIP newIP)) with
              | some e => rfl
              | none => dsimp only; split <;> rfl
            · apply issued_of_log
              obtain ⟨e, hp⟩ := post_ok "ServiceRestart" (PostData.restart name oldIP newIP)
                "https://databox-network:8080/restart" w3
              rw [hr, hp]
              simp [Res.world, hlog3, hlog2]

/-- C17. In a runtime whose containers have an address configuration on every
network `Restart` reads, `Restart name` ends in one of four ways.  No
container listed: it returns "Service name not running" and the world is as
before.  Otherwise the first container listed is force-removed, and that is
the only call if the removal fails ("Cannot remove name ...") or if no
replacement is seen within the wait of 20 (the error of the wait is
returned).  If a replacement is seen, it is another container, and the one
call that follows the removal is the request `/restart` with
`(name, oldIP, newIP)`, the addresses read on the container found and on the
replacement. -/
theorem Restart_notifies_once (deps : Deps) (cm : ContainerManager) (name : String) (w : World)
    (hip : ∀ t, ∀ c ∈ w.containersAt t, (Restart.ip cm name c.Networks "").isSome = true) :
    ((cli.ContainerList deps (ContainerFilter.label "com.docker.swarm.service.name" name) w).value
        = some [] →
      Restart deps cm name w = .ok (some ("Service " ++ name ++ " not running")) w
      ∧ issued (Restart deps cm name) w = [])
    ∧ (∀ first rest,
      (cli.ContainerList deps (ContainerFilter.label "com.docker.swarm.service.name" name) w).value
        = some (first :: rest) →
      ∃ oldIP, Restart.ip cm name first.Networks "" = some oldIP ∧
        (∀ e, w.errorOf (Call.ContainerRemove first.ID true) = some e →
          (Restart deps cm name w).value = some (some ("Cannot remove " ++ name ++ " " ++ e)) ∧
          issued (Restart deps cm name) w = [Call.ContainerRemove first.ID true]) ∧
        (w.errorOf (Call.ContainerRemove first.ID true) = none →
          (∃ r, (WaitForService deps name 20 (cli.ContainerRemove first.ID w).world).value = some r) ∧
          (∀ e, (WaitForService deps name 20 (cli.ContainerRemove first.ID w).world).value
              = some (.error e) →
            (Restart deps cm name w).value = some (some e) ∧
            issued (Restart deps cm name) w = [Call.ContainerRemove first.ID true]) ∧
          (∀ newCont, (WaitForService deps name 20 (cli.ContainerRemove first.ID w).world).value
              = some (.ok newCont) →
            newCont.ID ≠ first.ID ∧
            ∃ newIP, Restart.ip cm name newCont.Networks "" = some newIP ∧
              (Restart deps cm name w).value ≠ none ∧
              issued (Restart deps cm name) w = [Call.ContainerRemove first.ID true,
                Call.Post "https://databox-network:8080/restart"
                  (PostData.restart name oldIP newIP)]))) := by
  rcases Restart_outcome deps cm name w with ⟨hl, hr⟩ | ⟨first, rest, hl, hmem, h⟩
  · refine ⟨fun _ => ⟨hr, issued_of_log (by rw [hr]; simp [Res.world])⟩, fun f r hfr => ?_⟩
    rw [hl] at hfr
    cases hfr
  · refine ⟨fun hnil => (by rw [hl] at hnil; cases hnil), fun f r hfr => ?_⟩
    rw [hl] at hfr
    simp only [Option.some.injEq, List.cons.injEq] at hfr
    obtain ⟨hf, _⟩ := hfr
    subst hf
    rcases h with ⟨hnone, _⟩ | ⟨oldIP, hold, h⟩
    · have := hip _ _ hmem
      rw [hnone] at this
      cases this
    · refine ⟨oldIP, hold, ?_⟩
      rcases h with ⟨e, he, hv, hiss⟩ | ⟨he, h⟩
      · refine ⟨fun e' he' => ?_, fun hn => by rw [he] at hn; cases hn⟩
        rw [he] at he'
        cases he'
        exact ⟨hv, hiss⟩
      · refine ⟨fun e' he' => (by rw [he] at he'; cases he'), fun _ => ?_⟩
        rcases h with ⟨e, hwait, hv, hiss⟩ | ⟨newCont, hwait, hne, ⟨t, hnew⟩, h⟩
        · refine ⟨⟨_, hwait⟩, fun e' he' => ?_, fun c hc => by rw [hwait] at hc; cases hc⟩
          rw [hwait] at he'
          cases he'
          exact ⟨hv, hiss⟩
        · refine ⟨⟨_, hwait⟩, fun e' he' => (by rw [hwait] at he'; cases he'), fun c hc => ?_⟩
          rw [hwait] at hc
          cases hc
          rcases h with ⟨hnone, _⟩ | ⟨newIP, hnewip, hv, hiss⟩
          · have := hip _ _ hnew
            rw [hnone] at this
            cases this
          · exact ⟨hne, newIP, hnewip, by rw [hv]; simp, hiss⟩

/-- C17 on the sample runtime that runs `weather`: the container `c1` is
removed, the replacement `c2` is seen, and the daemon is told once, with the
two addresses.  On the runtime that runs no such container nothing is issued. -/
theorem Restart_notifies_once_witness :
    issued (Restart sampleDeps sampleCM "weather") sampleWorldRunning =
      [Call.ContainerRemove "c1" true,
       Call.Post "https://databox-network:8080/restart"
         (PostData.restart "weather" "10.0.1.3" "10.0.1.7")]
    ∧ issued (Restart sampleDeps sampleCM "weather") sampleWorld = [] := by
  have hip : ∀ t, ∀ c ∈ sampleWorldRunning.containersAt t,
      (Restart.ip sampleCM "weather" c.Networks "").isSome = true := by
    intro t c hc
    simp only [sampleWorldRunning, List.mem_append, List.mem_cons, List.mem_singleton,
      List.not_mem_nil, or_false] at hc
    rcases hc with (hc | hc) | hc
    · subst hc; decide
    · subst hc; decide
    · split at hc
      · simp at hc
      · simp only [List.mem_singleton] at hc
        subst hc; decide
  have h := Restart_notifies_once sampleDeps sampleCM "weather" sampleWorldRunning hip
  have h' := Restart_notifies_once sampleDeps sampleCM "weather" sampleWorld
    (fun t c hc => by
      simp only [sampleWorld, List.mem_singleton] at hc
      subst hc; decide)
  obtain ⟨oldIP, hold, -, h2⟩ := h.2 (sampleContainer "c1" "10.0.1.3") [] (by decide)
  obtain ⟨-, -, h3⟩ := h2 (by decide)
  obtain ⟨-, newIP, hnew, -, hiss⟩ := h3 (sampleContainer "c2" "10.0.1.7") (by rfl)
  have ho : oldIP = "10.0.1.3" := by
    have : Restart.ip sampleCM "weather" (sampleContainer "c1" "10.0.1.3").Networks ""
      = some "10.0.1.3" := by decide
    rw [this] at hold
    exact (Option.some.inj hold).symm
  have hn : newIP = "10.0.1.7" := by
    have : Restart.ip sampleCM "weather" (sampleContainer "c2" "10.0.1.7").Networks ""
      = some "10.0.1.7" := by decide
    rw [this] at hnew
    exact (Option.some.inj hnew).symm
  subst ho hn
  exact ⟨hiss, (h'.1 (by decide)).2⟩

/-! ## The base name and the addresses of a restart -/

theorem replaceFirst_unchanged (old new s : List Char) (hne : old ≠ [])
    (h : ¬ old <:+: s) : strings.replaceFirst old new s = s := by
  induction s with
  | nil => simp [strings.replaceFirst, hne]
  | cons c rest ih =>
    unfold strings.replaceFirst
    have h1 : ¬ old <+: c :: rest := fun hp => h hp.isInfix
    have h2 : ¬ old <:+: rest := fun hi => h (hi.trans (List.suffix_cons c rest).isInfix)
    rw [if_neg h1, ih h2]

theorem replaceFirst_first (old new pre post : List Char)
    (h : ∀ k < pre.length, ¬ old <+: (pre ++ old ++ post).drop k) :
    strings.replaceFirst old new (pre ++ old ++ post) = pre ++ new ++ post := by
  induction pre with
  | nil =>
    cases hs : old ++ post with
    | nil =>
      have ho : old = [] := (List.append_eq_nil.mp hs).1
      have hp : post = [] := (List.append_eq_nil.mp hs).2
      simp [strings.replaceFirst, ho, hp]
    | cons c rest =>
      simp only [List.nil_append, hs]
      unfold strings.replaceFirst
      have hpre : old <+: c :: rest := hs ▸ List.prefix_append old post
      rw [if_pos hpre, ← hs, List.drop_left]
  | cons p pre ih =>
    have h0 := h 0 (by simp)
    simp only [List.drop_zero, List.cons_append] at h0
    simp only [List.cons_append]
    unfold strings.replaceFirst
    rw [if_neg h0, ih (fun k hk => by
      have := h (k + 1) (by simpa using hk)
      simpa using this)]

/-- The address loop reads the address of the last attached network whose name
contains the base name, and keeps the initial value if there is none. -/
theorem Restart_ip_last (cm : ContainerManager) (name : String)
    (nets : List (String × EndpointSettings)) (ip0 ip : String)
    (h : Restart.ip cm name nets ip0 = some ip) :
    (ip = ip0 ∧ ∀ p ∈ nets, strings.Contains p.1 (Restart.serviceName cm name) = false)
    ∨ ∃ pre netName endpoint config post, nets = pre ++ (netName, endpoint) :: post ∧
        strings.Contains netName (Restart.serviceName cm name) = true ∧
        endpoint.IPAMConfig = some config ∧ ip = config.IPv4Address ∧
        ∀ p ∈ post, strings.Contains p.1 (Restart.serviceName cm name) = false := by
  induction nets generalizing ip0 with
  | nil =>
    simp only [Restart.ip, Option.some.injEq] at h
    exact Or.inl ⟨h.symm, by simp⟩
  | cons p rest ih =>
    obtain ⟨netName, endpoint⟩ := p
    unfold Restart.ip at h
    dsimp only at h
    by_cases hc : strings.Contains netName (Restart.serviceName cm name) = true
    · rw [if_pos hc] at h
      cases hcfg : endpoint.IPAMConfig with
      | none => rw [hcfg] at h; cases h
      | some config =>
        rw [hcfg] at h
        dsimp only at h
        rcases ih _ h with ⟨hip, hnone⟩ | ⟨pre, n, e, c, post, hn, hcn, hce, hip, hpost⟩
        · exact Or.inr ⟨[], netName, endpoint, config, rest, rfl, hc, hcfg, hip, hnone⟩
        · exact Or.inr ⟨(netName, endpoint) :: pre, n, e, c, post, by rw [hn]; rfl, hcn, hce, hip,
            hpost⟩
    · rw [if_neg hc] at h
      rcases ih _ h with ⟨hip, hnone⟩ | ⟨pre, n, e, c, post, hn, hcn, hce, hip, hpost⟩
      · refine Or.inl ⟨hip, fun q hq => ?_⟩
        rcases List.mem_cons.mp hq with hq | hq
        · subst hq
          simpa using hc
        · exact hnone q hq
      · exact Or.inr ⟨(netName, endpoint) :: pre, n, e, c, post, by rw [hn]; rfl, hcn, hce, hip,
          hpost⟩

/-- C18 fails on the code. With the store suffix `-core-store`, the name
`a-core-store-b` does not end with the suffix, yet its base name is `a-b`;
and `a-core-store-b-core-store`, which ends with it, keeps the trailing
suffix and loses the occurrence in the middle.  The network of the component
`a-core-store-b` contains the name but not that base name, so on the runtime
that runs the service `a-core-store-b` on that network, `Restart` removes the
container and tells the daemon two empty addresses. -/
theorem Restart_serviceName_middle :
    "-" ++ sampleCM.CoreStoreName = "-core-store"
    ∧ ¬ ("-core-store".data <:+ "a-core-store-b".data)
    ∧ Restart.serviceName sampleCM "a-core-store-b" = "a-b"
    ∧ Restart.serviceName sampleCM "a-core-store-b" ≠ "a-core-store-b"
    ∧ "-core-store".data <:+ "a-core-store-b-core-store".data
    ∧ Restart.serviceName sampleCM "a-core-store-b-core-store" = "a-b-core-store"
    ∧ Restart.serviceName sampleCM "a-core-store-b-core-store" ≠ "a-core-store-b"
    ∧ strings.Contains "a-core-store-b-network" "a-core-store-b" = true
    ∧ strings.Contains "a-core-store-b-network"
        (Restart.serviceName sampleCM "a-core-store-b") = false
    ∧ (sampleWorldMiddle.containersAt 0).map (fun k => (k.ID, k.Networks.map Prod.fst)) =
        [("c0", []), ("m1", ["ingress", "a-core-store-b-network"])]
    ∧ issued (Restart sampleDeps sampleCM "a-core-store-b") sampleWorldMiddle =
        [Call.ContainerRemove "m1" true,
         Call.Post "https://databox-network:8080/restart"
           (PostData.restart "a-core-store-b" "" "")] := by
  decide!

/-- What the two address loops of `Restart` compute, for every name.  The base
name is the name with the first occurrence of `-` followed by the store name
removed, wherever it stands, and the name itself when there is no occurrence;
so a trailing suffix is stripped when it is the first occurrence.  The address
read on a container is that of the last attached network, in the order of the
iteration, whose name contains the base name, and the empty string when there
is none; the addresses of a `/restart` request are read this way on the
container found and on its replacement. -/
theorem Restart_serviceName_first_occurrence (deps : Deps) (cm : ContainerManager)
    (name : String) (w : World) :
    (strings.Contains name ("-" ++ cm.CoreStoreName) = false → Restart.serviceName cm name = name)
    ∧ (∀ pre post : String, name = pre ++ ("-" ++ cm.CoreStoreName) ++ post →
        (∀ k < pre.length, ¬ ("-" ++ cm.CoreStoreName).data <+: name.data.drop k) →
        Restart.serviceName cm name = pre ++ post)
    ∧ (∀ nets ip, Restart.ip cm name nets "" = some ip →
        (ip = "" ∧ ∀ p ∈ nets, strings.Contains p.1 (Restart.serviceName cm name) = false)
        ∨ ∃ pre netName endpoint config post, nets = pre ++ (netName, endpoint) :: post ∧
            strings.Contains netName (Restart.serviceName cm name) = true ∧
            endpoint.IPAMConfig = some config ∧ ip = config.IPv4Address ∧
            ∀ p ∈ post, strings.Contains p.1 (Restart.serviceName cm name) = false)
    ∧ (∀ u d, Call.Post u d ∈ issued (Restart deps cm name) w →
        ∃ first newCont oldIP newIP, first ∈ w.containersAt w.now ∧
          (∃ t, newCont ∈ w.containersAt t) ∧
          Restart.ip cm name first.Networks "" = some oldIP ∧
          Restart.ip cm name newCont.Networks "" = some newIP ∧
          d = PostData.restart name oldIP newIP) := by
  have hne : ("-" ++ cm.CoreStoreName).data ≠ [] := by simp [String.data_append]
  refine ⟨fun h => ?_, fun pre post hname hfirst => ?_, fun nets ip h => Restart_ip_last cm name nets "" ip h,
    fun u d hmem => ?_⟩
  · have hni : ¬ ("-" ++ cm.CoreStoreName).data <:+: name.data := by
      intro hi
      rw [← strings_contains_iff, h] at hi
      cases hi
    unfold Restart.serviceName strings.Replace
    rw [replaceFirst_unchanged _ _ _ hne hni]
  · subst hname
    unfold Restart.serviceName strings.Replace
    simp only [String.data_append] at hfirst ⊢
    rw [replaceFirst_first _ _ _ _ (fun k hk => hfirst k (by simpa using hk))]
    apply String.ext
    simp [String.data_append]
  · rcases Restart_outcome deps cm name w with ⟨_, hr⟩ | ⟨first, rest, hl, hfirst, h⟩
    · have : issued (Restart deps cm name) w = [] := issued_of_log (by rw [hr]; simp [Res.world])
      rw [this] at hmem
      cases hmem
    · rcases h with ⟨_, hr⟩ | ⟨oldIP, hold, h⟩
      · have : issued (Restart deps cm name) w = [] := issued_of_log (by rw [hr]; simp [Res.world])
        rw [this] at hmem
        cases hmem
      · rcases h with ⟨e, _, _, hiss⟩ | ⟨_, h⟩
        · rw [hiss] at hmem
          simp at hmem
        · rcases h with ⟨e, _, _, hiss⟩ | ⟨newCont, _, _, hnew, h⟩
          · rw [hiss] at hmem
            simp at hmem
          · rcases h with ⟨_, _, hiss⟩ | ⟨newIP, hnewip, _, hiss⟩
            · rw [hiss] at hmem
              simp at hmem
            · rw [hiss] at hmem
              simp only [List.mem_cons, reduceCtorEq, Call.Post.injEq, false_or, List.mem_singleton,
                List.not_mem_nil, or_false] at hmem
              exact ⟨first, newCont, oldIP, newIP, hfirst, hnew, hold, hnewip, hmem.2⟩

/-- On the store of the sample app and on a container of the app: the
trailing suffix is the first occurrence and is stripped, a name without the
suffix is its own base name, and the address is that of `weather-network`. -/
theorem Restart_serviceName_first_occurrence_witness :
    Restart.serviceName sampleCM "weather-core-store" = "weather" ++ ""
    ∧ Restart.serviceName sampleCM "weather" = "weather"
    ∧ Restart.ip sampleCM "weather-core-store" (sampleContainer "c1" "10.0.1.3").Networks ""
        = some "10.0.1.3" :=
  ⟨(Restart_serviceName_first_occurrence sampleDeps sampleCM "weather-core-store" sampleWorld).2.1
      "weather" "" (by decide) (by decide),
    (Restart_serviceName_first_occurrence sampleDeps sampleCM "weather" sampleWorld).1 (by decide),
    by decide⟩

/-! ## Which failures end an operation -/

theorem mapHas_mapDelete (m : List (String × String)) (key : String) :
    mapHas (mapDelete m key) key = false := by
  simp [mapHas, mapDelete]

/-- C14 fails on the code. On the runtime that refuses to remove a service,
`Uninstall` of the installed sample driver issues the removal, which fails,
and goes on: it removes the secrets of the service still listed, posts the
disconnect and deletes the SLA; it returns no error, the SLA is gone and the
name has left the installed map.  On the runtime where the core-network daemon
is down and the arbiter refuses every grant, the install of the sample app
issues the connect request and the grants, which all fail, creates the store
and the service, and returns no error. -/
theorem Uninstall_goes_on_after_failure :
    sampleWorldRemoveRefused.slas = [sampleDriver]
    ∧ IsInstalled sampleWorldRemoveRefused "driver-twitter" = true
    ∧ issued (Uninstall sampleDeps "driver-twitter") sampleWorldRemoveRefused =
        [Call.ServiceRemove "iiii", Call.SecretRemove "ca", Call.SecretRemove "pub",
         Call.SecretRemove "ii", Call.SecretRemove "iii",
         Call.Post "https://databox-network:8080/disconnect"
           (PostData.disconnect "driver-twitter" ""),
         Call.DeleteSLA "driver-twitter"]
    ∧ sampleWorldRemoveRefused.errorOf (Call.ServiceRemove "iiii") = some "service is in use"
    ∧ (Uninstall sampleDeps "driver-twitter" sampleWorldRemoveRefused).value = some none
    ∧ (Uninstall sampleDeps "driver-twitter" sampleWorldRemoveRefused).world.slas = []
    ∧ IsInstalled (Uninstall sampleDeps "driver-twitter" sampleWorldRemoveRefused).world
        "driver-twitter" = false
    ∧ (issued (LaunchFromSLA sampleDeps sampleCM sampleApp true) sampleWorldDaemonDown).filterMap
        sampleWorldDaemonDown.errorOf =
          "connection refused" :: List.replicate 12 "arbiter unreachable"
    ∧ (issued (LaunchFromSLA sampleDeps sampleCM sampleApp true) sampleWorldDaemonDown).filterMap
        Call.createdName = ["weather-core-store", "weather"]
    ∧ (LaunchFromSLA sampleDeps sampleCM sampleApp true sampleWorldDaemonDown).world.services.map
        (fun s => s.Spec.Name) = ["weather-core-store", "weather"]
    ∧ (LaunchFromSLA sampleDeps sampleCM sampleApp true sampleWorldDaemonDown).value
        = some none := by
  decide!

/-- C14, amended. The operations end early only at the steps whose error they
test.  `LaunchFromSLA` returns an error only for an unsupported type, for a
missing image, or when the runtime refuses the creation of the component's own
service; nothing is saved then and the installed map is unchanged.
`Uninstall` ends early only when no service is listed, and the world is
unchanged then; once a service is listed it issues the removal of the service,
secret removals, the disconnect request and the deletion of the SLA, and the
name leaves the installed map, whatever fails on the way.  `Restart` ends
early when no container is listed (world unchanged), when the removal of the
container fails and when the wait fails: the removal is then the only call. -/
theorem operations_end_early_at_tested_steps (deps : Deps) (cm : ContainerManager) (sla : SLA)
    (save : Bool) (name : String) (w : World) :
    (∀ e, (LaunchFromSLA deps cm sla save w).value = some (some e) →
      (e = "[LaunchFromSLA] Unsupported image type"
        ∨ (∃ image, e = "Can't install " ++ sla.Name ++ " cant find the image " ++ image)
        ∨ ∃ service, (LaunchFromSLA.prepare deps cm sla w).value = some (.ok service) ∧
            cli.ServiceCreate.error (LaunchFromSLA.prepare deps cm sla w).world service = some e)
      ∧ (∀ s, Call.SaveSLA s ∉ issued (LaunchFromSLA deps cm sla save) w)
      ∧ (LaunchFromSLA deps cm sla save w).world.slas = w.slas
      ∧ (LaunchFromSLA deps cm sla save w).world.InstalledComponents = w.InstalledComponents)
    ∧ ((cli.ServiceList deps name w).value = some [] →
      Uninstall deps name w = .ok (some ("Service " ++ name ++ " not running")) w)
    ∧ (∀ first rest, (cli.ServiceList deps name w).value = some (first :: rest) →
      ∃ ip T, issued (Uninstall deps name) w = [Call.ServiceRemove first.ID] ++ T ++
          [Call.Post "https://databox-network:8080/disconnect" (PostData.disconnect name ip),
           Call.DeleteSLA name] ∧
        (∀ c ∈ T, ∃ i, c = Call.SecretRemove i) ∧
        IsInstalled (Uninstall deps name w).world name = false ∧
        (Uninstall deps name w).world.slas = (if w.errorOf (Call.DeleteSLA name) = none then
          w.slas.filter (fun s => s.Name != name) else w.slas))
    ∧ ((cli.ContainerList deps (ContainerFilter.label "com.docker.swarm.service.name" name) w).value
        = some [] →
      Restart deps cm name w = .ok (some ("Service " ++ name ++ " not running")) w)
    ∧ (∀ first rest oldIP,
      (cli.ContainerList deps (ContainerFilter.label "com.docker.swarm.service.name" name) w).value
        = some (first :: rest) →
      Restart.ip cm name first.Networks "" = some oldIP →
      (∀ e, w.errorOf (Call.ContainerRemove first.ID true) = some e →
        (Restart deps cm name w).value = some (some ("Cannot remove " ++ name ++ " " ++ e)) ∧
        issued (Restart deps cm name) w = [Call.ContainerRemove first.ID true]) ∧
      (∀ e, w.errorOf (Call.ContainerRemove first.ID true) = none →
        (WaitForService deps name 20 (cli.ContainerRemove first.ID w).world).value
          = some (.error e) →
        (Restart deps cm name w).value = some (some e) ∧
        issued (Restart deps cm name) w = [Call.ContainerRemove first.ID true])) := by
  refine ⟨fun e hv => ?_, Uninstall_of_no_service deps name w, fun first rest hl => ?_,
    fun hl => ?_, fun first rest oldIP hl hold => ?_⟩
  · obtain ⟨T, hT, h⟩ := LaunchFromSLA_outcome deps cm sla save w
    have hnosave : ∀ s, Call.SaveSLA s ∉ T := by
      intro s hs
      have := (hT _ hs).1
      simp [Call.isSaveSLA] at this
    rcases h with ⟨_, hv', _⟩ | ⟨e', hp, hv', hiss, hsl, hmap⟩ | ⟨service, e', hp, he, hv', hiss, hsl, hmap⟩
      | ⟨service, _, _, hv', _⟩
    · rw [hv'] at hv
      cases hv
    · rw [hv'] at hv
      simp only [Option.some.injEq] at hv
      subst hv
      refine ⟨?_, fun s => by rw [hiss]; exact hnosave s, hsl, hmap⟩
      rcases prepare_error deps cm sla w _ e' (res_value_eq_some hp) with h | h
      · exact Or.inl h
      · exact Or.inr (Or.inl h)
    · rw [hv'] at hv
      simp only [Option.some.injEq] at hv
      subst hv
      refine ⟨Or.inr (Or.inr ⟨service, hp, he⟩), fun s => ?_, hsl, hmap⟩
      rw [hiss]
      intro hs
      rcases List.mem_append.mp hs with h | h
      · exact hnosave s h
      · simp at h
    · rw [hv'] at hv
      simp at hv
  · obtain ⟨ip, T, w', hr, hlog, hT, hmap, hsl⟩ := Uninstall_of_service deps name w first rest hl
    refine ⟨ip, T, issued_of_log (by rw [hr]; exact hlog), hT, ?_, by rw [hr]; exact hsl⟩
    rw [hr]
    simp only [Res.world, IsInstalled, hmap]
    exact mapHas_mapDelete _ _
  · rcases Restart_outcome deps cm name w with ⟨_, hr⟩ | ⟨first, rest, hl', _⟩
    · exact hr
    · rw [hl] at hl'
      cases hl'
  · rcases Restart_outcome deps cm name w with ⟨hl', _⟩ | ⟨first', rest', hl', _, h⟩
    · rw [hl] at hl'
      cases hl'
    · rw [hl] at hl'
      simp only [Option.some.injEq, List.cons.injEq] at hl'
      obtain ⟨hf, _⟩ := hl'
      subst hf
      rcases h with ⟨hnone, _⟩ | ⟨oldIP', _, h⟩
      · rw [hold] at hnone
        cases hnone
      · rcases h with ⟨e, he, hv, hiss⟩ | ⟨he, h⟩
        · refine ⟨fun e' he' => ?_, fun e' hn => by rw [he] at hn; cases hn⟩
          rw [he] at he'
          cases he'
          exact ⟨hv, hiss⟩
        · refine ⟨fun e' he' => (by rw [he] at he'; cases he'), fun e' _ hw => ?_⟩
          rcases h with ⟨e, hwait, hv, hiss⟩ | ⟨newCont, hwait, _⟩
          · rw [hwait] at hw
            cases hw
            exact ⟨hv, hiss⟩
          · rw [hwait] at hw
            cases hw

/-- C14 on the sample runtimes: with the removal of the service refused,
`Uninstall` of the sample driver still runs to the deletion of the SLA; with
no service listed it ends at once. -/
theorem operations_end_early_at_tested_steps_witness :
    (∃ ip T, issued (Uninstall sampleDeps "driver-twitter") sampleWorldRemoveRefused
        = [Call.ServiceRemove (sampleWorldRemoveRefused.services.headD {}).ID] ++ T ++
          [Call.Post "https://databox-network:8080/disconnect"
            (PostData.disconnect "driver-twitter" ip),
           Call.DeleteSLA "driver-twitter"] ∧
      (∀ c ∈ T, ∃ i, c = Call.SecretRemove i) ∧
      IsInstalled (Uninstall sampleDeps "driver-twitter" sampleWorldRemoveRefused).world
        "driver-twitter" = false ∧
      (Uninstall sampleDeps "driver-twitter" sampleWorldRemoveRefused).world.slas =
        (if sampleWorldRemoveRefused.errorOf (Call.DeleteSLA "driver-twitter") = none then
          sampleWorldRemoveRefused.slas.filter (fun s => s.Name != "driver-twitter")
         else sampleWorldRemoveRefused.slas))
    ∧ Uninstall sampleDeps "weather" sampleWorld
        = .ok (some ("Service " ++ "weather" ++ " not running")) sampleWorld :=
  ⟨(operations_end_early_at_tested_steps sampleDeps sampleCM sampleApp true "driver-twitter"
      sampleWorldRemoveRefused).2.2.1
      (sampleWorldRemoveRefused.services.headD {}) [] (by decide!),
    (operations_end_early_at_tested_steps sampleDeps sampleCM sampleApp true "weather"
      sampleWorld).2.1 (by decide)⟩

/-! ## Crash detector -/

theorem crashDetectore_handle_snd (st : crashDetectore.State) (msg : Message) :
    (crashDetectore.handle st msg).2 =
      (if msg.Typ = "container" ∧ msg.Action = "die" ∧
          mapHas st.restartDetected (mapGet msg.Actor.Attributes "name") = false ∧
          mapHas st.uninstallDetected
            (mapGet msg.Actor.Attributes "com.docker.swarm.service.id") = false ∧
          mapHas msg.Actor.Attributes "databox.type" = true
       then some (mapGet msg.Actor.Attributes "com.docker.swarm.service.name") else none) := by
  unfold crashDetectore.handle crashDetectore.onDie
  by_cases h : msg.Typ = "container" ∧ msg.Action = "die"
  · obtain ⟨ht, ha⟩ := h
    have h1 : crashDetectore.onRemove st msg = st := by
      simp [crashDetectore.onRemove, ht]
    have h2 : crashDetectore.onKill st msg = st := by
      simp [crashDetectore.onKill, ha]
    rw [h1, h2]
    simp only [ht, ha, and_self, if_true, true_and]
    cases hr : mapHas st.restartDetected (mapGet msg.Actor.Attributes "name") <;>
      cases hu : mapHas st.uninstallDetected
        (mapGet msg.Actor.Attributes "com.docker.swarm.service.id") <;>
      cases hd : mapHas msg.Actor.Attributes "databox.type" <;> simp
  · rw [if_neg h, if_neg (fun h' => h ⟨h'.1, h'.2.1⟩)]

theorem crashDetectore_restarts_cons (st : crashDetectore.State) (msg : Message)
    (rest : List Message) :
    crashDetectore.restarts st (msg :: rest) =
      (crashDetectore.handle st msg).2.toList
        ++ crashDetectore.restarts (crashDetectore.handle st msg).1 rest := by
  rw [crashDetectore.restarts]
  cases h : crashDetectore.handle st msg with
  | mk st1 o => cases o <;> simp

theorem crashDetectore_restarts_append (st : crashDetectore.State) (pre post : List Message) :
    crashDetectore.restarts st (pre ++ post) =
      crashDetectore.restarts st pre
        ++ crashDetectore.restarts (crashDetectore.after st pre) post := by
  induction pre generalizing st with
  | nil => rfl
  | cons msg rest ih =>
    rw [List.cons_append, crashDetectore_restarts_cons, crashDetectore_restarts_cons, ih,
      List.append_assoc]
    rfl

theorem crashDetectore_after_append (st : crashDetectore.State) (pre post : List Message) :
    crashDetectore.after st (pre ++ post)
      = crashDetectore.after (crashDetectore.after st pre) post := by
  induction pre generalizing st with
  | nil => rfl
  | cons msg rest ih => exact ih _

/-- The event loop calls `Restart` with the names `crashDetectore.restarts`
lists, in that order, and does nothing else to the world. -/
theorem crashDetectore_calls (deps : Deps) (cm : ContainerManager) (st : crashDetectore.State)
    (msgs : List Message) (w : World) :
    (crashDetectore deps cm st msgs w).world =
      (forRange (fun n => Restart deps cm n >>= fun _ => pure ())
        (crashDetectore.restarts st msgs) w).world := by
  induction msgs generalizing st w with
  | nil => rfl
  | cons msg rest ih =>
    rw [crashDetectore, crashDetectore.restarts]
    cases h : crashDetectore.handle st msg with
    | mk st1 o =>
      cases o with
      | none => exact ih st1 w
      | some name =>
        dsimp only
        rw [forRange, exec_bind_apply, exec_bind_apply, exec_bind_apply]
        cases Restart deps cm name w with
        | ok e w1 => exact ih st1 w1
        | panic w1 => rfl

/-- The names the event loop calls `Restart` with on a run of events: those
for the events before `msg`, then the service-name label of `msg` exactly when
`msg` is a container `die` event that bears a `databox.type` label, whose
container name is not in the map of detected restarts and whose service id is
not in the map of detected uninstalls, as these maps stand when the event
arrives, then those for the events after it. -/
theorem crashDetectore_restarts_die (st : crashDetectore.State) (pre post : List Message)
    (msg : Message) :
    crashDetectore.restarts st (pre ++ msg :: post) =
      crashDetectore.restarts st pre
      ++ (if msg.Typ = "container" ∧ msg.Action = "die" ∧
            mapHas (crashDetectore.after st pre).restartDetected
              (mapGet msg.Actor.Attributes "name") = false ∧
            mapHas (crashDetectore.after st pre).uninstallDetected
              (mapGet msg.Actor.Attributes "com.docker.swarm.service.id") = false ∧
            mapHas msg.Actor.Attributes "databox.type" = true
          then [mapGet msg.Actor.Attributes "com.docker.swarm.service.name"] else [])
      ++ crashDetectore.restarts (crashDetectore.after st (pre ++ [msg])) post := by
  rw [crashDetectore_restarts_append, crashDetectore_restarts_cons, crashDetectore_handle_snd,
    crashDetectore_after_append, List.append_assoc]
  congr 2
  split <;> rfl

/-- The names of the calls of `Restart` after a kill event with signal 9 on
the container `c`, or the removal of the service `sid`, followed by one and by
two die events of `c`: none for the first die event, the service-name label
for the second. -/
theorem crashDetectore_suppression_one_shot (st : crashDetectore.State) (kill remove die : Message)
    (c sid : String)
    (hk : kill.Typ = "container" ∧ kill.Action = "kill" ∧
      mapGet kill.Actor.Attributes "signal" = "9" ∧ mapGet kill.Actor.Attributes "name" = c)
    (hr : remove.Typ = "service" ∧ remove.Action = "remove" ∧ remove.Actor.ID = sid)
    (hd : die.Typ = "container" ∧ die.Action = "die" ∧ mapGet die.Actor.Attributes "name" = c ∧
      mapGet die.Actor.Attributes "com.docker.swarm.service.id" = sid ∧
      mapHas die.Actor.Attributes "databox.type" = true) :
    (crashDetectore.restarts st [kill, die] = []
      ∧ (mapHas st.uninstallDetected sid = false →
        crashDetectore.restarts st [kill, die, die]
          = [mapGet die.Actor.Attributes "com.docker.swarm.service.name"]))
    ∧ (mapHas st.restartDetected c = false →
      crashDetectore.restarts st [remove, die] = []
      ∧ crashDetectore.restarts st [remove, die, die]
          = [mapGet die.Actor.Attributes "com.docker.swarm.service.name"]) := by
  obtain ⟨hk1, hk2, hk3, hk4⟩ := hk
  obtain ⟨hr1, hr2, hr3⟩ := hr
  obtain ⟨hd1, hd2, hd3, hd4, hd5⟩ := hd
  have e1 : crashDetectore.handle st kill =
      ({ st with restartDetected := mapSet st.restartDetected c c }, none) := by
    simp [crashDetectore.handle, crashDetectore.onRemove, crashDetectore.onKill,
      crashDetectore.onDie, hk1, hk2, hk3, hk4]
  have e2 : ∀ st1 : crashDetectore.State, mapHas st1.restartDetected c = true →
      crashDetectore.handle st1 die =
        ({ st1 with restartDetected := mapDelete st1.restartDetected c }, none) := by
    intro st1 h
    simp [crashDetectore.handle, crashDetectore.onRemove, crashDetectore.onKill,
      crashDetectore.onDie, hd1, hd2, hd3, h]
  have e3 : ∀ st1 : crashDetectore.State, mapHas st1.restartDetected c = false →
      mapHas st1.uninstallDetected sid = true →
      crashDetectore.handle st1 die =
        ({ st1 with uninstallDetected := mapDelete st1.uninstallDetected sid }, none) := by
    intro st1 h h'
    simp [crashDetectore.handle, crashDetectore.onRemove, crashDetectore.onKill,
      crashDetectore.onDie, hd1, hd2, hd3, hd4, h, h']
  have e4 : ∀ st1 : crashDetectore.State, mapHas st1.restartDetected c = false →
      mapHas st1.uninstallDetected sid = false →
      crashDetectore.handle st1 die =
        (st1, some (mapGet die.Actor.Attributes "com.docker.swarm.service.name")) := by
    intro st1 h h'
    simp [crashDetectore.handle, crashDetectore.onRemove, crashDetectore.onKill,
      crashDetectore.onDie, hd1, hd2, hd3, hd4, hd5, h, h']
  have e5 : crashDetectore.handle st remove =
      ({ st with uninstallDetected := mapSet st.uninstallDetected sid sid }, none) := by
    simp [crashDetectore.handle, crashDetectore.onRemove, crashDetectore.onKill,
      crashDetectore.onDie, hr1, hr2, hr3]
  have k1 := e2 { st with restartDetected := mapSet st.restartDetected c c }
    (mapHas_mapSet _ _ _)
  refine ⟨⟨?_, fun hu => ?_⟩, fun hc => ⟨?_, ?_⟩⟩
  · simp [crashDetectore_restarts_cons, e1, k1, crashDetectore.restarts]
  · have k2 := e4 { restartDetected := mapDelete (mapSet st.restartDetected c c) c
                    uninstallDetected := st.uninstallDetected } (mapHas_mapDelete _ _) hu
    simp [crashDetectore_restarts_cons, e1, k1, k2, crashDetectore.restarts]
  · have r1 := e3 { st with uninstallDetected := mapSet st.uninstallDetected sid sid } hc
      (mapHas_mapSet _ _ _)
    simp [crashDetectore_restarts_cons, e5, r1, crashDetectore.restarts]
  · have r1 := e3 { st with uninstallDetected := mapSet st.uninstallDetected sid sid } hc
      (mapHas_mapSet _ _ _)
    have r2 := e4 { restartDetected := st.restartDetected
                    uninstallDetected := mapDelete (mapSet st.uninstallDetected sid sid) sid }
      hc (mapHas_mapDelete _ _)
    simp [crashDetectore_restarts_cons, e5, r1, r2, crashDetectore.restarts]

/-- The names of the calls on a kill and two die events of a container of the
sample app. -/
theorem crashDetectore_suppression_one_shot_witness :
    crashDetectore.restarts {}
      [{ Typ := "container", Action := "kill"
         Actor := { ID := "c1", Attributes := [("signal", "9"), ("name", "weather.1.c1")] } },
       { Typ := "container", Action := "die"
         Actor := { ID := "c1", Attributes := [("name", "weather.1.c1"),
           ("com.docker.swarm.service.id", "s1"), ("com.docker.swarm.service.name", "weather"),
           ("databox.type", "app")] } },
       { Typ := "container", Action := "die"
         Actor := { ID := "c1", Attributes := [("name", "weather.1.c1"),
           ("com.docker.swarm.service.id", "s1"), ("com.docker.swarm.service.name", "weather"),
           ("databox.type", "app")] } }]
      = [mapGet [("name", "weather.1.c1"),
           ("com.docker.swarm.service.id", "s1"), ("com.docker.swarm.service.name", "weather"),
           ("databox.type", "app")] "com.docker.swarm.service.name"] :=
  (crashDetectore_suppression_one_shot {}
    { Typ := "container", Action := "kill"
      Actor := { ID := "c1", Attributes := [("signal", "9"), ("name", "weather.1.c1")] } }
    { Typ := "service", Action := "remove", Actor := { ID := "s1" } }
    { Typ := "container", Action := "die"
      Actor := { ID := "c1", Attributes := [("name", "weather.1.c1"),
        ("com.docker.swarm.service.id", "s1"), ("com.docker.swarm.service.name", "weather"),
        ("databox.type", "app")] } }
    "weather.1.c1" "s1" (by decide) (by decide) (by decide)).1.2 (by decide)

theorem crashDetectore_handle_fst (st : crashDetectore.State) (msg : Message) (name : String)
    (h : (crashDetectore.handle st msg).2 = some name) : (crashDetectore.handle st msg).1 = st := by
  unfold crashDetectore.handle crashDetectore.onDie at h ⊢
  by_cases hd : msg.Typ = "container" ∧ msg.Action = "die"
  · obtain ⟨ht, ha⟩ := hd
    have h1 : crashDetectore.onRemove st msg = st := by
      simp [crashDetectore.onRemove, ht]
    have h2 : crashDetectore.onKill st msg = st := by
      simp [crashDetectore.onKill, ha]
    rw [h1, h2] at h ⊢
    simp only [ht, ha, and_self, if_true] at h ⊢
    cases hr : mapHas st.restartDetected (mapGet msg.Actor.Attributes "name") <;>
      cases hu : mapHas st.uninstallDetected
        (mapGet msg.Actor.Attributes "com.docker.swarm.service.id") <;>
      cases hdt : mapHas msg.Actor.Attributes "databox.type" <;> simp [hr, hu, hdt] at h ⊢
  · rw [if_neg hd] at h
    cases h

/-- C15. On any run of events, the event loop handles the events before `msg`,
then calls `Restart` once, with the service-name label of `msg`, exactly when
`msg` is a container `die` event that bears a `databox.type` label, whose
container name is not in the map of detected restarts and whose service id is
not in the map of detected uninstalls, as the loop holds these maps when `msg`
arrives; it then handles the events after `msg`.  For an event of another type
or action, or a `die` event that fails one of the three tests, the loop goes
on to the next event without a call. -/
theorem crashDetectore_die_calls_Restart (deps : Deps) (cm : ContainerManager)
    (st : crashDetectore.State) (pre post : List Message) (msg : Message) :
    crashDetectore deps cm st (pre ++ msg :: post) =
      (crashDetectore deps cm st pre >>= fun st1 =>
        if msg.Typ = "container" ∧ msg.Action = "die" ∧
            mapHas st1.restartDetected (mapGet msg.Actor.Attributes "name") = false ∧
            mapHas st1.uninstallDetected
              (mapGet msg.Actor.Attributes "com.docker.swarm.service.id") = false ∧
            mapHas msg.Actor.Attributes "databox.type" = true
        then
          Restart deps cm (mapGet msg.Actor.Attributes "com.docker.swarm.service.name")
            >>= fun _ => crashDetectore deps cm st1 post
        else crashDetectore deps cm (crashDetectore.handle st1 msg).1 post) := by
  have hcons : ∀ (st : crashDetectore.State) (m : Message) (rest : List Message) (w : World),
      crashDetectore deps cm st (m :: rest) w =
        (match (crashDetectore.handle st m).2 with
         | none => crashDetectore deps cm (crashDetectore.handle st m).1 rest w
         | some name =>
           (Restart deps cm name >>= fun _ =>
             crashDetectore deps cm (crashDetectore.handle st m).1 rest) w) := by
    intro st m rest w
    rw [crashDetectore]
    cases h : crashDetectore.handle st m with
    | mk st1 o => cases o <;> rfl
  have happ : ∀ (pre rest : List Message) (st : crashDetectore.State) (w : World),
      crashDetectore deps cm st (pre ++ rest) w =
        (crashDetectore deps cm st pre >>= fun st1 => crashDetectore deps cm st1 rest) w := by
    intro pre rest
    induction pre with
    | nil =>
      intro st w
      rw [List.nil_append, exec_bind_apply, crashDetectore]
    | cons m tl ih =>
      intro st w
      rw [List.cons_append, hcons, exec_bind_apply, hcons]
      cases (crashDetectore.handle st m).2 with
      | none =>
        dsimp only
        rw [ih, exec_bind_apply]
      | some name =>
        dsimp only
        rw [exec_bind_apply, exec_bind_apply]
        cases Restart deps cm name w with
        | ok e w1 =>
          dsimp only
          rw [ih, exec_bind_apply]
        | panic w1 => rfl
  funext w
  rw [happ, exec_bind_apply, exec_bind_apply]
  cases crashDetectore deps cm st pre w with
  | panic w1 => rfl
  | ok st1 w1 =>
    dsimp only
    rw [hcons]
    have hfst := crashDetectore_handle_fst st1 msg
    rw [crashDetectore_handle_snd] at hfst ⊢
    by_cases hc : msg.Typ = "container" ∧ msg.Action = "die" ∧
        mapHas st1.restartDetected (mapGet msg.Actor.Attributes "name") = false ∧
        mapHas st1.uninstallDetected
          (mapGet msg.Actor.Attributes "com.docker.swarm.service.id") = false ∧
        mapHas msg.Actor.Attributes "databox.type" = true
    · rw [if_pos hc] at hfst
      rw [if_pos hc, if_pos hc, hfst _ rfl]
    · rw [if_neg hc, if_neg hc]

/-- C15 on the sample runtime that runs `weather`: when the container `c1`
dies with no kill or removal seen before, the loop restarts `weather`; the
container is removed and the daemon is told the two addresses, once.  A kill
event with another signal is no `die` event: the loop goes on without a call. -/
theorem crashDetectore_die_calls_Restart_witness :
    (issued (crashDetectore sampleDeps sampleCM {} [sampleDie]) sampleWorldRunning =
        [Call.ContainerRemove "c1" true,
         Call.Post "https://databox-network:8080/restart"
           (PostData.restart "weather" "10.0.1.3" "10.0.1.7")]
      ∧ issued (crashDetectore sampleDeps sampleCM {}
          [{ sampleKill with Actor := { ID := "c1", Attributes := [("signal", "15")] } }])
          sampleWorldRunning = [])
    ∧ issued (crashDetectore sampleDeps sampleCM {} ([] ++ sampleDie :: [])) sampleWorldRunning =
        issued (Restart sampleDeps sampleCM "weather") sampleWorldRunning := by
  refine ⟨by decide!, ?_⟩
  rw [crashDetectore_die_calls_Restart]
  decide!

/-- C16. A kill event with signal 9 on the container `c` followed by a die
event of `c`: the event loop makes no call of `Restart` and leaves the world
as it is, and the entry is used up by that die event, so on a second die
event of `c`, bearing a `databox.type` label and with no removal of its
service recorded, the loop calls `Restart` with the service-name label, once.
Likewise for the removal of the service `sid` followed by die events of a
container of that service whose name is not among the detected restarts. -/
theorem crashDetectore_kill_die_one_shot (deps : Deps) (cm : ContainerManager)
    (st : crashDetectore.State) (kill remove die : Message) (c sid : String)
    (hk : kill.Typ = "container" ∧ kill.Action = "kill" ∧
      mapGet kill.Actor.Attributes "signal" = "9" ∧ mapGet kill.Actor.Attributes "name" = c)
    (hr : remove.Typ = "service" ∧ remove.Action = "remove" ∧ remove.Actor.ID = sid)
    (hd : die.Typ = "container" ∧ die.Action = "die" ∧ mapGet die.Actor.Attributes "name" = c ∧
      mapGet die.Actor.Attributes "com.docker.swarm.service.id" = sid ∧
      mapHas die.Actor.Attributes "databox.type" = true) :
    (crashDetectore deps cm st [kill, die] =
        pure { restartDetected := mapDelete (mapSet st.restartDetected c c) c
               uninstallDetected := st.uninstallDetected }
      ∧ (mapHas st.uninstallDetected sid = false →
        crashDetectore deps cm st [kill, die, die] =
          (Restart deps cm (mapGet die.Actor.Attributes "com.docker.swarm.service.name")
            >>= fun _ =>
              pure { restartDetected := mapDelete (mapSet st.restartDetected c c) c
                     uninstallDetected := st.uninstallDetected })))
    ∧ (mapHas st.restartDetected c = false →
      crashDetectore deps cm st [remove, die] =
        pure { restartDetected := st.restartDetected
               uninstallDetected := mapDelete (mapSet st.uninstallDetected sid sid) sid }
      ∧ crashDetectore deps cm st [remove, die, die] =
          (Restart deps cm (mapGet die.Actor.Attributes "com.docker.swarm.service.name")
            >>= fun _ =>
              pure { restartDetected := st.restartDetected
                     uninstallDetected :=
                       mapDelete (mapSet st.uninstallDetected sid sid) sid })) := by
  obtain ⟨hk1, hk2, hk3, hk4⟩ := hk
  obtain ⟨hr1, hr2, hr3⟩ := hr
  obtain ⟨hd1, hd2, hd3, hd4, hd5⟩ := hd
  have hnone : ∀ (st st1 : crashDetectore.State) (m : Message) (rest : List Message) (w : World),
      crashDetectore.handle st m = (st1, none) →
      crashDetectore deps cm st (m :: rest) w = crashDetectore deps cm st1 rest w := by
    intro st st1 m rest w h
    rw [crashDetectore, h]
  have hsome : ∀ (st st1 : crashDetectore.State) (m : Message) (rest : List Message) (w : World)
      (name : String), crashDetectore.handle st m = (st1, some name) →
      crashDetectore deps cm st (m :: rest) w =
        (Restart deps cm name >>= fun _ => crashDetectore deps cm st1 rest) w := by
    intro st st1 m rest w name h
    rw [crashDetectore, h]
  have hnil : ∀ (st : crashDetectore.State) (w : World),
      crashDetectore deps cm st [] w = .ok st w := by
    intro st w
    rw [crashDetectore]
    rfl
  have e1 : crashDetectore.handle st kill =
      ({ restartDetected := mapSet st.restartDetected c c
         uninstallDetected := st.uninstallDetected }, none) := by
    simp [crashDetectore.handle, crashDetectore.onRemove, crashDetectore.onKill,
      crashDetectore.onDie, hk1, hk2, hk3, hk4]
  have e2 : ∀ st1 : crashDetectore.State, mapHas st1.restartDetected c = true →
      crashDetectore.handle st1 die =
        ({ restartDetected := mapDelete st1.restartDetected c
           uninstallDetected := st1.uninstallDetected }, none) := by
    intro st1 h
    simp [crashDetectore.handle, crashDetectore.onRemove, crashDetectore.onKill,
      crashDetectore.onDie, hd1, hd2, hd3, h]
  have e3 : ∀ st1 : crashDetectore.State, mapHas st1.restartDetected c = false →
      mapHas st1.uninstallDetected sid = true →
      crashDetectore.handle st1 die =
        ({ restartDetected := st1.restartDetected
           uninstallDetected := mapDelete st1.uninstallDetected sid }, none) := by
    intro st1 h h'
    simp [crashDetectore.handle, crashDetectore.onRemove, crashDetectore.onKill,
      crashDetectore.onDie, hd1, hd2, hd3, hd4, h, h']
  have e4 : ∀ st1 : crashDetectore.State, mapHas st1.restartDetected c = false →
      mapHas st1.uninstallDetected sid = false →
      crashDetectore.handle st1 die =
        (st1, some (mapGet die.Actor.Attributes "com.docker.swarm.service.name")) := by
    intro st1 h h'
    simp [crashDetectore.handle, crashDetectore.onRemove, crashDetectore.onKill,
      crashDetectore.onDie, hd1, hd2, hd3, hd4, hd5, h, h']
  have e5 : crashDetectore.handle st remove =
      ({ restartDetected := st.restartDetected
         uninstallDetected := mapSet st.uninstallDetected sid sid }, none) := by
    simp [crashDetectore.handle, crashDetectore.onRemove, crashDetectore.onKill,
      crashDetectore.onDie, hr1, hr2, hr3]
  have k1 := e2 { restartDetected := mapSet st.restartDetected c c
                  uninstallDetected := st.uninstallDetected } (mapHas_mapSet _ _ _)
  refine ⟨⟨?_, fun hu => ?_⟩, fun hc => ⟨?_, ?_⟩⟩
  · funext w
    rw [hnone _ _ _ _ w e1, hnone _ _ _ _ w k1, hnil]
    rfl
  · have k2 := e4 { restartDetected := mapDelete (mapSet st.restartDetected c c) c
                    uninstallDetected := st.uninstallDetected } (mapHas_mapDelete _ _) hu
    funext w
    rw [hnone _ _ _ _ w e1, hnone _ _ _ _ w k1, hsome _ _ _ _ w _ k2, exec_bind_apply,
      exec_bind_apply]
    cases Restart deps cm (mapGet die.Actor.Attributes "com.docker.swarm.service.name") w with
    | ok e w1 =>
      dsimp only
      rw [hnil]
      rfl
    | panic w1 => rfl
  · have r1 := e3 { restartDetected := st.restartDetected
                    uninstallDetected := mapSet st.uninstallDetected sid sid } hc
      (mapHas_mapSet _ _ _)
    funext w
    rw [hnone _ _ _ _ w e5, hnone _ _ _ _ w r1, hnil]
    rfl
  · have r1 := e3 { restartDetected := st.restartDetected
                    uninstallDetected := mapSet st.uninstallDetected sid sid } hc
      (mapHas_mapSet _ _ _)
    have r2 := e4 { restartDetected := st.restartDetected
                    uninstallDetected := mapDelete (mapSet st.uninstallDetected sid sid) sid }
      hc (mapHas_mapDelete _ _)
    funext w
    rw [hnone _ _ _ _ w e5, hnone _ _ _ _ w r1, hsome _ _ _ _ w _ r2, exec_bind_apply,
      exec_bind_apply]
    cases Restart deps cm (mapGet die.Actor.Attributes "com.docker.swarm.service.name") w with
    | ok e w1 =>
      dsimp only
      rw [hnil]
      rfl
    | panic w1 => rfl

/-- C16 on the sample runtime that runs `weather`: after the kill of `c1`
with signal 9, the first die event of `c1` issues nothing, and the second
one restarts `weather`: the container is removed and the daemon is told the
two addresses.  After the removal of the service `s1` the first die event
issues nothing either, and the second one restarts `weather`. -/
theorem crashDetectore_kill_die_one_shot_witness :
    (issued (crashDetectore sampleDeps sampleCM {} [sampleKill, sampleDie]) sampleWorldRunning = []
      ∧ issued (crashDetectore sampleDeps sampleCM {} [sampleKill, sampleDie, sampleDie])
          sampleWorldRunning =
        [Call.ContainerRemove "c1" true,
         Call.Post "https://databox-network:8080/restart"
           (PostData.restart "weather" "10.0.1.3" "10.0.1.7")]
      ∧ issued (crashDetectore sampleDeps sampleCM {} [sampleRemove, sampleDie])
          sampleWorldRunning = []
      ∧ issued (crashDetectore sampleDeps sampleCM {} [sampleRemove, sampleDie, sampleDie])
          sampleWorldRunning =
        [Call.ContainerRemove "c1" true,
         Call.Post "https://databox-network:8080/restart"
           (PostData.restart "weather" "10.0.1.3" "10.0.1.7")])
    ∧ issued (crashDetectore sampleDeps sampleCM {} [sampleKill, sampleDie, sampleDie])
        sampleWorldRunning =
      issued (Restart sampleDeps sampleCM "weather") sampleWorldRunning := by
  refine ⟨by decide!, ?_⟩
  have h := crashDetectore_kill_die_one_shot sampleDeps sampleCM {} sampleKill sampleRemove
    sampleDie "weather.1.c1" "s1" (by decide) (by decide) (by decide)
  rw [h.1.2 (by decide)]
  decide!

/-! ## Waiting for a service -/

theorem ContainerList_of_value (deps : Deps) (f : ContainerFilter) (w : World) (l : List Container)
    (h : (cli.ContainerList deps f w).value = some l) : cli.ContainerList deps f w = .ok l w := by
  obtain ⟨l', hl, _⟩ := ContainerList_ok deps f w
  rw [hl] at h ⊢
  simp only [Res.value, Option.some.injEq] at h
  rw [h]

/-- When no container of the service is ever listed, the polling loop entered
with `loopCount` at `timeout - k` sleeps `k + 1` times one second before it
gives up. -/
theorem WaitForService_loop_timeout (deps : Deps) (name : String) (timeout : Int) (k : Nat) :
    ∀ (fuel : Nat) (loopCount : Int) (w : World),
      (∀ t, (cli.ContainerList deps (ContainerFilter.label "com.docker.swarm.service.name" name)
        { w with now := t }).value = some []) →
      timeout = loopCount + k → k < fuel →
      WaitForService.loop deps name timeout fuel loopCount w =
        .ok (.error ("Service " ++ name ++ " has not restarted after " ++ strconv.Itoa timeout
          ++ " seconds !!")) { w with now := w.now + (k + 1) } := by
  induction k with
  | zero =>
    intro fuel loopCount w hnone ht hf
    obtain ⟨n, rfl⟩ : ∃ n, fuel = n + 1 := ⟨fuel - 1, by omega⟩
    have h0 := ContainerList_of_value _ _ _ _ (hnone w.now)
    unfold WaitForService.loop
    rw [exec_bind_apply]
    erw [h0]
    dsimp only
    rw [exec_bind_apply]
    simp only [Sleep]
    rw [if_pos (by omega)]
    rfl
  | succ k ih =>
    intro fuel loopCount w hnone ht hf
    obtain ⟨n, rfl⟩ : ∃ n, fuel = n + 1 := ⟨fuel - 1, by omega⟩
    have h0 := ContainerList_of_value _ _ _ _ (hnone w.now)
    unfold WaitForService.loop
    rw [exec_bind_apply]
    erw [h0]
    dsimp only
    rw [exec_bind_apply]
    simp only [Sleep]
    rw [if_neg (by push_cast at ht; omega)]
    rw [ih n (loopCount + 1) { w with now := w.now + 1 } hnone (by push_cast at ht; omega)
      (by omega)]
    simp only [Res.ok.injEq, true_and]
    show { w with now := w.now + 1 + (k + 1) } = { w with now := w.now + (k + 1 + 1) }
    rw [Nat.add_assoc, Nat.add_comm 1 (k + 1)]

/-- With a timeout of `T ≥ 0` seconds and no container ever listed,
`WaitForService` returns its timeout error after `T + 1` seconds. -/
theorem WaitForService_timeout (deps : Deps) (name : String) (timeout : Nat) (w : World)
    (hnone : ∀ t, (cli.ContainerList deps
      (ContainerFilter.label "com.docker.swarm.service.name" name) { w with now := t }).value
        = some []) :
    WaitForService deps name timeout w =
      .ok (.error ("Service " ++ name ++ " has not restarted after " ++ strconv.Itoa timeout
        ++ " seconds !!")) { w with now := w.now + (timeout + 1) } :=
  WaitForService_loop_timeout deps name timeout timeout _ 0 w hnone (by simp) (by simp)

/-- More polls than `timeout + 1` are never used: the bound on the number of
polls in `WaitForService.loop` does not cut a run short. -/
theorem WaitForService_loop_fuel (deps : Deps) (name : String) (timeout : Int) (k : Nat) :
    ∀ (fuel : Nat) (loopCount : Int) (w : World), timeout ≤ loopCount + k → k < fuel →
      WaitForService.loop deps name timeout fuel loopCount w
        = WaitForService.loop deps name timeout (k + 1) loopCount w := by
  induction k with
  | zero =>
    intro fuel loopCount w ht hf
    obtain ⟨n, rfl⟩ : ∃ n, fuel = n + 1 := ⟨fuel - 1, by omega⟩
    obtain ⟨l, hl, _⟩ := ContainerList_ok deps
      (ContainerFilter.label "com.docker.swarm.service.name" name) w
    unfold WaitForService.loop
    rw [exec_bind_apply, exec_bind_apply, hl]
    cases l with
    | cons c rest => rfl
    | nil =>
      dsimp only
      rw [exec_bind_apply, exec_bind_apply]
      simp only [Sleep]
      rw [if_pos (by push_cast at ht; omega), if_pos (by push_cast at ht; omega)]
  | succ k ih =>
    intro fuel loopCount w ht hf
    obtain ⟨n, rfl⟩ : ∃ n, fuel = n + 1 := ⟨fuel - 1, by omega⟩
    obtain ⟨l, hl, _⟩ := ContainerList_ok deps
      (ContainerFilter.label "com.docker.swarm.service.name" name) w
    rw [WaitForService.loop, WaitForService.loop]
    rw [exec_bind_apply, exec_bind_apply, hl]
    cases l with
    | cons c rest => rfl
    | nil =>
      dsimp only
      rw [exec_bind_apply, exec_bind_apply]
      simp only [Sleep]
      by_cases hgt : loopCount + 1 > timeout
      · rw [if_pos hgt, if_pos hgt]
      · rw [if_neg hgt, if_neg hgt]
        exact ih n (loopCount + 1) _ (by push_cast at ht; omega) (by omega)

/-- When the first `k` polls, one second apart, list no container and the next
one does, with `k` sleeps still within the timeout, the polling loop returns
the first container of that list, three seconds after it was seen. -/
theorem WaitForService_loop_found (deps : Deps) (name : String) (timeout : Int) (c : Container)
    (rest : List Container) (k : Nat) :
    ∀ (fuel : Nat) (loopCount : Int) (w : World),
      (∀ j < k, (cli.ContainerList deps (ContainerFilter.label "com.docker.swarm.service.name" name)
        { w with now := w.now + j }).value = some []) →
      (cli.ContainerList deps (ContainerFilter.label "com.docker.swarm.service.name" name)
        { w with now := w.now + k }).value = some (c :: rest) →
      loopCount + k ≤ timeout → k < fuel →
      WaitForService.loop deps name timeout fuel loopCount w =
        .ok (.ok c) { w with now := w.now + k + 3 } := by
  induction k with
  | zero =>
    intro fuel loopCount w _ hfound _ hf
    obtain ⟨n, rfl⟩ : ∃ n, fuel = n + 1 := ⟨fuel - 1, by omega⟩
    have h0 := ContainerList_of_value _ _ _ _ hfound
    unfold WaitForService.loop
    rw [exec_bind_apply]
    erw [h0]
    rfl
  | succ k ih =>
    intro fuel loopCount w hnone hfound ht hf
    obtain ⟨n, rfl⟩ : ∃ n, fuel = n + 1 := ⟨fuel - 1, by omega⟩
    have h0 := ContainerList_of_value _ _ _ _ (hnone 0 (by omega))
    unfold WaitForService.loop
    rw [exec_bind_apply]
    erw [h0]
    dsimp only
    rw [exec_bind_apply]
    simp only [Sleep]
    rw [if_neg (by push_cast at ht; omega)]
    have e : ∀ j, w.now + 1 + j = w.now + (j + 1) := fun j => by omega
    rw [ih n (loopCount + 1) { w with now := w.now + 0 + 1 }]
    · simp only [Res.ok.injEq, true_and]
      show { w with now := w.now + 0 + 1 + k + 3 } = { w with now := w.now + (k + 1) + 3 }
      rw [Nat.add_zero, e k]
    · intro j hj
      show (cli.ContainerList deps _ { w with now := w.now + 0 + 1 + j }).value = some []
      rw [Nat.add_zero, e j]
      exact hnone (j + 1) (by omega)
    · show (cli.ContainerList deps _ { w with now := w.now + 0 + 1 + k }).value = some (c :: rest)
      rw [Nat.add_zero, e k]
      exact hfound
    · push_cast at ht
      omega
    · omega

/-- C19 fails on the code by one second.  On the sample runtime, which never
runs a container of the service `nope`, `WaitForService "nope" 2` returns the
error "... has not restarted after 2 seconds" when 3 seconds have gone by, and
with a timeout of 0 when one second has. -/
theorem WaitForService_waits_one_more :
    (WaitForService sampleDeps "nope" 2 sampleWorld).value
      = some (.error "Service nope has not restarted after 2 seconds !!")
    ∧ sampleWorld.now = 0
    ∧ (WaitForService sampleDeps "nope" 2 sampleWorld).world.now = 3
    ∧ (WaitForService sampleDeps "nope" 0 sampleWorld).world.now = 1 :=
  ⟨rfl, rfl, rfl, rfl⟩

/-! ## Reload -/

theorem count_filter_ite (p : SLA → Bool) (a : SLA) (l : List SLA) :
    List.count a (l.filter p) = if p a = true then List.count a l else 0 := by
  by_cases h : p a = true
  · rw [if_pos h, List.count_filter h]
  · rw [if_neg h]
    apply List.count_eq_zero_of_not_mem
    intro hm
    exact h (List.mem_filter.mp hm).2

theorem isDriver_of_isApp (a : SLA) (h : a.isApp = true) : a.isDriver = false := by
  simp only [SLA.isApp, SLA.isDriver, beq_iff_eq, beq_eq_false_iff_ne] at h ⊢
  rw [h]
  decide

theorem started_append (t1 t2 : List reloadApps.Event) :
    reloadApps.started (t1 ++ t2) = reloadApps.started t1 ++ reloadApps.started t2 := by
  induction t1 with
  | nil => rfl
  | cons e rest ih => cases e <;> simp [reloadApps.started, ih]

theorem hasReturned_append (t1 t2 : List reloadApps.Event) :
    reloadApps.hasReturned (t1 ++ t2) = reloadApps.hasReturned t1 ++ reloadApps.hasReturned t2 := by
  induction t1 with
  | nil => rfl
  | cons e rest ih => cases e <;> simp [reloadApps.hasReturned, ih]

theorem mem_started (t : List reloadApps.Event) (a : SLA) :
    a ∈ reloadApps.started t ↔ ∃ save, reloadApps.Event.start a save ∈ t := by
  induction t with
  | nil => simp [reloadApps.started]
  | cons e rest ih => cases e <;> simp [reloadApps.started, ih, or_and_right, exists_or]

theorem ordered_append (slaList : List SLA) (t : List reloadApps.Event) (e : reloadApps.Event)
    (h : reloadApps.Ordered slaList t)
    (he : ∀ a save, e = reloadApps.Event.start a save → a.isApp = true →
      List.Perm ((reloadApps.hasReturned t).filter SLA.isDriver) (slaList.filter SLA.isDriver)) :
    reloadApps.Ordered slaList (t ++ [e]) := by
  intro pre post a save heq ha
  rcases List.eq_nil_or_concat post with hp | ⟨post1, x, hp⟩
  · subst hp
    have := List.append_inj' (show t ++ [e] = pre ++ [reloadApps.Event.start a save] from heq) rfl
    obtain ⟨h1, h2⟩ := this
    simp only [List.cons.injEq, and_true] at h2
    subst h1
    exact he a save h2 ha
  · subst hp
    rw [List.concat_eq_append] at heq
    have := List.append_inj'
      (show t ++ [e] = (pre ++ reloadApps.Event.start a save :: post1) ++ [x] by
        rw [heq]; simp) rfl
    exact h pre post1 a save this.1 ha

theorem inv_init (slaList : List SLA) : reloadApps.Inv slaList (reloadApps.init slaList) := by
  refine ⟨rfl, rfl, ?_, List.Perm.refl _, List.Perm.refl _, ?_, ?_, ?_, ?_, ?_⟩
  · simp [reloadApps.init, reloadApps.remaining]
  · intro a save h
    simp [reloadApps.init] at h
  · intro pre post a save h
    simp [reloadApps.init] at h
  · intro _ a h
    simp [reloadApps.init] at h
  · intro h
    simp [reloadApps.init, reloadApps.PC.pastDrivers] at h
  · intro h
    simp [reloadApps.init] at h

theorem inv_begin (slaList : List SLA) (s : reloadApps.State) (sla : SLA)
    (h : reloadApps.Inv slaList s) (hm : sla ∈ s.spawned) :
    reloadApps.Inv slaList
      { s with spawned := s.spawned.erase sla, running := s.running ++ [sla]
               trace := s.trace ++ [.start sla false] } := by
  have hpos : 0 < List.count sla s.spawned := List.count_pos_iff.mpr hm
  have hlen := List.length_erase_of_mem hm
  have hlpos : 0 < s.spawned.length := List.length_pos_of_mem hm
  refine ⟨h.list, ?_, ?_, ?_, ?_, ?_, ?_, ?_, ?_, ?_⟩
  · have := h.counter
    simp only [List.length_append, List.length_singleton, hlen]
    omega
  · rw [List.perm_iff_count]
    intro x
    have := List.perm_iff_count.mp h.created x
    simp only [List.count_append, List.count_erase, List.count_singleton] at this ⊢
    by_cases hx : sla = x
    · subst hx
      simp only [beq_self_eq_true, if_true]
      omega
    · simp only [beq_iff_eq, hx, if_false]
      omega
  · rw [List.perm_iff_count]
    intro x
    have := List.perm_iff_count.mp h.starts x
    simp only [started_append, reloadApps.started, List.count_append, List.count_singleton]
      at this ⊢
    omega
  · simp only [hasReturned_append, reloadApps.hasReturned, List.append_nil]
    exact h.returns
  · intro a save hmem
    rcases List.mem_append.mp hmem with h1 | h1
    · exact h.noSave a save h1
    · simp only [List.mem_singleton, reloadApps.Event.start.injEq] at h1
      exact h1.2
  · refine ordered_append slaList s.trace _ h.ordered (fun a save he ha => ?_)
    simp only [reloadApps.Event.start.injEq] at he
    obtain ⟨he, _⟩ := he
    subst he
    cases hp : s.pc.pastDrivers with
    | true => exact (h.apps hp).2
    | false =>
      have := h.drivers hp sla hm
      rw [isDriver_of_isApp sla ha] at this
      cases this
  · intro hp a ha
    exact h.drivers hp a (List.mem_of_mem_erase ha)
  · intro hp
    refine ⟨fun a ha => ?_, ?_⟩
    · apply (h.apps hp).1
      simp only [List.mem_append, List.mem_singleton] at ha ⊢
      rcases ha with ha | ha | ha
      · exact Or.inl (List.mem_of_mem_erase ha)
      · exact Or.inr ha
      · exact Or.inl (ha ▸ hm)
    · simp only [hasReturned_append, reloadApps.hasReturned, List.append_nil]
      exact (h.apps hp).2
  · intro hd
    have h0 := h.atEnd hd
    have := h.counter
    omega

theorem inv_finish (slaList : List SLA) (s : reloadApps.State) (sla : SLA)
    (h : reloadApps.Inv slaList s) (hm : sla ∈ s.running) :
    reloadApps.Inv slaList
      { s with running := s.running.erase sla, returned := s.returned ++ [sla]
               trace := s.trace ++ [.returned sla] } := by
  have hpos : 0 < List.count sla s.running := List.count_pos_iff.mpr hm
  have hlen := List.length_erase_of_mem hm
  have hlpos : 0 < s.running.length := List.length_pos_of_mem hm
  refine ⟨h.list, ?_, ?_, ?_, ?_, ?_, ?_, h.drivers, ?_, ?_⟩
  · have := h.counter
    simp only [List.length_append, List.length_singleton, hlen]
    omega
  · rw [List.perm_iff_count]
    intro x
    have := List.perm_iff_count.mp h.created x
    simp only [List.count_append, List.count_erase, List.count_singleton] at this ⊢
    by_cases hx : sla = x
    · subst hx
      simp only [beq_self_eq_true, if_true]
      omega
    · simp only [beq_iff_eq, hx, if_false]
      omega
  · rw [List.perm_iff_count]
    intro x
    have := List.perm_iff_count.mp h.starts x
    simp only [started_append, reloadApps.started, List.append_nil, List.count_append,
      List.count_erase, List.count_singleton] at this ⊢
    by_cases hx : sla = x
    · subst hx
      simp only [beq_self_eq_true, if_true]
      omega
    · simp only [beq_iff_eq, hx, if_false]
      omega
  · rw [List.perm_iff_count]
    intro x
    have := List.perm_iff_count.mp h.returns x
    simp only [hasReturned_append, reloadApps.hasReturned, List.count_append,
      List.count_singleton] at this ⊢
    omega
  · intro a save hmem
    rcases List.mem_append.mp hmem with h1 | h1
    · exact h.noSave a save h1
    · simp at h1
  · exact ordered_append slaList s.trace _ h.ordered (fun a save he => by cases he)
  · intro hp
    refine ⟨fun a ha => ?_, ?_⟩
    · apply (h.apps hp).1
      simp only [List.mem_append] at ha ⊢
      rcases ha with ha | ha
      · exact Or.inl ha
      · exact Or.inr (List.mem_of_mem_erase ha)
    · have hnd : sla.isDriver = false := (h.apps hp).1 sla (List.mem_append_right _ hm)
      simp only [hasReturned_append, reloadApps.hasReturned, List.filter_append,
        List.filter_cons, hnd, List.filter_nil, List.append_nil, Bool.false_eq_true, if_false]
      exact (h.apps hp).2
  · intro hd
    have h0 := h.atEnd hd
    have := h.counter
    omega

theorem inv_done (slaList : List SLA) (s : reloadApps.State) (sla : SLA)
    (h : reloadApps.Inv slaList s) (hm : sla ∈ s.returned) :
    reloadApps.Inv slaList
      { s with returned := s.returned.erase sla, finished := s.finished ++ [sla]
               waitGroup := s.waitGroup - 1 } := by
  have hpos : 0 < List.count sla s.returned := List.count_pos_iff.mpr hm
  have hlen := List.length_erase_of_mem hm
  have hlpos : 0 < s.returned.length := List.length_pos_of_mem hm
  refine ⟨h.list, ?_, ?_, ?_, ?_, h.noSave, h.ordered, h.drivers, h.apps, ?_⟩
  · have := h.counter
    simp only [hlen]
    omega
  · rw [List.perm_iff_count]
    intro x
    have := List.perm_iff_count.mp h.created x
    simp only [List.count_append, List.count_erase, List.count_singleton] at this ⊢
    by_cases hx : sla = x
    · subst hx
      simp only [beq_self_eq_true, if_true]
      omega
    · simp only [beq_iff_eq, hx, if_false]
      omega
  · rw [List.perm_iff_count]
    intro x
    have := List.perm_iff_count.mp h.starts x
    simp only [List.count_append, List.count_erase, List.count_singleton] at this ⊢
    by_cases hx : sla = x
    · subst hx
      simp only [beq_self_eq_true, if_true]
      omega
    · simp only [beq_iff_eq, hx, if_false]
      omega
  · rw [List.perm_iff_count]
    intro x
    have := List.perm_iff_count.mp h.returns x
    simp only [List.count_append, List.count_erase, List.count_singleton] at this ⊢
    by_cases hx : sla = x
    · subst hx
      simp only [beq_self_eq_true, if_true]
      omega
    · simp only [beq_iff_eq, hx, if_false]
      omega
  · intro hd
    have h0 := h.atEnd hd
    have := h.counter
    omega

theorem inv_launch_driver (slaList : List SLA) (s : reloadApps.State) (sla : SLA)
    (rest : List SLA) (h : reloadApps.Inv slaList s) (hpc : s.pc = .launchDrivers (sla :: rest)) :
    reloadApps.Inv slaList (reloadApps.launch s sla.isDriver sla (.launchDrivers rest)) := by
  have hcr := h.created
  rw [hpc] at hcr
  have hdr := h.drivers (by rw [hpc]; rfl)
  unfold reloadApps.launch
  cases hd : sla.isDriver with
  | false =>
    simp only [Bool.false_eq_true, if_false]
    refine ⟨h.list, h.counter, ?_, h.starts, h.returns, h.noSave, h.ordered, fun _ => hdr,
      fun hp => (by cases hp), fun hp => (by cases hp)⟩
    simpa [reloadApps.remaining, List.filter_cons, hd] using hcr
  | true =>
    simp only [if_true]
    refine ⟨h.list, ?_, ?_, h.starts, h.returns, h.noSave, h.ordered, ?_,
      fun hp => (by cases hp), fun hp => (by cases hp)⟩
    · have := h.counter
      simp only [List.length_append, List.length_singleton]
      omega
    · rw [List.perm_iff_count]
      intro x
      have := List.perm_iff_count.mp hcr x
      simp only [reloadApps.remaining, List.filter_cons, hd, if_true, List.count_append,
        List.count_cons, List.count_nil] at this ⊢
      omega
    · intro _ a ha
      rcases List.mem_append.mp ha with ha | ha
      · exact hdr a ha
      · simp only [List.mem_singleton] at ha
        rw [ha]
        exact hd

theorem inv_launch_app (slaList : List SLA) (s : reloadApps.State) (sla : SLA)
    (rest : List SLA) (h : reloadApps.Inv slaList s) (hpc : s.pc = .launchApps (sla :: rest)) :
    reloadApps.Inv slaList (reloadApps.launch s sla.isApp sla (.launchApps rest)) := by
  have hcr := h.created
  rw [hpc] at hcr
  have hap := h.apps (by rw [hpc]; rfl)
  unfold reloadApps.launch
  cases hd : sla.isApp with
  | false =>
    simp only [Bool.false_eq_true, if_false]
    refine ⟨h.list, h.counter, ?_, h.starts, h.returns, h.noSave, h.ordered,
      fun hp => (by cases hp), fun _ => hap, fun hp => (by cases hp)⟩
    simpa [reloadApps.remaining, List.filter_cons, hd] using hcr
  | true =>
    simp only [if_true]
    refine ⟨h.list, ?_, ?_, h.starts, h.returns, h.noSave, h.ordered,
      fun hp => (by cases hp), fun _ => ⟨?_, hap.2⟩, fun hp => (by cases hp)⟩
    · have := h.counter
      simp only [List.length_append, List.length_singleton]
      omega
    · rw [List.perm_iff_count]
      intro x
      have := List.perm_iff_count.mp hcr x
      simp only [reloadApps.remaining, List.filter_cons, hd, if_true, List.count_append,
        List.count_cons, List.count_nil] at this ⊢
      omega
    · intro a ha
      simp only [List.mem_append, List.mem_singleton] at ha
      rcases ha with (ha | ha) | ha
      · exact hap.1 a (List.mem_append_left _ ha)
      · rw [ha]
        exact isDriver_of_isApp sla hd
      · exact hap.1 a (List.mem_append_right _ ha)

/-- When the counter of the wait group is zero no goroutine is left. -/
theorem inv_idle (slaList : List SLA) (s : reloadApps.State) (h : reloadApps.Inv slaList s)
    (h0 : s.waitGroup = 0) : s.spawned = [] ∧ s.running = [] ∧ s.returned = [] := by
  have := h.counter
  refine ⟨List.length_eq_zero.mp (by omega), List.length_eq_zero.mp (by omega),
    List.length_eq_zero.mp (by omega)⟩

theorem inv_stepMain (slaList : List SLA) (s s1 : reloadApps.State)
    (h : reloadApps.Inv slaList s) (hs : reloadApps.stepMain s = some s1) :
    reloadApps.Inv slaList s1 := by
  unfold reloadApps.stepMain at hs
  split at hs
  · rename_i hpc
    simp only [Option.some.injEq] at hs
    subst hs
    have hcr := h.created
    rw [hpc] at hcr
    refine ⟨h.list, h.counter, ?_, h.starts, h.returns, h.noSave, h.ordered,
      fun _ => h.drivers (by rw [hpc]; rfl), fun hp => (by cases hp), fun hp => (by cases hp)⟩
    simpa [reloadApps.remaining] using hcr
  · rename_i sla rest hpc
    simp only [Option.some.injEq] at hs
    subst hs
    exact inv_launch_driver slaList s sla rest h hpc
  · rename_i hpc
    split at hs
    · rename_i h0
      simp only [Option.some.injEq] at hs
      subst hs
      obtain ⟨e1, e2, e3⟩ := inv_idle slaList s h h0
      have hcr := h.created
      have hrt := h.returns
      rw [hpc] at hcr
      rw [e1, e2, e3] at hcr
      rw [e3] at hrt
      refine ⟨h.list, h.counter, ?_, h.starts, h.returns, h.noSave, h.ordered,
        fun hp => (by cases hp), fun _ => ⟨?_, ?_⟩, fun hp => (by cases hp)⟩
      · rw [e1, e2, e3]
        simpa [reloadApps.remaining, h.list] using hcr
      · intro a ha
        rw [e1, e2] at ha
        cases ha
      · rw [List.perm_iff_count]
        intro x
        have c1 := List.perm_iff_count.mp hcr x
        have c2 := List.perm_iff_count.mp hrt x
        simp only [reloadApps.remaining, List.nil_append, List.count_append,
          count_filter_ite] at c1 c2 ⊢
        cases hx : x.isDriver with
        | false => simp
        | true =>
          simp only [hx, if_true] at c1 ⊢
          omega
    · cases hs
  · rename_i hpc
    simp only [Option.some.injEq] at hs
    subst hs
    have hcr := h.created
    rw [hpc] at hcr
    refine ⟨h.list, h.counter, ?_, h.starts, h.returns, h.noSave, h.ordered,
      fun hp => (by cases hp), fun _ => h.apps (by rw [hpc]; rfl), fun hp => (by cases hp)⟩
    simpa [reloadApps.remaining] using hcr
  · rename_i sla rest hpc
    simp only [Option.some.injEq] at hs
    subst hs
    exact inv_launch_app slaList s sla rest h hpc
  · rename_i hpc
    split at hs
    · rename_i h0
      simp only [Option.some.injEq] at hs
      subst hs
      have hcr := h.created
      rw [hpc] at hcr
      refine ⟨h.list, h.counter, ?_, h.starts, h.returns, h.noSave, h.ordered,
        fun hp => (by cases hp), fun _ => h.apps (by rw [hpc]; rfl), fun _ => h0⟩
      simpa [reloadApps.remaining] using hcr
    · cases hs
  · cases hs

theorem inv_step (slaList : List SLA) (s s1 : reloadApps.State) (a : reloadApps.Action)
    (h : reloadApps.Inv slaList s) (hs : reloadApps.step s a = some s1) :
    reloadApps.Inv slaList s1 := by
  cases a with
  | main => exact inv_stepMain slaList s s1 h hs
  | begin sla =>
    simp only [reloadApps.step] at hs
    split at hs
    · rename_i hm
      simp only [Option.some.injEq] at hs
      subst hs
      exact inv_begin slaList s sla h hm
    · cases hs
  | finish sla =>
    simp only [reloadApps.step] at hs
    split at hs
    · rename_i hm
      simp only [Option.some.injEq] at hs
      subst hs
      exact inv_finish slaList s sla h hm
    · cases hs
  | done sla =>
    simp only [reloadApps.step] at hs
    split at hs
    · rename_i hm
      simp only [Option.some.injEq] at hs
      subst hs
      exact inv_done slaList s sla h hm
    · cases hs

theorem inv_run (slaList : List SLA) (schedule : List reloadApps.Action)
    (s s1 : reloadApps.State) (h : reloadApps.Inv slaList s)
    (hs : reloadApps.run schedule s = some s1) : reloadApps.Inv slaList s1 := by
  induction schedule generalizing s with
  | nil =>
    simp only [reloadApps.run, Option.some.injEq] at hs
    exact hs ▸ h
  | cons a rest ih =>
    rw [reloadApps.run] at hs
    cases hstep : reloadApps.step s a with
    | none => rw [hstep] at hs; cases hs
    | some s2 =>
      rw [hstep] at hs
      exact ih s2 (inv_step slaList s s2 a h hstep) hs

/-- A run of `reloadApps` that has not reached the end can take a step: the
main goroutine, or one of the goroutines the wait group counts. -/
theorem reloadApps_no_deadlock (slaList : List SLA) (s : reloadApps.State)
    (h : reloadApps.Inv slaList s) (hpc : s.pc ≠ .done) :
    ∃ a s1, reloadApps.step s a = some s1 := by
  have hwait : s.waitGroup ≠ 0 → ∃ a s1, reloadApps.step s a = some s1 := by
    intro h0
    have hc := h.counter
    cases hsp : s.spawned with
    | cons a _ => exact ⟨.begin a, Option.isSome_iff_exists.mp (by simp [reloadApps.step, hsp])⟩
    | nil =>
      cases hru : s.running with
      | cons a _ => exact ⟨.finish a, Option.isSome_iff_exists.mp (by simp [reloadApps.step, hru])⟩
      | nil =>
        cases hre : s.returned with
        | cons a _ => exact ⟨.done a, Option.isSome_iff_exists.mp (by simp [reloadApps.step, hre])⟩
        | nil =>
          rw [hsp, hru, hre] at hc
          exact absurd hc h0
  cases hp : s.pc with
  | launchDrivers rest =>
    cases rest with
    | nil => exact ⟨.main, Option.isSome_iff_exists.mp (by simp [reloadApps.step, reloadApps.stepMain, hp])⟩
    | cons a r => exact ⟨.main, Option.isSome_iff_exists.mp (by simp [reloadApps.step, reloadApps.stepMain, hp])⟩
  | waitDrivers =>
    by_cases h0 : s.waitGroup = 0
    · exact ⟨.main, Option.isSome_iff_exists.mp (by simp [reloadApps.step, reloadApps.stepMain, hp, h0])⟩
    · exact hwait h0
  | launchApps rest =>
    cases rest with
    | nil => exact ⟨.main, Option.isSome_iff_exists.mp (by simp [reloadApps.step, reloadApps.stepMain, hp])⟩
    | cons a r => exact ⟨.main, Option.isSome_iff_exists.mp (by simp [reloadApps.step, reloadApps.stepMain, hp])⟩
  | waitApps =>
    by_cases h0 : s.waitGroup = 0
    · exact ⟨.main, Option.isSome_iff_exists.mp (by simp [reloadApps.step, reloadApps.stepMain, hp, h0])⟩
    · exact hwait h0
  | done => exact absurd hp hpc

theorem stepsLeft_step (s s1 : reloadApps.State) (a : reloadApps.Action)
    (hs : reloadApps.step s a = some s1) :
    reloadApps.stepsLeft s1 < reloadApps.stepsLeft s := by
  cases a with
  | main =>
    simp only [reloadApps.step, reloadApps.stepMain] at hs
    split at hs
    · rename_i hpc
      simp only [Option.some.injEq] at hs
      subst hs
      simp only [reloadApps.stepsLeft, hpc, List.length_nil]
      omega
    · rename_i sla rest hpc
      simp only [Option.some.injEq] at hs
      subst hs
      cases hd : sla.isDriver <;>
        simp only [reloadApps.launch, hd, Bool.false_eq_true, if_true, if_false,
          reloadApps.stepsLeft, hpc, List.length_cons, List.length_append,
          List.length_singleton, List.length_nil] <;> omega
    · rename_i hpc
      split at hs
      · simp only [Option.some.injEq] at hs
        subst hs
        simp only [reloadApps.stepsLeft, hpc]
        omega
      · cases hs
    · rename_i hpc
      simp only [Option.some.injEq] at hs
      subst hs
      simp only [reloadApps.stepsLeft, hpc, List.length_nil]
      omega
    · rename_i sla rest hpc
      simp only [Option.some.injEq] at hs
      subst hs
      cases hd : sla.isApp <;>
        simp only [reloadApps.launch, hd, Bool.false_eq_true, if_true, if_false,
          reloadApps.stepsLeft, hpc, List.length_cons, List.length_append,
          List.length_singleton, List.length_nil] <;> omega
    · rename_i hpc
      split at hs
      · simp only [Option.some.injEq] at hs
        subst hs
        simp only [reloadApps.stepsLeft, hpc]
        omega
      · cases hs
    · cases hs
  | begin sla =>
    simp only [reloadApps.step] at hs
    split at hs
    · rename_i hm
      simp only [Option.some.injEq] at hs
      subst hs
      have := List.length_erase_of_mem hm
      have := List.length_pos_of_mem hm
      simp only [reloadApps.stepsLeft, List.length_append, List.length_singleton]
      omega
    · cases hs
  | finish sla =>
    simp only [reloadApps.step] at hs
    split at hs
    · rename_i hm
      simp only [Option.some.injEq] at hs
      subst hs
      have := List.length_erase_of_mem hm
      have := List.length_pos_of_mem hm
      simp only [reloadApps.stepsLeft, List.length_append, List.length_singleton]
      omega
    · cases hs
  | done sla =>
    simp only [reloadApps.step] at hs
    split at hs
    · rename_i hm
      simp only [Option.some.injEq] at hs
      subst hs
      have := List.length_erase_of_mem hm
      have := List.length_pos_of_mem hm
      simp only [reloadApps.stepsLeft]
      omega
    · cases hs

/-- No run of `reloadApps` goes on for ever: a schedule is no longer than the
steps left at its start. -/
theorem stepsLeft_run (schedule : List reloadApps.Action) (s s1 : reloadApps.State)
    (hs : reloadApps.run schedule s = some s1) :
    schedule.length + reloadApps.stepsLeft s1 ≤ reloadApps.stepsLeft s := by
  induction schedule generalizing s with
  | nil =>
    simp only [reloadApps.run, Option.some.injEq] at hs
    subst hs
    simp
  | cons a rest ih =>
    rw [reloadApps.run] at hs
    cases hstep : reloadApps.step s a with
    | none => rw [hstep] at hs; cases hs
    | some s2 =>
      rw [hstep] at hs
      have h1 := ih s2 hs
      have h2 := stepsLeft_step s s2 a hstep
      simp only [List.length_cons]
      omega

/-- Every run of `reloadApps` can be carried on to the end of the function. -/
theorem reloadApps_can_end (slaList : List SLA) (n : Nat) :
    ∀ s, reloadApps.Inv slaList s → reloadApps.stepsLeft s ≤ n →
      ∃ schedule s1, reloadApps.run schedule s = some s1 ∧ s1.pc = .done := by
  induction n with
  | zero =>
    intro s h hn
    by_cases hpc : s.pc = .done
    · exact ⟨[], s, rfl, hpc⟩
    · obtain ⟨a, s1, hs⟩ := reloadApps_no_deadlock slaList s h hpc
      have := stepsLeft_step s s1 a hs
      omega
  | succ n ih =>
    intro s h hn
    by_cases hpc : s.pc = .done
    · exact ⟨[], s, rfl, hpc⟩
    · obtain ⟨a, s1, hs⟩ := reloadApps_no_deadlock slaList s h hpc
      have hlt := stepsLeft_step s s1 a hs
      obtain ⟨schedule, s2, hrun, hdone⟩ := ih s1 (inv_step slaList s s1 a h hs) (by omega)
      exact ⟨a :: schedule, s2, by rw [reloadApps.run, hs]; exact hrun, hdone⟩

theorem run_append (schedule more : List reloadApps.Action) (s : reloadApps.State) :
    reloadApps.run (schedule ++ more) s =
      (match reloadApps.run schedule s with
       | some s1 => reloadApps.run more s1
       | none => none) := by
  induction schedule generalizing s with
  | nil => rfl
  | cons a rest ih =>
    rw [List.cons_append, reloadApps.run, reloadApps.run]
    cases reloadApps.step s a with
    | none => rfl
    | some s2 => exact ih s2

/-- C20. Whatever the order in which the scheduler runs the goroutines of
`reloadApps` on the SLAs `slaList`: when the install of an app starts, the
installs of all the driver SLAs of the list have returned; every install is
started with `save = false`, for an SLA of the list that is a driver or an
app, and no more often than the SLA is listed; once the function has ended the
installs started, and those returned, are the drivers and the apps of the
list, each once.  A run that has not ended can take a step, and no run is
longer than `4 + 8 * slaList.length` steps, so the function does end. -/
theorem reloadApps_drivers_then_apps (slaList : List SLA) (schedule : List reloadApps.Action)
    (s : reloadApps.State)
    (h : reloadApps.run schedule (reloadApps.init slaList) = some s) :
    (∀ pre post a save, s.trace = pre ++ reloadApps.Event.start a save :: post →
      a.isApp = true →
      List.Perm ((reloadApps.hasReturned pre).filter SLA.isDriver) (slaList.filter SLA.isDriver))
    ∧ (∀ a save, reloadApps.Event.start a save ∈ s.trace →
      save = false ∧ a ∈ slaList ∧ (a.isDriver = true ∨ a.isApp = true))
    ∧ (∀ a, List.count a (reloadApps.started s.trace) ≤ List.count a slaList)
    ∧ (s.pc = .done →
      List.Perm (reloadApps.started s.trace)
        (slaList.filter SLA.isDriver ++ slaList.filter SLA.isApp)
      ∧ List.Perm (reloadApps.hasReturned s.trace)
        (slaList.filter SLA.isDriver ++ slaList.filter SLA.isApp))
    ∧ (s.pc ≠ .done → ∃ a s1, reloadApps.step s a = some s1)
    ∧ schedule.length ≤ 4 + 8 * slaList.length
    ∧ ∃ more s1, reloadApps.run (schedule ++ more) (reloadApps.init slaList) = some s1
        ∧ s1.pc = .done := by
  have hinv := inv_run slaList schedule _ s (inv_init slaList) h
  have hcount : ∀ a, List.count a (reloadApps.started s.trace) ≤
      List.count a (slaList.filter SLA.isDriver ++ slaList.filter SLA.isApp) := by
    intro a
    have c1 := List.perm_iff_count.mp hinv.created a
    have c2 := List.perm_iff_count.mp hinv.starts a
    simp only [List.count_append] at c1 c2 ⊢
    omega
  have hfilter : ∀ a, List.count a (slaList.filter SLA.isDriver ++ slaList.filter SLA.isApp)
      ≤ List.count a slaList := by
    intro a
    simp only [List.count_append, count_filter_ite]
    cases ha : a.isApp with
    | false => cases hd : a.isDriver <;> simp
    | true => simp [isDriver_of_isApp a ha]
  refine ⟨hinv.ordered, fun a save hmem => ⟨hinv.noSave a save hmem, ?_⟩, fun a =>
    (hcount a).trans (hfilter a), fun hd => ?_, reloadApps_no_deadlock slaList s hinv, ?_, ?_⟩
  · have hs : a ∈ reloadApps.started s.trace := (mem_started _ _).mpr ⟨save, hmem⟩
    have hpos := List.count_pos_iff.mpr hs
    have hin : a ∈ slaList.filter SLA.isDriver ++ slaList.filter SLA.isApp :=
      List.count_pos_iff.mp (Nat.lt_of_lt_of_le hpos (hcount a))
    simp only [List.mem_append, List.mem_filter] at hin
    rcases hin with hin | hin
    · exact ⟨hin.1, Or.inl hin.2⟩
    · exact ⟨hin.1, Or.inr hin.2⟩
  · obtain ⟨e1, e2, e3⟩ := inv_idle slaList s hinv (hinv.atEnd hd)
    have hcr := hinv.created
    have hst := hinv.starts
    have hrt := hinv.returns
    rw [e1, e2, e3, hd] at hcr
    rw [e2, e3] at hst
    rw [e3] at hrt
    simp only [reloadApps.remaining, List.nil_append, List.append_nil] at hcr hst hrt
    exact ⟨hst.trans hcr, hrt.trans hcr⟩
  · have := stepsLeft_run schedule _ s h
    simp only [reloadApps.stepsLeft, reloadApps.init, List.length_nil] at this
    omega
  · obtain ⟨more, s1, hrun, hdone⟩ := reloadApps_can_end slaList _ s hinv (Nat.le_refl _)
    exact ⟨more, s1, by rw [run_append, h]; exact hrun, hdone⟩

/-- C20 on the sample app and the sample driver, with the goroutines run one
at a time: the function ends, the driver was installed first and both installs
were started once. -/
theorem reloadApps_drivers_then_apps_witness :
    reloadApps.run (reloadApps.sequential [sampleApp, sampleDriver])
        (reloadApps.init [sampleApp, sampleDriver]) = some sampleReloaded
    ∧ List.Perm (reloadApps.started sampleReloaded.trace)
        ([sampleApp, sampleDriver].filter SLA.isDriver
          ++ [sampleApp, sampleDriver].filter SLA.isApp)
    ∧ ∀ a save, reloadApps.Event.start a save ∈ sampleReloaded.trace →
        save = false ∧ a ∈ [sampleApp, sampleDriver] ∧ (a.isDriver = true ∨ a.isApp = true) :=
  have h : reloadApps.run (reloadApps.sequential [sampleApp, sampleDriver])
      (reloadApps.init [sampleApp, sampleDriver]) = some sampleReloaded := by decide
  ⟨h, ((reloadApps_drivers_then_apps [sampleApp, sampleDriver] _ sampleReloaded h).2.2.2.1 rfl).1,
    (reloadApps_drivers_then_apps [sampleApp, sampleDriver] _ sampleReloaded h).2.1⟩

/-! ## Requests to the core-network daemon -/

/-- What `post` returns is the transport error of the exchange, if any: the
status code plays no part in it. -/
theorem post_returns_transport_error (fn : String) (data : PostData) (URL : String) (w : World) :
    (post fn data URL w).value = some (w.errorOf (Call.Post URL data)) := by
  unfold post
  dsimp only
  cases h : w.errorOf (Call.Post URL data) with
  | some e => rfl
  | none =>
    dsimp only
    split <;> rfl

/-- C21 fails on the code. On the sample runtime where the daemon answers every
request with the status 500 and no transport fails, the connect, disconnect
and restart requests are sent and each returns no error: `post` returns the
variable `err`, which is `nil` once the exchange has completed. -/
theorem post_status_error_dropped :
    sampleWorldDaemonErrors.StatusCode "https://databox-network:8080/connect"
        (PostData.connect "weather" ["arbiter"]) = 500
    ∧ sampleWorldDaemonErrors.errorOf (Call.Post "https://databox-network:8080/connect"
        (PostData.connect "weather" ["arbiter"])) = none
    ∧ (ConnectEndpoints "weather" ["arbiter"] sampleWorldDaemonErrors).value = some none
    ∧ issued (ConnectEndpoints "weather" ["arbiter"]) sampleWorldDaemonErrors =
        [Call.Post "https://databox-network:8080/connect" (PostData.connect "weather" ["arbiter"])]
    ∧ (DisconnectEndpoints "weather" { IPv4Address := "10.0.1.3" } sampleWorldDaemonErrors).value
        = some none
    ∧ (ServiceRestart "weather" "10.0.1.3" "10.0.1.7" sampleWorldDaemonErrors).value = some none := by
  decide

/-! ## Image resolution, again -/

/-- C26. For every SLA and configuration the resolved image name contains "/"
and ":", so resolving the SLA whose image field is replaced by that name
returns the name unchanged. -/
theorem calculateImageNameFromSLA_idempotent (cm : ContainerManager) (sla : SLA) :
    strings.Contains (calculateImageNameFromSLA cm sla) "/" = true
    ∧ strings.Contains (calculateImageNameFromSLA cm sla) ":" = true
    ∧ calculateImageNameFromSLA cm { sla with DockerImage := calculateImageNameFromSLA cm sla }
        = calculateImageNameFromSLA cm sla := by
  have hboth : strings.Contains (calculateImageNameFromSLA cm sla) "/" = true
      ∧ strings.Contains (calculateImageNameFromSLA cm sla) ":" = true := by
    by_cases hc : strings.Contains sla.DockerImage "/" = true
        ∧ strings.Contains sla.DockerImage ":" = true
    · unfold calculateImageNameFromSLA
      rw [if_pos (by simp [hc.1, hc.2])]
      exact hc
    · have hb : (strings.Contains sla.DockerImage "/" && strings.Contains sla.DockerImage ":")
          = false := by simpa using hc
      unfold calculateImageNameFromSLA
      rw [if_neg (by simp [hb])]
      exact built_name_contains _ _ _
  refine ⟨hboth.1, hboth.2, ?_⟩
  generalize calculateImageNameFromSLA cm sla = r at hboth
  unfold calculateImageNameFromSLA
  rw [if_pos (by simp [hboth.1, hboth.2])]

/-! ## Urls that do not parse -/

/-- One datasource whose href does not parse makes `getAppConfig` panic. -/
theorem getAppConfig_loop_nil_url (deps : Deps) (dss : List DataSource) (env : List String)
    (nets : List (String × String)) (ds : DataSource) (hds : ds ∈ dss)
    (hurl : deps.urlParse ds.Hypercat.Href = none) :
    getAppConfig.loop deps dss env nets = none := by
  induction dss generalizing env nets with
  | nil => cases hds
  | cons d rest ih =>
    unfold getAppConfig.loop
    dsimp only
    cases hd : deps.urlParse d.Hypercat.Href with
    | none => rfl
    | some u =>
      dsimp only
      rcases List.mem_cons.mp hds with h | h
      · subst h
        rw [hd] at hurl
        cases hurl
      · exact ih _ _ h

theorem getAppConfig_nil_url (deps : Deps) (cm : ContainerManager) (sla : SLA) (name : String)
    (netConf : NetworkConfig) (ds : DataSource) (hds : ds ∈ sla.Datasources)
    (hurl : deps.urlParse ds.Hypercat.Href = none) :
    getAppConfig deps cm sla name netConf = none := by
  unfold getAppConfig
  dsimp only
  rw [getAppConfig_loop_nil_url deps _ _ _ ds hds hurl]

/-- C28 fails on the code. The href ":" of the sample broken app does not parse
(the parser of the examples yields no URL for it, as `url.Parse` does):
`getAppConfig` panics on `parsedURL.Hostname()`, `addPermissionsFromSLA`
panics on `datasourceEndpoint.Path`, and for the driver with the url ":" in
its external whitelist `addPermissionsFromSLA` panics on
`parsedURL.Hostname()`; so does the install of either. -/
theorem url_parse_failure_panics :
    sampleDeps.urlParse ":" = none
    ∧ getAppConfig sampleDeps sampleCM sampleBrokenApp "broken" {} = none
    ∧ (addPermissionsFromSLA sampleDeps sampleBrokenApp sampleWorld).panicked = true
    ∧ (addPermissionsFromSLA sampleDeps sampleBrokenDriver sampleWorld).panicked = true
    ∧ (LaunchFromSLA sampleDeps sampleCM sampleBrokenApp true sampleWorld).panicked = true := by
  decide!

/-! ## The target of the proxy -/

theorem splitChars_ne_nil (sep : Char) (s : List Char) : strings.splitChars sep s ≠ [] := by
  induction s with
  | nil => simp [strings.splitChars]
  | cons c rest ih =>
    unfold strings.splitChars
    split
    · simp
    · split <;> simp

theorem splitChars_length (sep : Char) (s : List Char) : 1 ≤ (strings.splitChars sep s).length := by
  have := splitChars_ne_nil sep s
  cases h : strings.splitChars sep s with
  | nil => exact absurd h this
  | cons p ps => simp

/-- A text without the separator is its own only piece. -/
theorem splitChars_none (sep : Char) (s : List Char) (h : sep ∉ s) :
    strings.splitChars sep s = [s] := by
  induction s with
  | nil => rfl
  | cons c rest ih =>
    have hc : c ≠ sep := fun e => h (e ▸ List.mem_cons_self c rest)
    have hr : sep ∉ rest := fun m => h (List.mem_cons_of_mem c m)
    unfold strings.splitChars
    rw [if_neg hc, ih hr]

/-- A piece without the separator, the separator, and a rest: the pieces are
that piece and the pieces of the rest. -/
theorem splitChars_append (sep : Char) (piece rest : List Char) (h : sep ∉ piece) :
    strings.splitChars sep (piece ++ sep :: rest) = piece :: strings.splitChars sep rest := by
  induction piece with
  | nil => simp [strings.splitChars]
  | cons c cs ih =>
    have hc : c ≠ sep := fun e => h (e ▸ List.mem_cons_self c cs)
    have hr : sep ∉ cs := fun m => h (List.mem_cons_of_mem c m)
    rw [List.cons_append, strings.splitChars, if_neg hc, ih hr]

/-- Splitting undoes joining, for pieces that are free of the separator. -/
theorem split_join (seg : String) (segs : List String)
    (h : ∀ s ∈ seg :: segs, '/' ∉ s.data) :
    strings.Split (strings.Join (seg :: segs) "/") '/' = seg :: segs := by
  induction segs generalizing seg with
  | nil =>
    unfold strings.Split strings.Join
    rw [splitChars_none _ _ (h seg (List.mem_cons_self _ _))]
    rfl
  | cons b rest ih =>
    have hb := ih b (fun s hs => h s (List.mem_cons_of_mem _ hs))
    unfold strings.Split at hb ⊢
    unfold strings.Join
    have hd : (seg ++ "/" ++ strings.Join (b :: rest) "/").data
        = seg.data ++ '/' :: (strings.Join (b :: rest) "/").data := by
      simp [String.data_append]
    rw [hd, splitChars_append _ _ _ (h seg (List.mem_cons_self _ _)), List.map_cons, hb]

/-- C27. For every request path the proxy computes a target, without slicing
out of range: the slice `parts[2:]` is taken only when there are two parts or
more.  The target is "https://core-ui:8080/ui/" followed by the parts of the
path after the second, joined by "/"; for the empty path it is the bare
prefix, and for a path "/s1/s2/.../sn" it is the prefix followed by
"s2/.../sn": the first segment is dropped. -/
theorem proxy_target (path : String) :
    (∃ target, proxy.RequestURI path = some target
      ∧ "https://core-ui:8080/ui/".data <+: target.data
      ∧ target = "https://core-ui:8080/ui/"
          ++ strings.Join ((strings.Split path '/').drop 2) "/")
    ∧ (path = "" → proxy.RequestURI path = some "https://core-ui:8080/ui/")
    ∧ (∀ segs : List String, (∀ s ∈ segs, '/' ∉ s.data) →
        path = "/" ++ strings.Join segs "/" →
        proxy.RequestURI path = some ("https://core-ui:8080/ui/" ++ strings.Join segs.tail "/")) := by
  have hgen : ∀ p : String, proxy.RequestURI p = some ("https://core-ui:8080/ui/"
      ++ strings.Join ((strings.Split p '/').drop 2) "/") := by
    intro p
    unfold proxy.RequestURI
    dsimp only
    by_cases hlen : (strings.Split p '/').length < 2
    · rw [if_pos hlen]
      have : (strings.Split p '/').drop 2 = [] := List.drop_eq_nil_of_le (by omega)
      rw [this]
      rfl
    · rw [if_neg hlen]
      unfold sliceFrom
      rw [if_pos (by omega)]
  refine ⟨⟨_, hgen path, ?_, rfl⟩, fun he => ?_, fun segs hsegs hp => ?_⟩
  · rw [String.data_append]
    exact List.prefix_append _ _
  · subst he
    rfl
  · subst hp
    rw [hgen]
    cases segs with
    | nil => rfl
    | cons seg rest =>
      have hs := split_join "" (seg :: rest) (fun s hs => by
        rcases List.mem_cons.mp hs with h | h
        · subst h
          simp
        · exact hsegs s h)
      have hj : strings.Join ("" :: seg :: rest) "/" = "/" ++ strings.Join (seg :: rest) "/" := by
        rw [strings.Join]
        simp
      rw [hj] at hs
      rw [hs]
      rfl

/-- C27 on the path "/core-ui/css/app.css": the segment "core-ui" is dropped. -/
theorem proxy_target_witness :
    proxy.RequestURI ("/" ++ strings.Join ["core-ui", "css", "app.css"] "/")
      = some ("https://core-ui:8080/ui/" ++ strings.Join ["core-ui", "css", "app.css"].tail "/")
    ∧ proxy.RequestURI "" = some "https://core-ui:8080/ui/" :=
  ⟨(proxy_target _).2.2 ["core-ui", "css", "app.css"] (by decide) rfl,
    (proxy_target "").2.1 rfl⟩

/-! ## The secrets of a component -/

theorem SecretList_ok (deps : Deps) (name : String) (w : World) :
    ∃ l, cli.SecretList deps name w = .ok l w := by
  unfold cli.SecretList
  split <;> exact ⟨_, rfl⟩

/-- The calls and the result of `createSecret`: removals, then the creation;
the reference bears the name and the file name asked for, and when the
creation succeeds the runtime holds the secret with the content given. -/
theorem createSecret_spec (deps : Deps) (name data filename : String) (w : World) :
    ∃ R id w1, createSecret deps name data filename w =
        .ok { SecretID := id, SecretName := name
              File := { Name := filename, UID := "0", GID := "0", Mode := 0o444 } } w1 ∧
      w1.log = w.log ++ (R ++ [Call.SecretCreate name data]) ∧
      (∀ c ∈ R, ∃ i, c = Call.SecretRemove i) ∧
      w1.errorOf = w.errorOf ∧
      (w.errorOf (Call.SecretCreate name data) = none →
        ({ ID := id, Name := name, Data := data } : Secret) ∈ w1.secrets) := by
  obtain ⟨l, hl⟩ := SecretList_ok deps name w
  have hok := forRange_ok (fun s : Secret => (do let _ ← cli.SecretRemove s.ID) : Secret → Exec Unit) l
    (fun s w0 => by
      obtain ⟨e, he⟩ := SecretRemove_ok s.ID w0
      dsimp only
      rw [exec_bind_apply, he]
      rfl) w
  have hk := steps_forRange (fun c => ∃ i, c = Call.SecretRemove i)
    (fun s : Secret => (do let _ ← cli.SecretRemove s.ID) : Secret → Exec Unit) l
    (fun s _ => steps_bind (steps_SecretRemove _ _ ⟨_, rfl⟩) (fun _ => steps_pure _ _)) w
  generalize (forRange (fun s : Secret => (do let _ ← cli.SecretRemove s.ID) : Secret → Exec Unit)
    l w).world = w0 at hok hk
  obtain ⟨_, _, herr, R, hlog, hR, _⟩ := hk
  cases hc : w0.errorOf (Call.SecretCreate name data) with
  | some e =>
    refine ⟨R, "", { w0 with log := w0.log ++ [Call.SecretCreate name data] }, ?_, ?_, hR, herr, ?_⟩
    · simp [createSecret, hl, hok, cli.SecretCreate, hc]
    · simp [hlog]
    · intro h
      rw [← herr, hc] at h
      cases h
  | none =>
    refine ⟨R, w0.idOf w0.nextID,
      { w0 with log := w0.log ++ [Call.SecretCreate name data], nextID := w0.nextID + 1
                secrets := w0.secrets ++ [{ ID := w0.idOf w0.nextID, Name := name, Data := data }] },
      ?_, ?_, hR, herr, ?_⟩
    · simp [createSecret, hl, hok, cli.SecretCreate, hc]
    · simp [hlog]
    · intro _
      simp

/-- The result and the calls of `genorateSecrets`. -/
theorem genorateSecrets_spec (deps : Deps) (cm : ContainerManager) (containerName : String)
    (databoxType : DataboxType) (w : World) :
    ∃ certID tokenID token R1 R2 w1,
      genorateSecrets deps cm containerName databoxType w = .ok
        ([{ SecretID := cm.DATABOX_ROOT_CA_ID, SecretName := "DATABOX_ROOT_CA"
            File := { Name := "DATABOX_ROOT_CA", UID := "0", GID := "0", Mode := 0o444 } },
          { SecretID := cm.ZMQ_PUBLIC_KEY_ID, SecretName := "ZMQ_PUBLIC_KEY"
            File := { Name := "ZMQ_PUBLIC_KEY", UID := "0", GID := "0", Mode := 0o444 } },
          { SecretID := certID, SecretName := strings.ToUpper containerName ++ ".pem"
            File := { Name := "DATABOX.pem", UID := "0", GID := "0", Mode := 0o444 } },
          { SecretID := tokenID, SecretName := strings.ToUpper containerName ++ "_KEY"
            File := { Name := "ARBITER_TOKEN", UID := "0", GID := "0", Mode := 0o444 } }]
          ++ (if databoxType = "store" then
            [{ SecretID := cm.ZMQ_PRIVATE_KEY_ID, SecretName := "ZMQ_SECRET_KEY"
               File := { Name := "ZMQ_SECRET_KEY", UID := "0", GID := "0", Mode := 0o444 } }]
            else [])) w1 ∧
      w1.log = w.log ++ (R1 ++ [Call.SecretCreate (strings.ToUpper containerName ++ ".pem")
          (deps.GenCert "./certs/containerManager.crt" containerName ["127.0.0.1"] [containerName])]
        ++ R2 ++ [Call.SecretCreate (strings.ToUpper containerName ++ "_KEY") token,
                  Call.RegesterDataboxComponent containerName token databoxType]) ∧
      (∀ c ∈ R1 ++ R2, ∃ i, c = Call.SecretRemove i) ∧
      (w.errorOf (Call.SecretCreate (strings.ToUpper containerName ++ "_KEY") token) = none →
        ({ ID := tokenID, Name := strings.ToUpper containerName ++ "_KEY", Data := token } : Secret)
          ∈ w1.secrets) := by
  obtain ⟨R1, certID, w1, h1, hlog1, hR1, herr1, _⟩ := createSecret_spec deps
    (strings.ToUpper containerName ++ ".pem")
    (deps.GenCert "./certs/containerManager.crt" containerName ["127.0.0.1"] [containerName])
    "DATABOX.pem" w
  obtain ⟨R2, tokenID, w3, h3, hlog3, hR2, herr3, hsec3⟩ := createSecret_spec deps
    (strings.ToUpper containerName ++ "_KEY") (deps.EncodeToString (w1.entropy w1.entropyUsed))
    "ARBITER_TOKEN" { w1 with entropyUsed := w1.entropyUsed + 1 }
  refine ⟨certID, tokenID, deps.EncodeToString (w1.entropy w1.entropyUsed), R1, R2,
    { w3 with log := w3.log ++ [Call.RegesterDataboxComponent containerName
      (deps.EncodeToString (w1.entropy w1.entropyUsed)) databoxType] }, ?_, ?_, ?_, ?_⟩
  · by_cases hs : databoxType = "store"
    · simp [genorateSecrets, h1, GenerateArbiterToken, h3, RegesterDataboxComponent, hs]
    · simp [genorateSecrets, h1, GenerateArbiterToken, h3, RegesterDataboxComponent, hs]
  · simp [hlog3, hlog1]
  · intro c hc
    rcases List.mem_append.mp hc with h | h
    · exact hR1 c h
    · exact hR2 c h
  · intro h
    exact hsec3 (by rw [herr1]; exact h)

/-- C23. For every component name and type, `genorateSecrets` returns the four
mandatory references, in this order: `DATABOX_ROOT_CA` and `ZMQ_PUBLIC_KEY`
with the shared secret ids, `UPPER(name).pem` mounted as `DATABOX.pem` and
`UPPER(name)_KEY` mounted as `ARBITER_TOKEN`; the reference to the private key
id mounted as `ZMQ_SECRET_KEY` is in the list exactly when the type is
`store`.  The token registered with the arbiter for the name and the type, in
one call, the last, is the content of the secret `UPPER(name)_KEY` created
just before, which the runtime holds when that creation succeeds. -/
theorem genorateSecrets_mandatory (deps : Deps) (cm : ContainerManager) (containerName : String)
    (databoxType : DataboxType) (w : World) :
    ∃ secrets certID tokenID token R1 R2,
      (genorateSecrets deps cm containerName databoxType w).value = some secrets ∧
      [{ SecretID := cm.DATABOX_ROOT_CA_ID, SecretName := "DATABOX_ROOT_CA"
         File := { Name := "DATABOX_ROOT_CA", UID := "0", GID := "0", Mode := 0o444 } },
       { SecretID := cm.ZMQ_PUBLIC_KEY_ID, SecretName := "ZMQ_PUBLIC_KEY"
         File := { Name := "ZMQ_PUBLIC_KEY", UID := "0", GID := "0", Mode := 0o444 } },
       { SecretID := certID, SecretName := strings.ToUpper containerName ++ ".pem"
         File := { Name := "DATABOX.pem", UID := "0", GID := "0", Mode := 0o444 } },
       { SecretID := tokenID, SecretName := strings.ToUpper containerName ++ "_KEY"
         File := { Name := "ARBITER_TOKEN", UID := "0", GID := "0", Mode := 0o444 } }]
        <+: secrets ∧
      (({ SecretID := cm.ZMQ_PRIVATE_KEY_ID, SecretName := "ZMQ_SECRET_KEY"
          File := { Name := "ZMQ_SECRET_KEY", UID := "0", GID := "0", Mode := 0o444 } }
          : SecretReference) ∈ secrets ↔ databoxType = "store") ∧
      ((∃ s ∈ secrets, s.File.Name = "ZMQ_SECRET_KEY") ↔ databoxType = "store") ∧
      secrets.length = (if databoxType = "store" then 5 else 4) ∧
      issued (genorateSecrets deps cm containerName databoxType) w =
        R1 ++ [Call.SecretCreate (strings.ToUpper containerName ++ ".pem")
          (deps.GenCert "./certs/containerManager.crt" containerName ["127.0.0.1"] [containerName])]
        ++ R2 ++ [Call.SecretCreate (strings.ToUpper containerName ++ "_KEY") token,
                  Call.RegesterDataboxComponent containerName token databoxType] ∧
      (∀ c ∈ R1 ++ R2, ∃ i, c = Call.SecretRemove i) ∧
      (w.errorOf (Call.SecretCreate (strings.ToUpper containerName ++ "_KEY") token) = none →
        ({ ID := tokenID, Name := strings.ToUpper containerName ++ "_KEY", Data := token } : Secret)
          ∈ (genorateSecrets deps cm containerName databoxType w).world.secrets) := by
  obtain ⟨certID, tokenID, token, R1, R2, w1, hr, hlog, hR, hsec⟩ :=
    genorateSecrets_spec deps cm containerName databoxType w
  refine ⟨_, certID, tokenID, token, R1, R2, by rw [hr]; rfl, List.prefix_append _ _, ?_, ?_, ?_,
    issued_of_log (by rw [hr]; exact hlog), hR, by rw [hr]; exact hsec⟩
  · by_cases hs : databoxType = "store"
    · simp [hs]
    · simp [hs]
  · by_cases hs : databoxType = "store"
    · simp [hs]
    · simp [hs]
  · by_cases hs : databoxType = "store"
    · simp [hs]
    · simp [hs]

/-! ## The network of a component -/

theorem ContainerList_congr (deps : Deps) (f : ContainerFilter) (w w1 : World)
    (h1 : w1.errorOf = w.errorOf) (h2 : w1.containersAt = w.containersAt) (h3 : w1.now = w.now)
    (h4 : w1.removed = w.removed) (l : List Container)
    (h : (cli.ContainerList deps f w).value = some l) : cli.ContainerList deps f w1 = .ok l w1 := by
  unfold cli.ContainerList at h ⊢
  rw [h1, h2, h3, h4]
  cases he : w.errorOf (Call.ContainerList f) with
  | some e =>
    rw [he] at h
    simp only [Res.value, Option.some.injEq] at h
    rw [h]
  | none =>
    rw [he] at h
    simp only [Res.value, Option.some.injEq] at h
    simp only [h]

theorem NetworkCreate_ok (name : String) (options : NetworkCreate) (w : World) :
    ∃ id w1, cli.NetworkCreate name options w = .ok id w1 ∧
      w1.log = w.log ++ [Call.NetworkCreate name options] ∧ w1.errorOf = w.errorOf ∧
      w1.containersAt = w.containersAt ∧ w1.now = w.now ∧ w1.removed = w.removed := by
  unfold cli.NetworkCreate
  dsimp only
  split <;> exact ⟨_, _, rfl, rfl, rfl, rfl, rfl, rfl⟩

theorem NetworkConnect_ok (networkID containerID : String) (w : World) :
    ∃ e w1, cli.NetworkConnect networkID containerID w = .ok e w1 ∧
      w1.log = w.log ++ [Call.NetworkConnect networkID containerID] := by
  unfold cli.NetworkConnect
  dsimp only
  split <;> exact ⟨_, _, rfl, rfl⟩

/-- The three ways `PreConfig` ends: the network is listed and is inspected,
with no call that changes anything; or it is created, and then either no
container named `databox-network` is listed and `coreNetwork[0]` panics, or
the first one listed is connected to the network. -/
theorem PreConfig_outcome (deps : Deps) (name : String) (sla : SLA) (w : World) :
    (∃ first rest n, (cli.NetworkList deps (name ++ "-network") w).value = some (first :: rest) ∧
      cli.NetworkInspect first.ID w = .ok n w ∧
      PreConfig deps name sla w =
        .ok { NetworkName := name ++ "-network", DNS := findCoreNetworkIP n.Containers } w)
    ∨ ((cli.NetworkList deps (name ++ "-network") w).value = some [] ∧
      ∃ id w1 network,
        cli.NetworkCreate (name ++ "-network")
          { Internal := if sla.DataboxType = "driver" then false else true, Driver := "overlay"
            Attachable := true, Labels := [("databox.type", "databox-network")] } w = .ok id w1 ∧
        cli.NetworkInspect id w1 = .ok network w1 ∧
        (((cli.ContainerList deps (ContainerFilter.name "databox-network") w).value = some [] ∧
            PreConfig deps name sla w = .panic w1)
          ∨ ∃ core rest e w2 n3,
            (cli.ContainerList deps (ContainerFilter.name "databox-network") w).value
              = some (core :: rest) ∧
            cli.NetworkConnect network.ID core.ID w1 = .ok e w2 ∧
            cli.NetworkInspect id { w2 with now := w2.now + 5 }
              = .ok n3 { w2 with now := w2.now + 5 } ∧
            PreConfig deps name sla w =
              .ok { NetworkName := name ++ "-network", DNS := findCoreNetworkIP n3.Containers }
                { w2 with now := w2.now + 5 })) := by
  obtain ⟨l, hl⟩ := NetworkList_ok deps (name ++ "-network") w
  cases l with
  | cons first rest =>
    obtain ⟨n, hn⟩ := NetworkInspect_ok first.ID w
    exact Or.inl ⟨first, rest, n, by rw [hl]; rfl, hn,
      by simp [PreConfig, hl, PreConfig.network, hn]⟩
  | nil =>
    refine Or.inr ⟨by rw [hl]; rfl, ?_⟩
    obtain ⟨id, w1, hc, _, he1, hc1, hn1, hr1⟩ := NetworkCreate_ok (name ++ "-network")
      { Internal := if sla.DataboxType = "driver" then false else true, Driver := "overlay"
        Attachable := true, Labels := [("databox.type", "databox-network")] } w
    obtain ⟨network, hi⟩ := NetworkInspect_ok id w1
    refine ⟨id, w1, network, hc, hi, ?_⟩
    obtain ⟨cl, hcl, _⟩ := ContainerList_ok deps (ContainerFilter.name "databox-network") w
    have hcl1 := ContainerList_congr deps (ContainerFilter.name "databox-network") w w1 he1 hc1 hn1
      hr1 cl (by rw [hcl]; rfl)
    cases cl with
    | nil =>
      exact Or.inl ⟨by rw [hcl]; rfl,
        by simp only [PreConfig, exec_bind_apply, hl, PreConfig.network, hc, hi, hcl1, Exec.panic]⟩
    | cons core rest =>
      obtain ⟨e, w2, h2, _⟩ := NetworkConnect_ok network.ID core.ID w1
      obtain ⟨n3, h3⟩ := NetworkInspect_ok id { w2 with now := w2.now + 5 }
      exact Or.inr ⟨core, rest, e, w2, n3, by rw [hcl]; rfl, h2, h3,
        by simp only [PreConfig, exec_bind_apply, exec_pure_apply, hl, PreConfig.network, hc, hi, hcl1, h2,
          Sleep, h3]⟩

theorem NetworkOfService_loop_name (serviceName : String) (nets : List NetworkResource)
    (cfg : PostNetworkConfig) (w : World) :
    ∃ r, NetworkOfService.loop serviceName nets cfg w = .ok r w ∧
      r.NetworkName = cfg.NetworkName := by
  induction nets generalizing cfg with
  | nil => exact ⟨cfg, rfl, rfl⟩
  | cons net rest ih =>
    obtain ⟨n, hn⟩ := NetworkInspect_ok net.ID w
    unfold NetworkOfService.loop
    rw [exec_bind_apply, hn]
    dsimp only
    cases NetworkOfService.endpoint serviceName n.Containers with
    | none => exact ih _
    | some ip => exact ih _

theorem NetworkOfService_name (deps : Deps) (service : Service) (serviceName : String) (w : World) :
    ∃ r, NetworkOfService deps service serviceName w = .ok r w ∧
      r.1.NetworkName = serviceName ++ "-network" := by
  obtain ⟨l, hl⟩ := NetworkList_ok deps (serviceName ++ "-network") w
  unfold NetworkOfService
  rw [exec_bind_apply, hl]
  cases l with
  | nil => exact ⟨_, rfl, rfl⟩
  | cons n ns =>
    obtain ⟨r, hr, hname⟩ := NetworkOfService_loop_name serviceName (n :: ns)
      { NetworkName := serviceName ++ "-network" } w
    dsimp only
    rw [exec_bind_apply, hr]
    exact ⟨_, rfl, hname⟩

/-- C24. Whenever `PreConfig name sla` returns, the network name of its
descriptor is `name-network`, the name `NetworkOfService` derives for the
service `name`; and it does return unless the network is not listed and no
container named `databox-network` is listed either.  A listed network is
inspected and nothing is created.  Otherwise the first call is the creation
of `name-network` as an overlay, attachable network labelled
`databox.type=databox-network`, whose internal flag is false exactly when the
type of the SLA is `driver`; the only other call is the connection of the
daemon. -/
theorem PreConfig_network_name (deps : Deps) (name : String) (sla : SLA) (w : World) :
    (∀ netConf, (PreConfig deps name sla w).value = some netConf →
      netConf.NetworkName = name ++ "-network")
    ∧ ((PreConfig deps name sla w).value = none ↔
        ((cli.NetworkList deps (name ++ "-network") w).value = some [] ∧
         (cli.ContainerList deps (ContainerFilter.name "databox-network") w).value = some []))
    ∧ (∀ service w1, ∃ r, NetworkOfService deps service name w1 = .ok r w1 ∧
        r.1.NetworkName = name ++ "-network")
    ∧ (∀ first rest, (cli.NetworkList deps (name ++ "-network") w).value = some (first :: rest) →
        issued (PreConfig deps name sla) w = [])
    ∧ ((cli.NetworkList deps (name ++ "-network") w).value = some [] →
        ∃ T, issued (PreConfig deps name sla) w =
            Call.NetworkCreate (name ++ "-network")
              { Internal := decide (sla.DataboxType ≠ "driver"), Driver := "overlay"
                Attachable := true, Labels := [("databox.type", "databox-network")] } :: T ∧
          ∀ c ∈ T, ∃ n cid, c = Call.NetworkConnect n cid)
    ∧ (∀ n o, Call.NetworkCreate n o ∈ issued (PreConfig deps name sla) w →
        (o.Internal = false ↔ sla.DataboxType = "driver")) := by
  have hflag : (if sla.DataboxType = "driver" then false else true)
      = decide (sla.DataboxType ≠ "driver") := by
    by_cases hd : sla.DataboxType = "driver" <;> simp [hd]
  have hcreated : (cli.NetworkList deps (name ++ "-network") w).value = some [] →
      ∃ T, issued (PreConfig deps name sla) w =
          Call.NetworkCreate (name ++ "-network")
            { Internal := decide (sla.DataboxType ≠ "driver"), Driver := "overlay"
              Attachable := true, Labels := [("databox.type", "databox-network")] } :: T ∧
        ∀ c ∈ T, ∃ n cid, c = Call.NetworkConnect n cid := by
    intro hnil
    rcases PreConfig_outcome deps name sla w with ⟨first, rest, n, hl, _⟩ | ⟨_, id, w1, network, hc, hi, h⟩
    · rw [hnil] at hl
      cases hl
    · rw [hflag] at hc
      obtain ⟨id', w1', hc', hlog1, _⟩ := NetworkCreate_ok (name ++ "-network")
        { Internal := decide (sla.DataboxType ≠ "driver"), Driver := "overlay"
          Attachable := true, Labels := [("databox.type", "databox-network")] } w
      rw [hc] at hc'
      simp only [Res.ok.injEq] at hc'
      obtain ⟨_, hw⟩ := hc'
      subst hw
      rcases h with ⟨_, hr⟩ | ⟨core, rest, e, w2, n3, _, h2, _, hr⟩
      · exact ⟨[], issued_of_log (by rw [hr]; exact hlog1), by simp⟩
      · obtain ⟨e', w2', h2', hlog2⟩ := NetworkConnect_ok network.ID core.ID w1
        rw [h2] at h2'
        simp only [Res.ok.injEq] at h2'
        obtain ⟨_, hw⟩ := h2'
        subst hw
        refine ⟨[Call.NetworkConnect network.ID core.ID],
          issued_of_log (by rw [hr]; simp [Res.world, hlog2, hlog1]), ?_⟩
        intro c hc
        simp only [List.mem_singleton] at hc
        exact ⟨_, _, hc⟩
  have hlisted : ∀ first rest,
      (cli.NetworkList deps (name ++ "-network") w).value = some (first :: rest) →
      issued (PreConfig deps name sla) w = [] := by
    intro first rest hl
    rcases PreConfig_outcome deps name sla w with ⟨_, _, n, _, _, hr⟩ | ⟨hnil, _⟩
    · exact issued_of_log (by rw [hr]; simp [Res.world])
    · rw [hnil] at hl
      cases hl
  refine ⟨fun netConf hv => ?_, ?_, fun service w1 => NetworkOfService_name deps service name w1,
    hlisted, hcreated, fun n o hmem => ?_⟩
  · rcases PreConfig_outcome deps name sla w with ⟨_, _, n, _, _, hr⟩
      | ⟨_, id, w1, network, _, _, ⟨_, hr⟩ | ⟨core, rest, e, w2, n3, _, _, _, hr⟩⟩
    · rw [hr] at hv
      simp only [Res.value, Option.some.injEq] at hv
      rw [← hv]
    · rw [hr] at hv
      cases hv
    · rw [hr] at hv
      simp only [Res.value, Option.some.injEq] at hv
      rw [← hv]
  · rcases PreConfig_outcome deps name sla w with ⟨_, _, n, hl, _, hr⟩
      | ⟨hl, id, w1, network, _, _, ⟨hcl, hr⟩ | ⟨core, rest, e, w2, n3, hcl, _, _, hr⟩⟩
    · rw [hr, hl]
      simp [Res.value]
    · rw [hr]
      exact ⟨fun _ => ⟨hl, hcl⟩, fun _ => rfl⟩
    · rw [hr, hcl]
      simp [Res.value]
  · obtain ⟨l, hl⟩ := NetworkList_ok deps (name ++ "-network") w
    cases l with
    | cons first rest =>
      rw [hlisted first rest (by rw [hl]; rfl)] at hmem
      cases hmem
    | nil =>
      obtain ⟨T, hT, hconn⟩ := hcreated (by rw [hl]; rfl)
      rw [hT] at hmem
      rcases List.mem_cons.mp hmem with h | h
      · simp only [Call.NetworkCreate.injEq] at h
        rw [h.2]
        simp
      · obtain ⟨_, _, hc⟩ := hconn _ h
        cases hc

/-- C24 on the sample runtime, where no network exists yet: the network of the
sample driver is created with the internal flag unset, that of the sample app
with the flag set. -/
theorem PreConfig_network_name_witness :
    (∃ T, issued (PreConfig sampleDeps "driver-twitter" sampleDriver) sampleWorld =
        Call.NetworkCreate ("driver-twitter" ++ "-network")
          { Internal := decide (sampleDriver.DataboxType ≠ "driver"), Driver := "overlay"
            Attachable := true, Labels := [("databox.type", "databox-network")] } :: T ∧
      ∀ c ∈ T, ∃ n cid, c = Call.NetworkConnect n cid)
    ∧ (PreConfig sampleDeps "weather" sampleApp sampleWorld).value
        = some { NetworkName := "weather-network", DNS := "10.0.0.2" }
    ∧ ({ NetworkName := "weather-network", DNS := "10.0.0.2" } : NetworkConfig).NetworkName
        = "weather" ++ "-network" :=
  ⟨(PreConfig_network_name sampleDeps "driver-twitter" sampleDriver sampleWorld).2.2.2.2.1
      (by decide),
    by decide,
    (PreConfig_network_name sampleDeps "weather" sampleApp sampleWorld).1 _ (by decide)⟩

theorem findCoreNetworkIP_none (l : List EndpointResource)
    (h : ∀ c ∈ l, c.Name ≠ "databox-network") : findCoreNetworkIP l = "" := by
  induction l with
  | nil => rfl
  | cons c rest ih =>
    unfold findCoreNetworkIP
    rw [if_neg (h c (List.mem_cons_self _ _))]
    exact ih (fun x hx => h x (List.mem_cons_of_mem _ hx))

theorem findCoreNetworkIP_first (pre post : List EndpointResource) (c : EndpointResource)
    (hpre : ∀ p ∈ pre, p.Name ≠ "databox-network") (hc : c.Name = "databox-network") :
    findCoreNetworkIP (pre ++ c :: post) = beforeSlash c.IPv4Address := by
  induction pre with
  | nil => simp [findCoreNetworkIP, hc]
  | cons p rest ih =>
    rw [List.cons_append, findCoreNetworkIP, if_neg (hpre p (List.mem_cons_self _ _))]
    exact ih (fun x hx => hpre x (List.mem_cons_of_mem _ hx))

theorem find_fresh_network (l : List NetworkResource) (id : String) (x : NetworkResource)
    (hfresh : ∀ n ∈ l, n.ID ≠ id) (hx : x.ID = id) :
    (l ++ [x]).find? (fun n => n.ID == id) = some x := by
  induction l with
  | nil => simp [hx]
  | cons n rest ih =>
    have hn : (n.ID == id) = false := by simpa using hfresh n (List.mem_cons_self _ _)
    rw [List.cons_append, List.find?_cons, hn]
    exact ih (fun m hm => hfresh m (List.mem_cons_of_mem _ hm))

theorem map_fresh_network (l : List NetworkResource) (id : String)
    (g : NetworkResource → NetworkResource) (hfresh : ∀ n ∈ l, n.ID ≠ id) :
    l.map (fun n => if n.ID == id then g n else n) = l := by
  induction l with
  | nil => rfl
  | cons n rest ih =>
    have hn : (n.ID == id) = false := by simpa using hfresh n (List.mem_cons_self _ _)
    rw [List.map_cons, hn, ih (fun m hm => hfresh m (List.mem_cons_of_mem _ hm))]
    rfl

/-- The run of `PreConfig` that creates the network, when the runtime accepts
the creation, the inspections and the connection and gives the network an id
no other network has. -/
theorem PreConfig_created (deps : Deps) (name : String) (sla : SLA) (w : World)
    (core : Container) (rest : List Container) (internal : Bool)
    (hint : internal = (if sla.DataboxType = "driver" then false else true))
    (hl : (cli.NetworkList deps (name ++ "-network") w).value = some [])
    (hcl : (cli.ContainerList deps (ContainerFilter.name "databox-network") w).value
      = some (core :: rest))
    (hcreate : w.errorOf (Call.NetworkCreate (name ++ "-network")
      { Internal := internal, Driver := "overlay", Attachable := true
        Labels := [("databox.type", "databox-network")] }) = none)
    (hinspect : w.errorOf (Call.NetworkInspect (w.idOf w.nextID)) = none)
    (hconnect : w.errorOf (Call.NetworkConnect (w.idOf w.nextID) core.ID) = none)
    (hfresh : ∀ n ∈ w.networks, n.ID ≠ w.idOf w.nextID) :
    PreConfig deps name sla w = .ok
      { NetworkName := name ++ "-network"
        DNS := findCoreNetworkIP [w.endpointOf (w.idOf w.nextID) core.ID] }
      { w with
        log := w.log ++ [Call.NetworkCreate (name ++ "-network")
            { Internal := internal, Driver := "overlay", Attachable := true
              Labels := [("databox.type", "databox-network")] },
          Call.NetworkConnect (w.idOf w.nextID) core.ID]
        now := w.now + 5
        nextID := w.nextID + 1
        networks := w.networks ++ [{ ID := w.idOf w.nextID, Name := name ++ "-network"
                                     Internal := internal, Driver := "overlay", Attachable := true
                                     Labels := [("databox.type", "databox-network")]
                                     Containers := [w.endpointOf (w.idOf w.nextID) core.ID] }] } := by
  obtain ⟨l, hl'⟩ := NetworkList_ok deps (name ++ "-network") w
  rw [hl'] at hl
  simp only [Res.value, Option.some.injEq] at hl
  subst hl
  subst hint
  have hcl1 := fun w1 h1 h2 h3 h4 =>
    ContainerList_congr deps (ContainerFilter.name "databox-network") w w1 h1 h2 h3 h4 _ hcl
  simp only [PreConfig, exec_bind_apply, exec_pure_apply, hl', PreConfig.network,
    cli.NetworkCreate, hcreate]
  rw [show cli.NetworkInspect (w.idOf w.nextID) _ = Res.ok _ _ from by
    unfold cli.NetworkInspect
    simp only [hinspect]
    rw [find_fresh_network _ _ _ hfresh rfl]]
  simp only []
  rw [hcl1]
  rotate_left
  · rfl
  · rfl
  · rfl
  · rfl
  simp only [exec_bind_apply, cli.NetworkConnect, hconnect, Sleep]
  rw [show cli.NetworkInspect (w.idOf w.nextID) _ = Res.ok _ _ from by
    unfold cli.NetworkInspect
    simp only [hinspect, List.map_append, List.map_cons, List.map_nil, beq_self_eq_true, if_true,
      map_fresh_network _ _ _ hfresh]
    rw [find_fresh_network _ _ _ hfresh rfl]]
  simp

/-- C25 fails on the code. On the sample runtime where the network
`weather-network` exists and the daemon, which runs as the container `c0`, is
not attached to it, `PreConfig` issues no call: after it the network still has
no endpoint, and the address returned is the empty string. -/
theorem PreConfig_existing_network_not_attached :
    (cli.ContainerList sampleDeps (ContainerFilter.name "databox-network")
        sampleWorldWithNetwork).value = some [{ ID := "c0", Names := ["/databox-network"] }]
    ∧ (sampleWorldWithNetwork.networks.map (fun n => (n.Name, n.Containers)))
        = [("weather-network", [])]
    ∧ issued (PreConfig sampleDeps "weather" sampleApp) sampleWorldWithNetwork = []
    ∧ ((PreConfig sampleDeps "weather" sampleApp sampleWorldWithNetwork).world.networks.map
        (fun n => (n.Name, n.Containers))) = [("weather-network", [])]
    ∧ (PreConfig sampleDeps "weather" sampleApp sampleWorldWithNetwork).value
        = some { NetworkName := "weather-network", DNS := "" } := by
  decide

/-- C25, amended. When the network `name-network` is listed, `PreConfig` only
inspects it and changes nothing: the address returned is that of the first
endpoint named `databox-network` the network already has, up to the first
"/", and the empty string when it has none.  When the network is not listed
and a container named `databox-network` is, and the runtime accepts the
creation, the inspections and the connection (the new network having an id of
its own), `PreConfig` creates the network and connects the first such
container to it: the network then has the endpoint recorded for that
container, and the address returned is that of this endpoint up to the first
"/" when the endpoint bears the name `databox-network`. -/
theorem PreConfig_attaches_on_creation (deps : Deps) (name : String) (sla : SLA) (w : World) :
    (∀ first rest, (cli.NetworkList deps (name ++ "-network") w).value = some (first :: rest) →
      ∃ n, cli.NetworkInspect first.ID w = .ok n w ∧
        PreConfig deps name sla w =
          .ok { NetworkName := name ++ "-network", DNS := findCoreNetworkIP n.Containers } w ∧
        ((∀ c ∈ n.Containers, c.Name ≠ "databox-network") → findCoreNetworkIP n.Containers = "") ∧
        (∀ pre c post, n.Containers = pre ++ c :: post →
          (∀ p ∈ pre, p.Name ≠ "databox-network") → c.Name = "databox-network" →
          findCoreNetworkIP n.Containers = beforeSlash c.IPv4Address))
    ∧ (∀ core rest,
      (cli.NetworkList deps (name ++ "-network") w).value = some [] →
      (cli.ContainerList deps (ContainerFilter.name "databox-network") w).value
        = some (core :: rest) →
      w.errorOf (Call.NetworkCreate (name ++ "-network")
        { Internal := if sla.DataboxType = "driver" then false else true, Driver := "overlay"
          Attachable := true, Labels := [("databox.type", "databox-network")] }) = none →
      w.errorOf (Call.NetworkInspect (w.idOf w.nextID)) = none →
      w.errorOf (Call.NetworkConnect (w.idOf w.nextID) core.ID) = none →
      (∀ n ∈ w.networks, n.ID ≠ w.idOf w.nextID) →
      issued (PreConfig deps name sla) w =
        [Call.NetworkCreate (name ++ "-network")
          { Internal := if sla.DataboxType = "driver" then false else true, Driver := "overlay"
            Attachable := true, Labels := [("databox.type", "databox-network")] },
         Call.NetworkConnect (w.idOf w.nextID) core.ID]
      ∧ (∃ n ∈ (PreConfig deps name sla w).world.networks, n.ID = w.idOf w.nextID ∧
          n.Name = name ++ "-network" ∧
          n.Containers = [w.endpointOf (w.idOf w.nextID) core.ID])
      ∧ (PreConfig deps name sla w).value = some
          { NetworkName := name ++ "-network"
            DNS := if (w.endpointOf (w.idOf w.nextID) core.ID).Name = "databox-network" then
              beforeSlash (w.endpointOf (w.idOf w.nextID) core.ID).IPv4Address else "" }) := by
  refine ⟨fun first rest hl => ?_, fun core rest hl hcl hcreate hinspect hconnect hfresh => ?_⟩
  · rcases PreConfig_outcome deps name sla w with ⟨f, r, n, hl', hn, hr⟩ | ⟨hnil, _⟩
    · rw [hl] at hl'
      simp only [Option.some.injEq, List.cons.injEq] at hl'
      obtain ⟨hf, _⟩ := hl'
      subst hf
      exact ⟨n, hn, hr, findCoreNetworkIP_none _,
        fun pre c post hc hpre hname => by rw [hc]; exact findCoreNetworkIP_first pre post c hpre hname⟩
    · rw [hnil] at hl
      cases hl
  · have hr := PreConfig_created deps name sla w core rest _ rfl hl hcl hcreate hinspect hconnect
      hfresh
    refine ⟨issued_of_log (by rw [hr]; rfl), ?_, ?_⟩
    · rw [hr]
      exact ⟨_, List.mem_append_right _ (List.mem_singleton_self _), rfl, rfl, rfl⟩
    · rw [hr]
      simp only [Res.value, findCoreNetworkIP]

/-- C25 on the sample runtime: without a network `PreConfig` creates it and
connects the daemon `c0`, and returns the address of the daemon; with the
network there already it returns the address the inspection finds. -/
theorem PreConfig_attaches_on_creation_witness :
    (issued (PreConfig sampleDeps "weather" sampleApp) sampleWorld =
        [Call.NetworkCreate ("weather" ++ "-network")
          { Internal := if sampleApp.DataboxType = "driver" then false else true
            Driver := "overlay", Attachable := true
            Labels := [("databox.type", "databox-network")] },
         Call.NetworkConnect (sampleWorld.idOf sampleWorld.nextID)
           ({ ID := "c0", Names := ["/databox-network"] } : Container).ID]
      ∧ (∃ n ∈ (PreConfig sampleDeps "weather" sampleApp sampleWorld).world.networks,
          n.ID = sampleWorld.idOf sampleWorld.nextID ∧ n.Name = "weather" ++ "-network" ∧
          n.Containers = [sampleWorld.endpointOf (sampleWorld.idOf sampleWorld.nextID)
            ({ ID := "c0", Names := ["/databox-network"] } : Container).ID])
      ∧ (PreConfig sampleDeps "weather" sampleApp sampleWorld).value = some
          { NetworkName := "weather" ++ "-network"
            DNS := if (sampleWorld.endpointOf (sampleWorld.idOf sampleWorld.nextID)
                ({ ID := "c0", Names := ["/databox-network"] } : Container).ID).Name
                  = "databox-network" then
              beforeSlash (sampleWorld.endpointOf (sampleWorld.idOf sampleWorld.nextID)
                ({ ID := "c0", Names := ["/databox-network"] } : Container).ID).IPv4Address
              else "" })
    ∧ beforeSlash (sampleWorld.endpointOf (sampleWorld.idOf sampleWorld.nextID) "c0").IPv4Address
        = "10.0.0.2" :=
  ⟨(PreConfig_attaches_on_creation sampleDeps "weather" sampleApp sampleWorld).2
      { ID := "c0", Names := ["/databox-network"] } [] (by decide) (by decide) (by decide)
      (by decide) (by decide) (by decide),
    by decide⟩

/-! ## The peers of a component -/

/-- The keys of a Go map after `m[key] = value`: a new key is added once, a
key already there is not added again. -/
theorem mapSet_keys (m : List (String × String)) (key value : String) :
    (mapSet m key value).map Prod.fst =
      if key ∈ m.map Prod.fst then m.map Prod.fst else m.map Prod.fst ++ [key] := by
  unfold mapSet
  by_cases h : key ∈ m.map Prod.fst
  · have hany : m.any (fun kv => kv.1 == key) = true := by
      rw [List.any_eq_true]
      obtain ⟨kv, hkv, hk⟩ := List.mem_map.mp h
      exact ⟨kv, hkv, by simp [hk]⟩
    rw [if_pos hany, if_pos h, List.map_map]
    apply List.map_congr_left
    intro kv _
    by_cases hk : kv.1 = key
    · simp [hk]
    · simp [hk]
  · have hany : ¬ m.any (fun kv => kv.1 == key) = true := by
      rw [List.any_eq_true]
      rintro ⟨kv, hkv, hk⟩
      exact h (List.mem_map.mpr ⟨kv, hkv, by simpa using hk⟩)
    rw [if_neg hany, if_neg h, List.map_append]
    rfl

theorem mapSet_keys_nodup (m : List (String × String)) (key value : String)
    (h : (m.map Prod.fst).Nodup) : ((mapSet m key value).map Prod.fst).Nodup := by
  rw [mapSet_keys]
  split
  · exact h
  · rename_i hk
    rw [List.nodup_append]
    refine ⟨h, List.nodup_singleton _, ?_⟩
    intro a ha hb
    simp only [List.mem_singleton] at hb
    exact hk (hb ▸ ha)

theorem mapSet_keys_mem (m : List (String × String)) (key value p : String) :
    p ∈ (mapSet m key value).map Prod.fst ↔ p ∈ m.map Prod.fst ∨ p = key := by
  rw [mapSet_keys]
  split
  · rename_i hk
    constructor
    · exact fun h => Or.inl h
    · rintro (h | h)
      · exact h
      · exact h ▸ hk
  · simp

/-- The keys of the map the datasource loop of `getAppConfig` leaves: the
keys it started with and the hostname of every href, each once. -/
theorem getAppConfig_loop_keys (deps : Deps) (dss : List DataSource) :
    ∀ (env : List String) (m : List (String × String)) (env1 : List String)
      (m1 : List (String × String)),
      getAppConfig.loop deps dss env m = some (env1, m1) → (m.map Prod.fst).Nodup →
      (m1.map Prod.fst).Nodup ∧
      ∀ p, p ∈ m1.map Prod.fst ↔
        (p ∈ m.map Prod.fst ∨
          ∃ ds ∈ dss, ∃ u, deps.urlParse ds.Hypercat.Href = some u ∧ u.Hostname = p) := by
  induction dss with
  | nil =>
    intro env m env1 m1 h hn
    simp only [getAppConfig.loop, Option.some.injEq, Prod.mk.injEq] at h
    obtain ⟨_, hm⟩ := h
    subst hm
    exact ⟨hn, fun p => by simp⟩
  | cons d rest ih =>
    intro env m env1 m1 h hn
    unfold getAppConfig.loop at h
    dsimp only at h
    cases hd : deps.urlParse d.Hypercat.Href with
    | none => rw [hd] at h; cases h
    | some u =>
      rw [hd] at h
      dsimp only at h
      obtain ⟨hn1, hmem⟩ := ih _ _ _ _ h (mapSet_keys_nodup m u.Hostname u.Hostname hn)
      refine ⟨hn1, fun p => ?_⟩
      rw [hmem p, mapSet_keys_mem]
      constructor
      · rintro ((h1 | h1) | ⟨ds, hds, v, hv, hp⟩)
        · exact Or.inl h1
        · exact Or.inr ⟨d, List.mem_cons_self _ _, u, hd, h1.symm⟩
        · exact Or.inr ⟨ds, List.mem_cons_of_mem _ hds, v, hv, hp⟩
      · rintro (h1 | ⟨ds, hds, v, hv, hp⟩)
        · exact Or.inl (Or.inl h1)
        · rcases List.mem_cons.mp hds with e | e
          · subst e
            rw [hd] at hv
            simp only [Option.some.injEq] at hv
            subst hv
            exact Or.inl (Or.inr hp.symm)
          · exact Or.inr ⟨ds, e, v, hv, hp⟩

theorem getAppConfig_loop_some (deps : Deps) (dss : List DataSource)
    (h : ∀ ds ∈ dss, deps.urlParse ds.Hypercat.Href ≠ none) :
    ∀ (env : List String) (m : List (String × String)),
      ∃ r, getAppConfig.loop deps dss env m = some r := by
  induction dss with
  | nil => exact fun env m => ⟨_, rfl⟩
  | cons d rest ih =>
    intro env m
    unfold getAppConfig.loop
    dsimp only
    cases hd : deps.urlParse d.Hypercat.Href with
    | none => exact absurd hd (h d (List.mem_cons_self _ _))
    | some u => exact ih (fun ds hds => h ds (List.mem_cons_of_mem _ hds)) _ _

/-- The networks `getAppConfig` asks to connect: `arbiter`, `export-service`
and the hostname of every datasource href, each once. -/
theorem getAppConfig_peers (deps : Deps) (cm : ContainerManager) (sla : SLA) (name : String)
    (netConf : NetworkConfig) (service : ServiceSpec) (nets : List String)
    (h : getAppConfig deps cm sla name netConf = some (service, nets)) :
    nets.Nodup ∧ ∀ p, p ∈ nets ↔
      (p = "arbiter" ∨ p = "export-service" ∨
        ∃ ds ∈ sla.Datasources, ∃ u, deps.urlParse ds.Hypercat.Href = some u ∧ u.Hostname = p) := by
  unfold getAppConfig at h
  dsimp only at h
  split at h
  · cases h
  · rename_i env m hloop
    simp only [Option.some.injEq, Prod.mk.injEq] at h
    obtain ⟨_, hn⟩ := h
    subst hn
    obtain ⟨hnodup, hmem⟩ := getAppConfig_loop_keys deps _ _ _ _ _ hloop (by decide)
    refine ⟨hnodup, fun p => ?_⟩
    rw [hmem p]
    simp only [List.map_cons, List.map_nil, List.mem_cons, List.mem_singleton, List.not_mem_nil,
      or_false, or_assoc]

/-- Up to the request to connect the endpoints, the preparation of an install
makes no request to the core-network daemon; that request carries the name of
the SLA and the networks the `switch` on the type has listed. -/
theorem prepare_connects (deps : Deps) (cm : ContainerManager) (sla : SLA) (w : World)
    (netConf : NetworkConfig) (service : ServiceSpec) (requiredNetworks : List String)
    (hpre : (PreConfig deps sla.Name sla w).value = some netConf)
    (hcfg : LaunchFromSLA.config deps cm sla sla.Name netConf
      = some (some (service, requiredNetworks)))
    (himg : (imageExists service.TaskTemplate.ContainerSpec.Image
        (pullImageIfRequired service.TaskTemplate.ContainerSpec.Image cm.Options.DefaultRegistry
          cm.Options.DefaultRegistryHost (PreConfig deps sla.Name sla w).world).world).value
        = some true) :
    ∃ T1 T2, (LaunchFromSLA.prepare deps cm sla w).world.log = w.log ++ (T1 ++
        Call.Post "https://databox-network:8080/connect"
          (PostData.connect sla.Name requiredNetworks) :: T2) ∧
      ∀ c ∈ T1, c.isPost = false := by
  have hk1 := steps_PreConfig (fun c => c.isPost = false) deps sla.Name sla
    (fun _ _ => rfl) (fun _ _ => rfl) w
  have h1 := res_value_eq_some hpre
  generalize (PreConfig deps sla.Name sla w).world = w1 at h1 himg hk1
  have hk2 := steps_pullImageIfRequired (fun c => c.isPost = false)
    service.TaskTemplate.ContainerSpec.Image cm.Options.DefaultRegistry
    cm.Options.DefaultRegistryHost rfl w1
  have h2 := pullImageIfRequired_ok service.TaskTemplate.ContainerSpec.Image
    cm.Options.DefaultRegistry cm.Options.DefaultRegistryHost w1
  generalize (pullImageIfRequired service.TaskTemplate.ContainerSpec.Image
    cm.Options.DefaultRegistry cm.Options.DefaultRegistryHost w1).world = w2 at h2 himg hk2
  obtain ⟨b, h3⟩ := imageExists_world service.TaskTemplate.ContainerSpec.Image w2
  rw [h3] at himg
  simp only [Res.value, Option.some.injEq] at himg
  subst himg
  have hk4 := steps_genorateSecrets (fun c => c.isPost = false) deps cm sla.Name sla.DataboxType
    (fun _ _ => rfl) (fun _ => rfl) (fun _ _ _ => rfl) w2
  obtain ⟨_, _, _, _, _, w4, h4, _⟩ := genorateSecrets_spec deps cm sla.Name sla.DataboxType w2
  rw [h4] at hk4
  simp only [Res.world] at hk4
  obtain ⟨e5, h5⟩ := post_ok "ConnectEndpoints" (PostData.connect sla.Name requiredNetworks)
    "https://databox-network:8080/connect" w4
  obtain ⟨_, _, _, T1, hlog1, hq1, _⟩ := keeps_trans (keeps_trans hk1 hk2) hk4
  have hk6 := steps_requiredStore (fun _ => True) deps cm sla
    (if sla.ResourceRequirements.Store ≠ "" then sla.Name ++ "-" ++ sla.ResourceRequirements.Store
     else "") netConf
    (fun _ _ => trivial) (fun _ => trivial) (fun _ _ _ => trivial) (fun _ => trivial)
    (fun _ _ _ => trivial)
    { w4 with log := w4.log ++ [Call.Post "https://databox-network:8080/connect"
      (PostData.connect sla.Name requiredNetworks)] }
  unfold LaunchFromSLA.prepare
  simp only [exec_bind_apply, h1, hcfg, h2, h3, Bool.not_true, Bool.false_eq_true, if_false, h4,
    ConnectEndpoints, h5]
  cases h6 : LaunchFromSLA.requiredStore deps cm sla
      (if sla.ResourceRequirements.Store ≠ "" then sla.Name ++ "-" ++ sla.ResourceRequirements.Store
       else "") netConf
      { w4 with log := w4.log ++ [Call.Post "https://databox-network:8080/connect"
        (PostData.connect sla.Name requiredNetworks)] } with
  | panic w6 =>
    rw [h6] at hk6
    obtain ⟨_, _, _, T6, hlog6, _, _⟩ := hk6
    simp only [Res.world] at hlog6 ⊢
    exact ⟨T1, T6, by rw [hlog6, hlog1]; simp, hq1⟩
  | ok u w6 =>
    rw [h6] at hk6
    obtain ⟨_, _, _, T6, hlog6, _, _⟩ := hk6
    simp only [Res.world] at hlog6
    have hk7 := steps_addPermissionsFromSLA (fun _ => True) deps sla
      (fun _ _ _ _ _ => trivial) (fun _ _ _ => trivial) w6
    obtain ⟨_, _, _, T7, hlog7, _, _⟩ := hk7
    refine ⟨T1, T6 ++ T7, ?_, hq1⟩
    simp only []
    cases h7 : addPermissionsFromSLA deps sla w6 with
    | panic w7 =>
      rw [h7] at hlog7
      simp only [Res.world] at hlog7 ⊢
      rw [hlog7, hlog6, hlog1]
      simp
    | ok u7 w7 =>
      rw [h7] at hlog7
      simp only [Res.world, exec_pure_apply] at hlog7 ⊢
      rw [hlog7, hlog6, hlog1]
      simp

/-- What `LaunchFromSLA` issues starts with what its preparation issues. -/
theorem LaunchFromSLA_log_extends (deps : Deps) (cm : ContainerManager) (sla : SLA) (save : Bool)
    (w : World) :
    ∃ T3, (LaunchFromSLA deps cm sla save w).world.log
      = (LaunchFromSLA.prepare deps cm sla w).world.log ++ T3 := by
  cases hp : LaunchFromSLA.prepare deps cm sla w with
  | panic w1 =>
    rw [LaunchFromSLA_of_panic deps cm sla save w w1 hp]
    exact ⟨[], by simp [Res.world]⟩
  | ok prepared w1 =>
    cases prepared with
    | error e =>
      rw [LaunchFromSLA_of_error deps cm sla save w w1 e hp]
      exact ⟨[], by simp [Res.world]⟩
    | ok service =>
      cases he : cli.ServiceCreate.error w1 service with
      | some e =>
        rw [LaunchFromSLA_of_create_error deps cm sla save w w1 service e hp he]
        exact ⟨[Call.ServiceCreate service], rfl⟩
      | none =>
        obtain ⟨w3, hr, _, hlog, _⟩ := LaunchFromSLA_of_created deps cm sla save w w1 service hp he
        rw [hr]
        exact ⟨_, hlog⟩

/-- C22. The peers `LaunchFromSLA` passes to `ConnectEndpoints` are the
networks the `switch` on the type lists.  For a driver SLA they are
`["arbiter"]`.  For an app SLA whose hrefs parse they are listed without
repetition, and a name is among them exactly when it is `arbiter`,
`export-service` or the hostname of the href of a datasource.  Once the
networks are configured and the image is found, the first request
`LaunchFromSLA` makes to the core-network daemon is the connect request for
`sla.Name` with these peers. -/
theorem LaunchFromSLA_connect_peers (deps : Deps) (cm : ContainerManager) (sla : SLA)
    (save : Bool) (w : World) :
    (sla.DataboxType = DataboxTypeDriver → ∀ netConf,
      ∃ service, LaunchFromSLA.config deps cm sla sla.Name netConf
        = some (some (service, ["arbiter"])))
    ∧ (sla.DataboxType = DataboxTypeApp → ∀ netConf,
      ((∀ ds ∈ sla.Datasources, deps.urlParse ds.Hypercat.Href ≠ none) →
        ∃ service nets, LaunchFromSLA.config deps cm sla sla.Name netConf
          = some (some (service, nets)))
      ∧ ∀ service nets,
        LaunchFromSLA.config deps cm sla sla.Name netConf = some (some (service, nets)) →
        nets.Nodup ∧ ∀ p, p ∈ nets ↔
          (p = "arbiter" ∨ p = "export-service" ∨
            ∃ ds ∈ sla.Datasources, ∃ u,
              deps.urlParse ds.Hypercat.Href = some u ∧ u.Hostname = p))
    ∧ (∀ netConf service nets,
      (PreConfig deps sla.Name sla w).value = some netConf →
      LaunchFromSLA.config deps cm sla sla.Name netConf = some (some (service, nets)) →
      (imageExists service.TaskTemplate.ContainerSpec.Image
        (pullImageIfRequired service.TaskTemplate.ContainerSpec.Image cm.Options.DefaultRegistry
          cm.Options.DefaultRegistryHost (PreConfig deps sla.Name sla w).world).world).value
        = some true →
      ∃ T1 T2, issued (LaunchFromSLA deps cm sla save) w = T1 ++
          Call.Post "https://databox-network:8080/connect" (PostData.connect sla.Name nets) :: T2 ∧
        ∀ c ∈ T1, c.isPost = false) := by
  refine ⟨fun hd netConf => ?_, fun ha netConf => ⟨fun hurl => ?_, fun service nets hcfg => ?_⟩,
    fun netConf service nets hpre hcfg himg => ?_⟩
  · have hne : ¬ sla.DataboxType = DataboxTypeApp := by
      rw [hd]
      decide
    refine ⟨(getDriverConfig deps cm sla sla.Name netConf).1, ?_⟩
    simp only [LaunchFromSLA.config, if_neg hne, if_pos hd]
    rfl
  · obtain ⟨r, hr⟩ := getAppConfig_loop_some deps sla.Datasources hurl
      (deps.constructDefaultServiceSpec sla.Name (calculateImageNameFromSLA cm sla) DataboxTypeApp
        cm.Options.Version netConf).TaskTemplate.ContainerSpec.Env
      [("arbiter", "arbiter"), ("export-service", "export-service")]
    obtain ⟨env, m⟩ := r
    have hsome : ∃ r, getAppConfig deps cm sla sla.Name netConf = some r := by
      unfold getAppConfig
      dsimp only
      rw [hr]
      exact ⟨_, rfl⟩
    obtain ⟨⟨service, nets⟩, hg⟩ := hsome
    exact ⟨service, nets, by simp only [LaunchFromSLA.config, if_pos ha, hg]⟩
  · simp only [LaunchFromSLA.config, if_pos ha, Option.some.injEq] at hcfg
    exact getAppConfig_peers deps cm sla sla.Name netConf service nets hcfg
  · obtain ⟨T1, T2, hlog, hq⟩ := prepare_connects deps cm sla w netConf service nets hpre hcfg himg
    obtain ⟨T3, hext⟩ := LaunchFromSLA_log_extends deps cm sla save w
    refine ⟨T1, T2 ++ T3, issued_of_log ?_, hq⟩
    rw [hext, hlog]
    simp

/-- C22 on the sample driver, and on the sample app with the sensor listed
twice: the host of the sensor is a peer once. -/
theorem LaunchFromSLA_connect_peers_witness :
    (∃ service, LaunchFromSLA.config sampleDeps sampleCM sampleDriver sampleDriver.Name {}
        = some (some (service, ["arbiter"])))
    ∧ (["arbiter", "export-service", "driver-phone-core-store", "driver-hue-core-store"].Nodup
      ∧ ∀ p, p ∈ ["arbiter", "export-service", "driver-phone-core-store", "driver-hue-core-store"] ↔
        (p = "arbiter" ∨ p = "export-service" ∨
          ∃ ds ∈ [sampleSensor, sampleSensor, sampleActuator], ∃ u,
            sampleDeps.urlParse ds.Hypercat.Href = some u ∧ u.Hostname = p))
    ∧ (∃ T1 T2, issued (LaunchFromSLA sampleDeps sampleCM sampleApp true) sampleWorldWithImage
        = T1 ++ Call.Post "https://databox-network:8080/connect"
            (PostData.connect sampleApp.Name
              ((getAppConfig sampleDeps sampleCM sampleApp "weather"
                { NetworkName := "weather-network", DNS := "10.0.0.2" }).getD ({}, [])).2) :: T2
      ∧ ∀ c ∈ T1, c.isPost = false) :=
  ⟨(LaunchFromSLA_connect_peers sampleDeps sampleCM sampleDriver true sampleWorld).1 (by decide) {},
    ((LaunchFromSLA_connect_peers sampleDeps sampleCM
      { sampleApp with Datasources := [sampleSensor, sampleSensor, sampleActuator] } true
      sampleWorld).2.1 (by decide) {}).2
      ((getAppConfig sampleDeps sampleCM
        { sampleApp with Datasources := [sampleSensor, sampleSensor, sampleActuator] }
        "weather" {}).getD ({}, [])).1
      ["arbiter", "export-service", "driver-phone-core-store", "driver-hue-core-store"]
      (by decide),
    (LaunchFromSLA_connect_peers sampleDeps sampleCM sampleApp true sampleWorldWithImage).2.2
      { NetworkName := "weather-network", DNS := "10.0.0.2" }
      ((getAppConfig sampleDeps sampleCM sampleApp "weather"
        { NetworkName := "weather-network", DNS := "10.0.0.2" }).getD ({}, [])).1
      ((getAppConfig sampleDeps sampleCM sampleApp "weather"
        { NetworkName := "weather-network", DNS := "10.0.0.2" }).getD ({}, [])).2
      (by decide) (by decide) (by decide!)⟩

end Databox
